import Mathlib

/-!
# TenXClusterAligner: staged alignment of a barcode batch

A shallow embedding of `SNAPLib/TenXClusterAligner.cpp`.

* C arrays reached through raw pointers are total functions from their index; the loop
  counters and `barcodeSize` are natural numbers.
* `_int64` and `int` values are integers.  The only arithmetic performed on them is
  `capacity + 1`, `capacity - used` and `mapq / 3`; for the capacities and counts of buffers
  that exist in memory none of these leaves the 64-bit range (signed overflow is undefined
  in the source).  `mapq / 3` is the truncating division `Int.tdiv`.
* The delegate paired aligners (one per tracker slot, sharing Landau-Vishkin scratch state)
  and the shared single-read aligner are parameters: arbitrary functions over one shared
  delegate state `σ`.  Everything a delegate may write through a pointer it is handed is an
  output of the function; what it is not handed a pointer to, it cannot change.
* `State.calls` is a log of the delegate invocations, appended to at every call site, with
  the answers the stages branch on.  Statements about what a delegate "reports" or whether it
  "is invoked" are statements about the entries a call adds to this log.
-/

namespace TenXClusterAligner

/-! ## Data model -/

/-- Number of mates in a pair (`NUM_READS_PER_PAIR`). -/
def NUM_READS_PER_PAIR : Nat := 2

/-- Modelled from the spec: the `AlignmentResult` status enumeration (found / not found per
mate), declared in a header that is not part of the translated file. -/
inductive AlignmentResult where
  | NotFound
  | SingleHit
  | MultipleHits
  | UnknownAlignment
  deriving DecidableEq, Repr

/-- Modelled from the spec: the `Direction` enumeration of `directions.h`. -/
inductive Direction where
  | FORWARD
  | RC
  deriving DecidableEq, Repr

/-- Genome locations are 64-bit integers wrapped in a class. -/
abbrev GenomeLocation := Int

/-- Modelled from the spec: a `Read`, immutable input of which this file only asks the data
length; `bases` stands for the sequence data the delegates look at. -/
structure Read where
  getDataLength : Nat
  bases : List Nat
  deriving DecidableEq, Repr

/-- Modelled from the spec: `SingleAlignmentResult`, the per-mate result of the single-read
aligner. -/
structure SingleAlignmentResult where
  status : AlignmentResult
  location : GenomeLocation
  direction : Direction
  score : Int
  scorePriorToClipping : Int
  mapq : Int
  deriving DecidableEq, Repr

/-- Modelled from the spec: `PairedAlignmentResult`, two-element arrays indexed by mate plus
the pair flags and counters. -/
structure PairedAlignmentResult where
  location : Nat → GenomeLocation
  direction : Nat → Direction
  score : Nat → Int
  scorePriorToClipping : Nat → Int
  mapq : Nat → Int
  status : Nat → AlignmentResult
  fromAlignTogether : Bool
  alignedAsPair : Bool
  nanosInAlignTogether : Int
  nLVCalls : Nat
  nSmallHits : Nat

/-- Modelled from the spec: one `TenXProgressTracker` entry.  The delegate aligner the entry
points to lives in the shared delegate state. -/
structure TenXProgressTracker where
  pairNotDone : Bool
  singleNotDone : Bool
  nextLoci : GenomeLocation
  next : Option Nat

/-- One delegate invocation, with the arguments and answers the stages act upon.  Every call
of a delegate entry point in the translated file has a constructor. -/
inductive Call where
  | phase1 (slot : Nat) (stop : Bool)
  | phase2init (slot : Nat) (cont : Bool)
  | phase2getLoci (slot : Nat) (loci : GenomeLocation)
  | phase2toTarget (slot : Nat) (target : GenomeLocation)
  | phase3 (slot : Nat) (capacity : Int) (overflow : Bool)
  | phase4 (slot : Nat) (status0 status1 : AlignmentResult)
  | alignRead (slot mate : Nat) (capacity offset : Int) (fits : Bool)
      (res : SingleAlignmentResult) (nThisTime : Int)
  deriving DecidableEq, Repr

/-- The pair slot a delegate invocation was made for. -/
def Call.slot : Call → Nat
  | .phase1 i _ => i
  | .phase2init i _ => i
  | .phase2getLoci i _ => i
  | .phase2toTarget i _ => i
  | .phase3 i _ _ => i
  | .phase4 i _ _ => i
  | .alignRead i _ _ _ _ _ _ => i

/-- Whether the invocation is a call of the shared single-read aligner. -/
def Call.isAlignRead : Call → Bool
  | .alignRead _ _ _ _ _ _ _ => true
  | _ => false

/-- Output of `align_phase_1`: the delegate state, the returned flag and the two
`popularSeedsSkipped` entries it was given a pointer to. -/
structure Phase1Out (σ : Type) where
  world : σ
  stop : Bool
  popularSeedsSkipped : Nat × Nat

/-- Output of `align_phase_3`.  `best` bundles the by-reference locals (`bestPairScore`,
`bestResultGenomeLocation`, `bestResultDirection`, `probabilityOfAllPairs`,
`bestResultScore`, `probabilityOfBestPair`) that are handed on to `align_phase_4`. -/
structure Phase3Out (σ β : Type) where
  world : σ
  secondaryBufferOverflow : Bool
  nSecondaryResults : Int
  secondary : Nat → PairedAlignmentResult
  popularSeedsSkipped : Nat × Nat
  best : β

/-- Output of `align_phase_4`: the slot's result row (primary result at index 0, secondary
results behind it), its secondary count and the `popularSeedsSkipped` entries. -/
structure Phase4Out (σ : Type) where
  world : σ
  row : Nat → PairedAlignmentResult
  nSecondaryResults : Int
  popularSeedsSkipped : Nat × Nat

/-- Output of `BaseAligner::AlignRead`. -/
structure AlignReadOut (σ : Type) where
  world : σ
  fitInSecondaryBuffer : Bool
  singleResult : SingleAlignmentResult
  singleEndSecondaryResultsThisTime : Int
  buffer : Nat → SingleAlignmentResult

/-- The external collaborators: the per-slot paired aligners (addressed by slot index) and
the shared single-read aligner, all acting on one delegate state `σ`. -/
structure Delegates (σ β : Type) where
  align_phase_1 : σ → Nat → Read → Read → Nat × Nat → Phase1Out σ
  align_phase_2_init : σ → Nat → σ × Bool
  align_phase_2_get_loci : σ → Nat → GenomeLocation
  align_phase_2_to_target_loc : σ → Nat → GenomeLocation → σ
  align_phase_3 : σ → Nat → Int → Int → Int → (Nat → PairedAlignmentResult) → Int →
    Nat × Nat → Phase3Out σ β
  align_phase_4 : σ → Nat → Read → Read → (Nat → PairedAlignmentResult) → Int → Int → Int →
    Nat × Nat → β → Phase4Out σ
  AlignRead : σ → Read → Int → Int → Int → (Nat → SingleAlignmentResult) → AlignReadOut σ

/-- The members of the aligner object that the stages read. -/
structure Config where
  minReadLength : Nat
  forceSpacing : Bool

/-- The read-only arguments of `align`. -/
structure Input where
  pairedReads : Nat → Read
  barcodeSize : Nat
  maxEditDistanceForSecondaryResults : Int
  secondaryResultBufferSize : Nat → Int
  singleSecondaryBufferSize : Nat → Int
  maxSecondaryAlignmentsToReturn : Int

/-- Everything the stages mutate: the tracker array, the caller-owned result rows, counts and
buffers, the delegate state and the invocation log. -/
structure State (σ : Type) where
  progressTracker : Nat → TenXProgressTracker
  result : Nat → Nat → PairedAlignmentResult
  nSecondaryResults : Nat → Int
  nSingleEndSecondaryResults : Nat → Int
  singleEndSecondaryResults : Nat → Int → SingleAlignmentResult
  popularSeedsSkipped : Nat → Nat
  world : σ
  calls : List Call

/-! ## Control structures -/

/-- Array store `a[i] = v`. -/
def setAt {α : Type} (f : Nat → α) (i : Nat) (v : α) : Nat → α :=
  fun j => if j = i then v else f j

/-- The loop `for (k = 0; k < n; k++) body(k)`. -/
def forLoop {α : Type} (body : Nat → α → α) : Nat → α → α
  | 0, a => a
  | n + 1, a => body n (forLoop body n a)

/-- The loop `for (r = start; r < start + n; r++)` whose body may `break`: the body returns
the new state and whether it broke out. -/
def forLoopBreak {α : Type} (body : Nat → α → α × Bool) : Nat → Nat → α → α
  | 0, _, a => a
  | n + 1, r, a =>
    if (body r a).2 then (body r a).1 else forLoopBreak body n (r + 1) (body r a).1

variable {σ β : Type}

/-- Store into the primary result `*result[pairIdx]`. -/
def State.modResult (s : State σ) (pairIdx : Nat)
    (f : PairedAlignmentResult → PairedAlignmentResult) : State σ :=
  { s with result := setAt s.result pairIdx (setAt (s.result pairIdx) 0 (f (s.result pairIdx 0))) }

/-- Store into `progressTracker[pairIdx]`. -/
def State.modTracker (s : State σ) (pairIdx : Nat)
    (f : TenXProgressTracker → TenXProgressTracker) : State σ :=
  { s with progressTracker := setAt s.progressTracker pairIdx (f (s.progressTracker pairIdx)) }

/-- Append one delegate invocation to the log. -/
def State.log (s : State σ) (c : Call) : State σ :=
  { s with calls := s.calls ++ [c] }

/-! ## Stage 1 -/

/-- The body of the `whichRead` loop of the both-mates-too-short branch. -/
def clearMate (whichRead : Nat) (r : PairedAlignmentResult) : PairedAlignmentResult :=
  { r with
    location := setAt r.location whichRead 0
    mapq := setAt r.mapq whichRead 0
    score := setAt r.score whichRead 0
    status := setAt r.status whichRead AlignmentResult.NotFound }

/-- The stores of the both-mates-too-short branch into `*result[pairIdx]`. -/
def retireShort (r : PairedAlignmentResult) : PairedAlignmentResult :=
  { forLoop clearMate NUM_READS_PER_PAIR r with
    alignedAsPair := false
    fromAlignTogether := false
    nanosInAlignTogether := 0
    nLVCalls := 0
    nSmallHits := 0 }

/-- Body of the first loop of `align_first_stage`; the `Bool` is `barcodeFinished`. -/
def firstStageBody (cfg : Config) (D : Delegates σ β) (inp : Input) (pairIdx : Nat)
    (acc : State σ × Bool) : State σ × Bool :=
  if (acc.1.progressTracker pairIdx).pairNotDone then
    let s1 := acc.1.modResult pairIdx (fun r =>
      { r with status := setAt (setAt r.status 1 AlignmentResult.NotFound) 0
                 AlignmentResult.NotFound })
    let read0 := inp.pairedReads (pairIdx * NUM_READS_PER_PAIR)
    let read1 := inp.pairedReads (pairIdx * NUM_READS_PER_PAIR + 1)
    if read0.getDataLength < cfg.minReadLength ∧ read1.getDataLength < cfg.minReadLength then
      (((s1.modResult pairIdx retireShort).modTracker pairIdx
          (fun t => { t with pairNotDone := false })).modTracker pairIdx
          (fun t => { t with singleNotDone := false }), acc.2)
    else if cfg.minReadLength ≤ read0.getDataLength ∧ cfg.minReadLength ≤ read1.getDataLength then
      let o := D.align_phase_1 s1.world pairIdx read0 read1
        (s1.popularSeedsSkipped (pairIdx * NUM_READS_PER_PAIR),
         s1.popularSeedsSkipped (pairIdx * NUM_READS_PER_PAIR + 1))
      let s2 : State σ :=
        ({ s1 with
            world := o.world
            popularSeedsSkipped :=
              setAt (setAt s1.popularSeedsSkipped (pairIdx * NUM_READS_PER_PAIR)
                o.popularSeedsSkipped.1) (pairIdx * NUM_READS_PER_PAIR + 1)
                o.popularSeedsSkipped.2 } : State σ).log (Call.phase1 pairIdx o.stop)
      let s3 := s2.modTracker pairIdx (fun t => { t with pairNotDone := !o.stop })
      if (s3.progressTracker pairIdx).pairNotDone then
        let i := D.align_phase_2_init s3.world pairIdx
        let s4 : State σ := ({ s3 with world := i.1 } : State σ).log (Call.phase2init pairIdx i.2)
        let s5 := s4.modTracker pairIdx (fun t => { t with pairNotDone := i.2 })
        let s6 := (s5.modTracker pairIdx (fun t =>
          { t with nextLoci := D.align_phase_2_get_loci s5.world pairIdx })).log
          (Call.phase2getLoci pairIdx (D.align_phase_2_get_loci s5.world pairIdx))
        (s6.modTracker pairIdx (fun t => { t with next := none }), false)
      else (s3, false)
    else (s1, false)
  else acc

/-- The target locus of the second loop: `GenomeLocation(0000000000)`. -/
def clusterTargetLoc : GenomeLocation := 0

/-- Body of the second loop of `align_first_stage` (the `fprintf` to `stderr` has no effect
on the state). -/
def targetLocBody (D : Delegates σ β) (pairIdx : Nat) (s : State σ) : State σ :=
  if (s.progressTracker pairIdx).pairNotDone then
    ({ s with world := D.align_phase_2_to_target_loc s.world pairIdx clusterTargetLoc }
      : State σ).log (Call.phase2toTarget pairIdx clusterTargetLoc)
  else s

/-- `TenXClusterAligner::align_first_stage`. -/
def align_first_stage (cfg : Config) (D : Delegates σ β) (inp : Input) (s : State σ) :
    State σ × Bool :=
  let a := forLoop (firstStageBody cfg D inp) inp.barcodeSize (s, true)
  (forLoop (targetLocBody D) inp.barcodeSize a.1, a.2)

/-! ## Stage 2 -/

/-- The classification at the end of one iteration of `align_second_stage`, after
`align_phase_4` has materialised the result.  The `_ASSERT` of the forced-spacing branch is
compiled out of release builds and changes no state. -/
def classify (cfg : Config) (pairIdx : Nat) (s : State σ) : State σ :=
  let s1 := ((s.modResult pairIdx (fun r => { r with nanosInAlignTogether := 0 })).modResult
    pairIdx (fun r => { r with fromAlignTogether := true })).modResult pairIdx
    (fun r => { r with alignedAsPair := true })
  if cfg.forceSpacing then
    let s2 :=
      if (s1.result pairIdx 0).status 0 = AlignmentResult.NotFound then
        s1.modResult pairIdx (fun r => { r with fromAlignTogether := false })
      else s1
    (s2.modTracker pairIdx (fun t => { t with pairNotDone := false })).modTracker pairIdx
      (fun t => { t with singleNotDone := false })
  else if (s1.result pairIdx 0).status 0 ≠ AlignmentResult.NotFound ∧
      (s1.result pairIdx 0).status 1 ≠ AlignmentResult.NotFound then
    (s1.modTracker pairIdx (fun t => { t with pairNotDone := false })).modTracker pairIdx
      (fun t => { t with singleNotDone := false })
  else
    s1.modTracker pairIdx (fun t => { t with pairNotDone := false })

/-- The state right after the call of `align_phase_3` for slot `pairIdx`: the two single-end
counts of the pair have been zeroed, and the delegate has written the paired secondary count,
the secondary results `result[pairIdx][1..]` and the `popularSeedsSkipped` entries. -/
def afterPhase3 (inp : Input) (pairIdx : Nat) (s : State σ) (o : Phase3Out σ β) : State σ :=
  ({ s with
      nSingleEndSecondaryResults :=
        setAt (setAt s.nSingleEndSecondaryResults (NUM_READS_PER_PAIR * pairIdx) 0)
          (NUM_READS_PER_PAIR * pairIdx + 1) 0
      world := o.world
      nSecondaryResults := setAt s.nSecondaryResults pairIdx o.nSecondaryResults
      result := setAt s.result pairIdx
        (fun k => if k = 0 then s.result pairIdx 0 else o.secondary (k - 1))
      popularSeedsSkipped :=
        setAt (setAt s.popularSeedsSkipped (pairIdx * NUM_READS_PER_PAIR)
          o.popularSeedsSkipped.1) (pairIdx * NUM_READS_PER_PAIR + 1) o.popularSeedsSkipped.2 }
    : State σ).log
    (Call.phase3 pairIdx (inp.secondaryResultBufferSize pairIdx) o.secondaryBufferOverflow)

/-- The state right after the call of `align_phase_4` for slot `pairIdx`. -/
def afterPhase4 (pairIdx : Nat) (s : State σ) (p : Phase4Out σ) : State σ :=
  ({ s with
      world := p.world
      result := setAt s.result pairIdx p.row
      nSecondaryResults := setAt s.nSecondaryResults pairIdx p.nSecondaryResults
      popularSeedsSkipped :=
        setAt (setAt s.popularSeedsSkipped (pairIdx * NUM_READS_PER_PAIR)
          p.popularSeedsSkipped.1) (pairIdx * NUM_READS_PER_PAIR + 1) p.popularSeedsSkipped.2 }
    : State σ).log (Call.phase4 pairIdx ((p.row 0).status 0) ((p.row 0).status 1))

/-- The call `progressTracker[pairIdx].aligner->align_phase_3(...)` of `align_second_stage`. -/
def callPhase3 (D : Delegates σ β) (inp : Input) (pairIdx : Nat) (s : State σ) :
    Phase3Out σ β :=
  D.align_phase_3 s.world pairIdx inp.maxEditDistanceForSecondaryResults
    (inp.secondaryResultBufferSize pairIdx) (s.nSecondaryResults pairIdx)
    (fun k => s.result pairIdx (k + 1)) inp.maxSecondaryAlignmentsToReturn
    (s.popularSeedsSkipped (pairIdx * NUM_READS_PER_PAIR),
     s.popularSeedsSkipped (pairIdx * NUM_READS_PER_PAIR + 1))

/-- The call `progressTracker[pairIdx].aligner->align_phase_4(...)` of `align_second_stage`,
made in the state `s` left by `align_phase_3`, with the locals `best` it filled in. -/
def callPhase4 (D : Delegates σ β) (inp : Input) (pairIdx : Nat) (s : State σ) (best : β) :
    Phase4Out σ :=
  D.align_phase_4 s.world pairIdx (inp.pairedReads (pairIdx * NUM_READS_PER_PAIR))
    (inp.pairedReads (pairIdx * NUM_READS_PER_PAIR + 1)) (s.result pairIdx)
    inp.maxEditDistanceForSecondaryResults (s.nSecondaryResults pairIdx)
    inp.maxSecondaryAlignmentsToReturn
    (s.popularSeedsSkipped (pairIdx * NUM_READS_PER_PAIR),
     s.popularSeedsSkipped (pairIdx * NUM_READS_PER_PAIR + 1)) best

/-- Body of the loop of `align_second_stage`; the `Bool` is `barcodeFinished`. -/
def secondStageBody (cfg : Config) (D : Delegates σ β) (inp : Input) (pairIdx : Nat)
    (acc : State σ × Bool) : State σ × Bool :=
  if (acc.1.progressTracker pairIdx).pairNotDone then
    let o := callPhase3 D inp pairIdx acc.1
    let s1 := afterPhase3 inp pairIdx acc.1 o
    if o.secondaryBufferOverflow then
      ({ s1 with
          nSingleEndSecondaryResults :=
            setAt (setAt s1.nSingleEndSecondaryResults (NUM_READS_PER_PAIR * pairIdx + 1) 0)
              (NUM_READS_PER_PAIR * pairIdx) 0
          nSecondaryResults :=
            setAt s1.nSecondaryResults pairIdx (inp.secondaryResultBufferSize pairIdx + 1) },
        false)
    else
      (classify cfg pairIdx (afterPhase4 pairIdx s1 (callPhase4 D inp pairIdx s1 o.best)), acc.2)
  else acc

/-- `TenXClusterAligner::align_second_stage`. -/
def align_second_stage (cfg : Config) (D : Delegates σ β) (inp : Input) (s : State σ) :
    State σ × Bool :=
  forLoop (secondStageBody cfg D inp) inp.barcodeSize (s, true)

/-! ## Stage 3 -/

/-- The local variables of one iteration of the pair loop of `align_third_stage` that
outlive the mate loop, together with the state. -/
structure MateAcc (σ : Type) where
  state : State σ
  barcodeFinished : Bool
  noOverflow : Bool

/-- The call `singleAligner->AlignRead(...)` of `align_third_stage` for mate `r` of slot
`pairIdx`: the capacity and the output position both subtract, respectively add, the current
value of the first mate's single-end secondary count. -/
def callAlignRead (D : Delegates σ β) (inp : Input) (pairIdx r : Nat) (s : State σ) :
    AlignReadOut σ :=
  D.AlignRead s.world (inp.pairedReads (pairIdx * NUM_READS_PER_PAIR + r))
    inp.maxEditDistanceForSecondaryResults
    (inp.singleSecondaryBufferSize pairIdx -
      s.nSingleEndSecondaryResults (NUM_READS_PER_PAIR * pairIdx))
    inp.maxSecondaryAlignmentsToReturn
    (fun k => s.singleEndSecondaryResults pairIdx
      (s.nSingleEndSecondaryResults (NUM_READS_PER_PAIR * pairIdx) + (k : Int)))

/-- The state right after the call of `AlignRead` for mate `r` of slot `pairIdx`. -/
def afterAlignRead (inp : Input) (pairIdx r : Nat) (s : State σ) (o : AlignReadOut σ) :
    State σ :=
  ({ s with
      world := o.world
      singleEndSecondaryResults := setAt s.singleEndSecondaryResults pairIdx
        (fun j => if s.nSingleEndSecondaryResults (NUM_READS_PER_PAIR * pairIdx) ≤ j then
            o.buffer (j - s.nSingleEndSecondaryResults (NUM_READS_PER_PAIR * pairIdx)).toNat
          else s.singleEndSecondaryResults pairIdx j) } : State σ).log
    (Call.alignRead pairIdx r
      (inp.singleSecondaryBufferSize pairIdx -
        s.nSingleEndSecondaryResults (NUM_READS_PER_PAIR * pairIdx))
      (s.nSingleEndSecondaryResults (NUM_READS_PER_PAIR * pairIdx))
      o.fitInSecondaryBuffer o.singleResult o.singleEndSecondaryResultsThisTime)

/-- The stores of the short-mate branch of the mate loop into `*result[pairIdx]`. -/
def markShort (r : Nat) (res : PairedAlignmentResult) : PairedAlignmentResult :=
  { res with
    status := setAt res.status r AlignmentResult.NotFound
    mapq := setAt res.mapq r 0
    direction := setAt res.direction r Direction.FORWARD
    location := setAt res.location r 0
    score := setAt res.score r 0 }

/-- The stores of the mate loop into `*result[pairIdx]` after a successful `AlignRead`; the
`int` division `singleResult.mapq / 3` truncates toward zero. -/
def storeSingle (r : Nat) (singleResult : SingleAlignmentResult)
    (res : PairedAlignmentResult) : PairedAlignmentResult :=
  { res with
    status := setAt res.status r singleResult.status
    mapq := setAt res.mapq r (Int.tdiv singleResult.mapq 3)
    direction := setAt res.direction r singleResult.direction
    location := setAt res.location r singleResult.location
    score := setAt res.score r singleResult.score
    scorePriorToClipping := setAt res.scorePriorToClipping r singleResult.scorePriorToClipping }

/-- The stores of the `!fitInSecondaryBuffer` branch: `*nSecondaryResults = 0` writes element
0 of the paired count array, then the two single-end counts of the pair are set. -/
def storeOverflow (inp : Input) (pairIdx : Nat) (s : State σ) : State σ :=
  { s with
    nSecondaryResults := setAt s.nSecondaryResults 0 0
    nSingleEndSecondaryResults :=
      setAt (setAt s.nSingleEndSecondaryResults (NUM_READS_PER_PAIR * pairIdx)
        (inp.singleSecondaryBufferSize pairIdx + 1)) (NUM_READS_PER_PAIR * pairIdx + 1) 0 }

/-- The store `*(resultCount[r]) = singleEndSecondaryResultsThisTime`. -/
def storeCount (pairIdx r : Nat) (n : Int) (s : State σ) : State σ :=
  { s with
    nSingleEndSecondaryResults :=
      setAt s.nSingleEndSecondaryResults (NUM_READS_PER_PAIR * pairIdx + r) n }

/-- Body of the mate loop (`for r`) of `align_third_stage`; the returned `Bool` says whether
the body left the loop through `break`. -/
def thirdStageMate (cfg : Config) (D : Delegates σ β) (inp : Input) (pairIdx r : Nat)
    (a : MateAcc σ) : MateAcc σ × Bool :=
  if (inp.pairedReads (pairIdx * NUM_READS_PER_PAIR + r)).getDataLength < cfg.minReadLength then
    ({ a with state := a.state.modResult pairIdx (markShort r) }, false)
  else
    let o := callAlignRead D inp pairIdx r a.state
    let s1 := afterAlignRead inp pairIdx r a.state o
    if !o.fitInSecondaryBuffer then
      ({ state := storeOverflow inp pairIdx s1, barcodeFinished := false, noOverflow := false },
        true)
    else
      ({ a with
          state := (storeCount pairIdx r o.singleEndSecondaryResultsThisTime s1).modResult
            pairIdx (storeSingle r o.singleResult) }, false)

/-- Body of the pair loop of `align_third_stage`; the `Bool` is `barcodeFinished`. -/
def thirdStageBody (cfg : Config) (D : Delegates σ β) (inp : Input) (pairIdx : Nat)
    (acc : State σ × Bool) : State σ × Bool :=
  if (acc.1.progressTracker pairIdx).singleNotDone then
    let a := forLoopBreak (thirdStageMate cfg D inp pairIdx) NUM_READS_PER_PAIR 0
      { state := acc.1, barcodeFinished := acc.2, noOverflow := true }
    if a.noOverflow then
      (((a.state.modTracker pairIdx (fun t => { t with singleNotDone := false })).modResult
        pairIdx (fun r => { r with fromAlignTogether := false })).modResult pairIdx
        (fun r => { r with alignedAsPair := false }), a.barcodeFinished)
    else (a.state, a.barcodeFinished)
  else acc

/-- `TenXClusterAligner::align_third_stage`. -/
def align_third_stage (cfg : Config) (D : Delegates σ β) (inp : Input) (s : State σ) :
    State σ × Bool :=
  forLoop (thirdStageBody cfg D inp) inp.barcodeSize (s, true)

/-! ## Top level -/

/-- `TenXClusterAligner::align`. -/
def align (cfg : Config) (D : Delegates σ β) (inp : Input) (s : State σ) : State σ × Bool :=
  let r1 := align_first_stage cfg D inp s
  if r1.2 then (r1.1, true)
  else
    let r2 := align_second_stage cfg D inp r1.1
    if !r2.2 then (r2.1, false)
    else
      let r3 := align_third_stage cfg D inp r2.1
      if r3.2 then (r3.1, true) else (r3.1, false)

/-! ## The part of the state that belongs to one pair slot -/

/-- The delegate invocations of a log that were made for slot `i`. -/
def slotCalls (i : Nat) (l : List Call) : List Call :=
  l.filter (fun c => decide (c.slot = i))

/-- What slot `i` owns: its tracker entry, its result row, its two single-end secondary
counts and the delegate invocations made for it. -/
structure SlotView where
  tracker : TenXProgressTracker
  row : Nat → PairedAlignmentResult
  nSingleFirst : Int
  nSingleSecond : Int
  calls : List Call

/-- Projection of the state onto slot `i`. -/
def slotView (i : Nat) (s : State σ) : SlotView :=
  { tracker := s.progressTracker i
    row := s.result i
    nSingleFirst := s.nSingleEndSecondaryResults (NUM_READS_PER_PAIR * i)
    nSingleSecond := s.nSingleEndSecondaryResults (NUM_READS_PER_PAIR * i + 1)
    calls := slotCalls i s.calls }

/-! ## Stage 3 seen from one slot -/

/-- The answer of one `AlignRead` call that Stage 3 acts upon. -/
structure SingleAnswer where
  fits : Bool
  res : SingleAlignmentResult
  n : Int

/-- The view of slot `i` together with the local flags of the pair loop of Stage 3. -/
structure MateView where
  slot : SlotView
  barcodeFinished : Bool
  noOverflow : Bool

/-- Projection of the mate-loop accumulator onto slot `i`. -/
def mateViewOf (i : Nat) (a : MateAcc σ) : MateView :=
  { slot := slotView i a.state, barcodeFinished := a.barcodeFinished,
    noOverflow := a.noOverflow }

/-- Effect of the mate-loop body for mate `r` of slot `i` on the slot's view, given the answer
`o` of the single-read aligner (ignored when the mate is too short to be aligned). -/
def mateStep (cfg : Config) (inp : Input) (i r : Nat) (o : SingleAnswer) (m : MateView) :
    MateView × Bool :=
  if (inp.pairedReads (i * NUM_READS_PER_PAIR + r)).getDataLength < cfg.minReadLength then
    ({ m with slot := { m.slot with row := setAt m.slot.row 0 (markShort r (m.slot.row 0)) } },
      false)
  else if !o.fits then
    ({ slot :=
        { m.slot with
          calls := m.slot.calls ++
            [Call.alignRead i r (inp.singleSecondaryBufferSize i - m.slot.nSingleFirst)
              m.slot.nSingleFirst o.fits o.res o.n]
          nSingleFirst := inp.singleSecondaryBufferSize i + 1
          nSingleSecond := 0 }
       barcodeFinished := false
       noOverflow := false }, true)
  else
    ({ m with
        slot :=
          { m.slot with
            calls := m.slot.calls ++
              [Call.alignRead i r (inp.singleSecondaryBufferSize i - m.slot.nSingleFirst)
                m.slot.nSingleFirst o.fits o.res o.n]
            nSingleFirst := if r = 0 then o.n else m.slot.nSingleFirst
            nSingleSecond := if r = 0 then m.slot.nSingleSecond else o.n
            row := setAt m.slot.row 0 (storeSingle r o.res (m.slot.row 0)) } }, false)

/-- The view of slot `i` when the mate loop of Stage 3 is left, given the answers of the
single-read aligner for the two mates. -/
def mateLoopView (cfg : Config) (inp : Input) (i : Nat) (o0 o1 : SingleAnswer) (v : SlotView)
    (barcodeFinished : Bool) : MateView :=
  if (mateStep cfg inp i 0 o0 ⟨v, barcodeFinished, true⟩).2 then
    (mateStep cfg inp i 0 o0 ⟨v, barcodeFinished, true⟩).1
  else (mateStep cfg inp i 1 o1 (mateStep cfg inp i 0 o0 ⟨v, barcodeFinished, true⟩).1).1

/-- Effect of one iteration of the pair loop of Stage 3 on a slot with `singleNotDone` set,
given the answers of the single-read aligner for the two mates. -/
def thirdStageSlot (cfg : Config) (inp : Input) (i : Nat) (o0 o1 : SingleAnswer) (v : SlotView)
    (barcodeFinished : Bool) : SlotView × Bool :=
  if (mateLoopView cfg inp i o0 o1 v barcodeFinished).noOverflow then
    ({ (mateLoopView cfg inp i o0 o1 v barcodeFinished).slot with
        tracker :=
          { (mateLoopView cfg inp i o0 o1 v barcodeFinished).slot.tracker with
            singleNotDone := false }
        row := setAt (mateLoopView cfg inp i o0 o1 v barcodeFinished).slot.row 0
          { (mateLoopView cfg inp i o0 o1 v barcodeFinished).slot.row 0 with
            fromAlignTogether := false, alignedAsPair := false } },
      (mateLoopView cfg inp i o0 o1 v barcodeFinished).barcodeFinished)
  else ((mateLoopView cfg inp i o0 o1 v barcodeFinished).slot,
    (mateLoopView cfg inp i o0 o1 v barcodeFinished).barcodeFinished)

/-- The `AlignRead` invocations that one Stage 3 iteration makes for slot `i`, given the
slot's view `v` at entry and the answers of the aligner: mate 0 is aligned unless it is too
short; mate 1 is aligned unless it is too short or mate 0 overflowed.  The capacity and the
output offset are taken from the first mate's count as it stands at the time of the call. -/
def stage3Calls (cfg : Config) (inp : Input) (i : Nat) (o0 o1 : SingleAnswer) (v : SlotView) :
    List Call :=
  (if (inp.pairedReads (i * NUM_READS_PER_PAIR)).getDataLength < cfg.minReadLength then []
   else [Call.alignRead i 0 (inp.singleSecondaryBufferSize i - v.nSingleFirst) v.nSingleFirst
      o0.fits o0.res o0.n]) ++
  (if (inp.pairedReads (i * NUM_READS_PER_PAIR + 1)).getDataLength < cfg.minReadLength ∨
      (¬(inp.pairedReads (i * NUM_READS_PER_PAIR)).getDataLength < cfg.minReadLength ∧
        o0.fits = false) then []
   else [Call.alignRead i 1
      (inp.singleSecondaryBufferSize i -
        (if (inp.pairedReads (i * NUM_READS_PER_PAIR)).getDataLength < cfg.minReadLength
          then v.nSingleFirst else o0.n))
      (if (inp.pairedReads (i * NUM_READS_PER_PAIR)).getDataLength < cfg.minReadLength
        then v.nSingleFirst else o0.n)
      o1.fits o1.res o1.n])

/-- Whether one Stage 3 iteration for slot `i` overflows: on mate 0, or on mate 1 after mate 0
was skipped as too short or aligned successfully. -/
def stage3Overflows (cfg : Config) (inp : Input) (i : Nat) (o0 o1 : SingleAnswer) : Prop :=
  (¬(inp.pairedReads (i * NUM_READS_PER_PAIR)).getDataLength < cfg.minReadLength ∧
    o0.fits = false) ∨
  (((inp.pairedReads (i * NUM_READS_PER_PAIR)).getDataLength < cfg.minReadLength ∨
      o0.fits = true) ∧
    ¬(inp.pairedReads (i * NUM_READS_PER_PAIR + 1)).getDataLength < cfg.minReadLength ∧
    o1.fits = false)

/-! ## Sample collaborators and inputs -/

/-- A read of length `len` all of whose bases are `b`. -/
def mkRead (len b : Nat) : Read :=
  { getDataLength := len, bases := List.replicate len b }

/-- The sample aligners place a read exactly when all its bases are proper bases (`< 4`). -/
def readFound (r : Read) : Bool := r.bases.all (fun b => decide (b < 4))

/-- Status reported by the sample aligners for a read. -/
def sampleStatus (r : Read) : AlignmentResult :=
  if readFound r then AlignmentResult.SingleHit else AlignmentResult.NotFound

/-- Sample collaborators.  The delegate state counts the invocations.  Every pair has
`nPaired` paired secondary hits and every read `nSingle` single-end secondary hits, so a
collection overflows exactly when the capacity it is given is smaller than that.  Seed
lookup stops when neither mate can be placed. -/
def sampleDelegates (nPaired nSingle : Int) : Delegates Nat Nat :=
  { align_phase_1 := fun w _ r0 r1 pop =>
      { world := w + 1, stop := !readFound r0 && !readFound r1, popularSeedsSkipped := pop }
    align_phase_2_init := fun w _ => (w + 1, true)
    align_phase_2_get_loci := fun _ slot => (slot : Int) + 1000
    align_phase_2_to_target_loc := fun w _ _ => w + 1
    align_phase_3 := fun w _ _ cap n sec _ pop =>
      { world := w + 1
        secondaryBufferOverflow := decide (cap < nPaired)
        nSecondaryResults := if cap < nPaired then n else nPaired
        secondary := sec
        popularSeedsSkipped := pop
        best := 65536 }
    align_phase_4 := fun w _ r0 r1 row _ n _ pop _ =>
      { world := w + 1
        row := setAt row 0
          { row 0 with
            status := setAt (setAt (row 0).status 0 (sampleStatus r0)) 1 (sampleStatus r1)
            mapq := setAt (setAt (row 0).mapq 0 60) 1 60 }
        nSecondaryResults := n
        popularSeedsSkipped := pop }
    AlignRead := fun w r _ cap _ buf =>
      { world := w + 1
        fitInSecondaryBuffer := decide (nSingle ≤ cap)
        singleResult :=
          { status := sampleStatus r
            location := 500
            direction := Direction.RC
            score := 2
            scorePriorToClipping := 3
            mapq := 70 }
        singleEndSecondaryResultsThisTime := if nSingle ≤ cap then nSingle else 0
        buffer := buf } }

/-- A blank result record. -/
def blankResult : PairedAlignmentResult :=
  { location := fun _ => 7
    direction := fun _ => Direction.FORWARD
    score := fun _ => 7
    scorePriorToClipping := fun _ => 7
    mapq := fun _ => 7
    status := fun _ => AlignmentResult.UnknownAlignment
    fromAlignTogether := true
    alignedAsPair := true
    nanosInAlignTogether := 7
    nLVCalls := 7
    nSmallHits := 7 }

/-- A blank single-read result. -/
def blankSingle : SingleAlignmentResult :=
  { status := AlignmentResult.UnknownAlignment, location := 0, direction := Direction.FORWARD,
    score := 0, scorePriorToClipping := 0, mapq := 0 }

/-- The state at the start of a batch: every slot has both progress flags set. -/
def freshState : State Nat :=
  { progressTracker := fun _ =>
      { pairNotDone := true, singleNotDone := true, nextLoci := 0, next := none }
    result := fun _ _ => blankResult
    nSecondaryResults := fun _ => 0
    nSingleEndSecondaryResults := fun _ => 0
    singleEndSecondaryResults := fun _ _ => blankSingle
    popularSeedsSkipped := fun _ => 0
    world := 0
    calls := [] }

/-- A batch of the given reads with the same capacities for every slot. -/
def sampleInput (reads : Nat → Read) (barcodeSize : Nat) (pairedCap singleCap : Int) : Input :=
  { pairedReads := reads
    barcodeSize := barcodeSize
    maxEditDistanceForSecondaryResults := 3
    secondaryResultBufferSize := fun _ => pairedCap
    singleSecondaryBufferSize := fun _ => singleCap
    maxSecondaryAlignmentsToReturn := 10 }

/-- Three pairs with minimum read length 20 in mind: pair 0 has two mates of length 10, pair 1
two placeable mates of length 50, pair 2 a placeable mate 0 and an unplaceable mate 1. -/
def threePairs : Nat → Read
  | 0 => mkRead 10 1
  | 1 => mkRead 10 1
  | 2 => mkRead 50 1
  | 3 => mkRead 50 2
  | 4 => mkRead 50 1
  | _ => mkRead 50 9

/-- One pair of two long mates of which only mate 0 can be placed. -/
def chimericPair : Nat → Read
  | 0 => mkRead 50 1
  | _ => mkRead 50 9

/-- The one-pair batch `chimericPair` after Stages 1 and 2 of a first call of `align`, made
with paired capacity 5 for collaborators with 2 paired and 3 single-end secondary hits. -/
def afterSecondStage : State Nat :=
  (align_second_stage ⟨20, false⟩ (sampleDelegates 2 3) (sampleInput chimericPair 1 5 0)
    (align_first_stage ⟨20, false⟩ (sampleDelegates 2 3) (sampleInput chimericPair 1 5 0)
      freshState).1).1

/-- The one-pair batch `chimericPair` as a first call of `align` with single-end capacity 0
leaves it: Stage 3 overflowed on mate 0. -/
def pendingState : State Nat :=
  (align ⟨20, false⟩ (sampleDelegates 2 3) (sampleInput chimericPair 1 5 0) freshState).1

/-- One pair of two long mates neither of which can be placed. -/
def unplaceablePair : Nat → Read := fun _ => mkRead 50 9

/-- Two pairs of long mates: pair 0 can be placed as a pair, pair 1 has an unplaceable
mate 1. -/
def twoPairs : Nat → Read
  | 0 => mkRead 50 1
  | 1 => mkRead 50 2
  | 2 => mkRead 50 1
  | _ => mkRead 50 9

/-- The batch `twoPairs` after Stages 1 and 2 of a call of `align` made with paired capacity 5
and single-end capacity 0, for collaborators with 2 paired and 3 single-end secondary hits:
pair 0 is retired, pair 1 is headed to Stage 3, and both paired secondary counts are 2. -/
def twoPairsAfterSecondStage : State Nat :=
  (align_second_stage ⟨20, false⟩ (sampleDelegates 2 3) (sampleInput twoPairs 2 5 0)
    (align_first_stage ⟨20, false⟩ (sampleDelegates 2 3) (sampleInput twoPairs 2 5 0)
      freshState).1).1

/-- One pair whose mate 0 is too short (length 10 against a minimum of 20) and whose long
mate 1 cannot be placed. -/
def shortFirstPair : Nat → Read
  | 0 => mkRead 10 1
  | _ => mkRead 50 9

/-- One pair whose long mate 0 cannot be placed and whose mate 1 is too short. -/
def shortSecondPair : Nat → Read
  | 0 => mkRead 50 9
  | _ => mkRead 10 1

/-- The batch `shortFirstPair` after Stages 1 and 2 of a call of `align` made with paired
capacity 5 and single-end capacity 0: the pair is headed to Stage 3 with both single-end
counts 0. -/
def shortFirstAfterSecondStage : State Nat :=
  (align_second_stage ⟨20, false⟩ (sampleDelegates 2 3) (sampleInput shortFirstPair 1 5 0)
    (align_first_stage ⟨20, false⟩ (sampleDelegates 2 3) (sampleInput shortFirstPair 1 5 0)
      freshState).1).1

/-- The batch `shortSecondPair` after Stages 1 and 2 of a call of `align` made with paired
capacity 5 and single-end capacity 0: the pair is headed to Stage 3, mate 1 carrying the
status `SingleHit` of the paired result. -/
def shortSecondAfterSecondStage : State Nat :=
  (align_second_stage ⟨20, false⟩ (sampleDelegates 2 3) (sampleInput shortSecondPair 1 5 0)
    (align_first_stage ⟨20, false⟩ (sampleDelegates 2 3) (sampleInput shortSecondPair 1 5 0)
      freshState).1).1

/-- The three-pair batch after one call of `align` with capacities 5: every pair is retired. -/
def finishedState : State Nat :=
  (align ⟨20, false⟩ (sampleDelegates 2 1) (sampleInput threePairs 3 5 5) freshState).1

/-- The three-pair batch after one call of `align` with paired capacity 0: pair 0 is retired
in Stage 1, pairs 1 and 2 overflowed in Stage 2 and are still pending. -/
def overflowedState : State Nat :=
  (align ⟨20, false⟩ (sampleDelegates 2 1) (sampleInput threePairs 3 0 5) freshState).1

/-! ## Loop lemmas -/

theorem forLoop_inv {α : Type} (P : α → Prop) (body : Nat → α → α) (n : Nat) (a : α)
    (h0 : P a) (hstep : ∀ k b, k < n → P b → P (body k b)) : P (forLoop body n a) := by
  induction n with
  | zero => exact h0
  | succ m ih =>
    exact hstep m _ (Nat.lt_succ_self m)
      (ih (fun k b hk hb => hstep k b (Nat.lt_succ_of_lt hk) hb))

theorem forLoop_view_before {α V : Type} (view : α → V) (body : Nat → α → α) (i : Nat)
    (frame : ∀ k b, k ≠ i → view (body k b) = view b) (m : Nat) (hm : m ≤ i) (a : α) :
    view (forLoop body m a) = view a := by
  induction m with
  | zero => rfl
  | succ k ih =>
    have hk : k ≠ i := by omega
    show view (body k (forLoop body k a)) = view a
    rw [frame k _ hk]
    exact ih (by omega)

theorem forLoop_view_after {α V : Type} (view : α → V) (body : Nat → α → α) (i : Nat)
    (frame : ∀ k b, k ≠ i → view (body k b) = view b) (n : Nat) (hn : i < n) (a : α) :
    view (forLoop body n a) = view (body i (forLoop body i a)) := by
  induction n with
  | zero => omega
  | succ k ih =>
    by_cases hk : k = i
    · subst hk; rfl
    · show view (body k (forLoop body k a)) = _
      rw [frame k _ hk]
      exact ih (by omega)

/-- A flag that no iteration ever raises stays down once iteration `i` has lowered it. -/
theorem forLoop_flag_after {α : Type} (flag : α → Bool) (body : Nat → α → α) (i : Nat)
    (mono : ∀ k b, flag b = false → flag (body k b) = false) (n : Nat) (hn : i < n) (a : α)
    (h : flag (body i (forLoop body i a)) = false) : flag (forLoop body n a) = false := by
  induction n with
  | zero => omega
  | succ k ih =>
    by_cases hk : k = i
    · subst hk; exact h
    · exact mono k _ (ih (by omega))

theorem forLoop_flag_mono {α : Type} (flag : α → Bool) (body : Nat → α → α)
    (mono : ∀ k b, flag b = false → flag (body k b) = false) (n : Nat) (a : α)
    (h : flag a = false) : flag (forLoop body n a) = false :=
  forLoop_inv (fun b => flag b = false) body n a h (fun k b _ hb => mono k b hb)

theorem slotCalls_append (i : Nat) (l₁ l₂ : List Call) :
    slotCalls i (l₁ ++ l₂) = slotCalls i l₁ ++ slotCalls i l₂ := by
  simp [slotCalls]

theorem mem_slotCalls {i : Nat} {l : List Call} {c : Call} :
    c ∈ slotCalls i l ↔ c ∈ l ∧ c.slot = i := by
  simp [slotCalls]

/-- If the log grew by `evs` and its slot-`i` part grew by `new`, then `new` is the slot-`i`
part of `evs`. -/
theorem slotCalls_new {i : Nat} {old full evs new : List Call} (h : full = old ++ evs)
    (hv : slotCalls i full = slotCalls i old ++ new) : slotCalls i evs = new := by
  subst h
  rw [slotCalls_append] at hv
  exact List.append_cancel_left hv

/-! ## Frame lemmas: an iteration for slot `k` leaves every other slot alone -/

theorem firstStageBody_frame (cfg : Config) (D : Delegates σ β) (inp : Input) (i k : Nat)
    (hk : k ≠ i) (acc : State σ × Bool) :
    slotView i (firstStageBody cfg D inp k acc).1 = slotView i acc.1 := by
  have hik : i ≠ k := fun h => hk h.symm
  have h1 : 2 * i ≠ k * 2 := by omega
  have h2 : 2 * i ≠ k * 2 + 1 := by omega
  have h3 : 2 * i + 1 ≠ k * 2 := by omega
  have h4 : 2 * i + 1 ≠ k * 2 + 1 := by omega
  unfold firstStageBody
  dsimp only
  split_ifs <;>
    simp [slotView, slotCalls, State.modResult, State.modTracker, State.log, setAt, Call.slot,
      NUM_READS_PER_PAIR, hik, hk, h1, h2, h3, h4]

theorem targetLocBody_frame (D : Delegates σ β) (i k : Nat) (hk : k ≠ i) (s : State σ) :
    slotView i (targetLocBody D k s) = slotView i s := by
  unfold targetLocBody
  split_ifs <;> simp [slotView, slotCalls, State.log, Call.slot, hk]

theorem secondStageBody_frame (cfg : Config) (D : Delegates σ β) (inp : Input) (i k : Nat)
    (hk : k ≠ i) (acc : State σ × Bool) :
    slotView i (secondStageBody cfg D inp k acc).1 = slotView i acc.1 := by
  have hik : i ≠ k := fun h => hk h.symm
  have h1 : 2 * i ≠ 2 * k := by omega
  have h2 : 2 * i ≠ 2 * k + 1 := by omega
  have h3 : 2 * i + 1 ≠ 2 * k := by omega
  have h4 : 2 * i + 1 ≠ 2 * k + 1 := by omega
  unfold secondStageBody classify
  dsimp only
  split_ifs <;>
    simp [slotView, slotCalls, classify, afterPhase3, afterPhase4, State.modResult,
      State.modTracker, State.log, setAt, Call.slot, NUM_READS_PER_PAIR, hik, hk, h1, h2, h3,
      h4]

theorem forLoopBreak_inv {α : Type} (P : α → Prop) (body : Nat → α → α × Bool) (n r : Nat)
    (a : α) (h0 : P a) (hstep : ∀ k b, r ≤ k → k < r + n → P b → P (body k b).1) :
    P (forLoopBreak body n r a) := by
  induction n generalizing r a with
  | zero => exact h0
  | succ m ih =>
    unfold forLoopBreak
    split_ifs
    · exact hstep r a (le_refl r) (by omega) h0
    · exact ih (r + 1) _ (hstep r a (le_refl r) (by omega) h0)
        (fun k b h1 h2 hb => hstep k b (by omega) (by omega) hb)

theorem thirdStageMate_frame (cfg : Config) (D : Delegates σ β) (inp : Input) (i k r : Nat)
    (hk : k ≠ i) (hr : r < 2) (a : MateAcc σ) :
    slotView i (thirdStageMate cfg D inp k r a).1.state = slotView i a.state := by
  have hik : i ≠ k := fun h => hk h.symm
  have h1 : 2 * i ≠ 2 * k := by omega
  have h2 : 2 * i ≠ 2 * k + 1 := by omega
  have h3 : 2 * i + 1 ≠ 2 * k := by omega
  have h4 : 2 * i + 1 ≠ 2 * k + 1 := by omega
  have h5 : 2 * i ≠ 2 * k + r := by omega
  have h6 : 2 * i + 1 ≠ 2 * k + r := by omega
  unfold thirdStageMate
  dsimp only
  split_ifs <;>
    simp [slotView, slotCalls, afterAlignRead, storeOverflow, storeCount, State.modResult,
      State.modTracker, State.log, setAt, Call.slot,
      NUM_READS_PER_PAIR, hik, hk, h1, h2, h3, h4, h5, h6]

theorem thirdStageBody_frame (cfg : Config) (D : Delegates σ β) (inp : Input) (i k : Nat)
    (hk : k ≠ i) (acc : State σ × Bool) :
    slotView i (thirdStageBody cfg D inp k acc).1 = slotView i acc.1 := by
  have hik : i ≠ k := fun h => hk h.symm
  have hloop : ∀ a : MateAcc σ, slotView i a.state = slotView i acc.1 →
      slotView i (forLoopBreak (thirdStageMate cfg D inp k) NUM_READS_PER_PAIR 0 a).state =
        slotView i acc.1 := fun a ha =>
    forLoopBreak_inv (fun b => slotView i b.state = slotView i acc.1) _ _ _ a ha
      (fun r b _ h2 hb => (thirdStageMate_frame cfg D inp i k r hk
        (by simpa [NUM_READS_PER_PAIR] using h2) b).trans hb)
  unfold thirdStageBody
  dsimp only
  split_ifs
  · rw [← hloop ⟨acc.1, acc.2, true⟩ rfl]
    simp [slotView, State.modResult, State.modTracker, setAt, hik]
  · exact hloop ⟨acc.1, acc.2, true⟩ rfl
  · rfl

/-! ## The invocation log only grows -/

theorem firstStageBody_calls (cfg : Config) (D : Delegates σ β) (inp : Input) (k : Nat)
    (acc : State σ × Bool) : acc.1.calls <+: (firstStageBody cfg D inp k acc).1.calls := by
  unfold firstStageBody
  dsimp only
  split_ifs <;> simp [State.modResult, State.modTracker, State.log]

theorem targetLocBody_calls (D : Delegates σ β) (k : Nat) (s : State σ) :
    s.calls <+: (targetLocBody D k s).calls := by
  unfold targetLocBody
  split_ifs <;> simp [State.log]

theorem secondStageBody_calls (cfg : Config) (D : Delegates σ β) (inp : Input) (k : Nat)
    (acc : State σ × Bool) : acc.1.calls <+: (secondStageBody cfg D inp k acc).1.calls := by
  unfold secondStageBody classify
  dsimp only
  split_ifs <;> simp [afterPhase3, afterPhase4, State.modResult, State.modTracker, State.log]

theorem thirdStageMate_calls (cfg : Config) (D : Delegates σ β) (inp : Input) (k r : Nat)
    (a : MateAcc σ) : a.state.calls <+: (thirdStageMate cfg D inp k r a).1.state.calls := by
  unfold thirdStageMate
  dsimp only
  split_ifs <;>
    simp [afterAlignRead, storeOverflow, storeCount, State.modResult, State.modTracker,
      State.log]

theorem thirdStageBody_calls (cfg : Config) (D : Delegates σ β) (inp : Input) (k : Nat)
    (acc : State σ × Bool) : acc.1.calls <+: (thirdStageBody cfg D inp k acc).1.calls := by
  have hloop : acc.1.calls <+: (forLoopBreak (thirdStageMate cfg D inp k) NUM_READS_PER_PAIR 0
      ⟨acc.1, acc.2, true⟩).state.calls :=
    forLoopBreak_inv (fun b => acc.1.calls <+: b.state.calls) _ _ _ ⟨acc.1, acc.2, true⟩
      (List.prefix_refl _) (fun r b _ _ hb => hb.trans (thirdStageMate_calls cfg D inp k r b))
  unfold thirdStageBody
  dsimp only
  split_ifs
  · simpa [State.modResult, State.modTracker] using hloop
  · exact hloop
  · exact List.prefix_refl _

theorem align_first_stage_calls (cfg : Config) (D : Delegates σ β) (inp : Input) (s : State σ) :
    s.calls <+: (align_first_stage cfg D inp s).1.calls := by
  have h1 : s.calls <+: (forLoop (firstStageBody cfg D inp) inp.barcodeSize (s, true)).1.calls :=
    forLoop_inv (fun b => s.calls <+: b.1.calls) _ _ (s, true) (List.prefix_refl _)
      (fun k b _ hb => hb.trans (firstStageBody_calls cfg D inp k b))
  exact forLoop_inv (fun b => s.calls <+: b.calls) _ _ _ h1
    (fun k b _ hb => hb.trans (targetLocBody_calls D k b))

theorem align_second_stage_calls (cfg : Config) (D : Delegates σ β) (inp : Input)
    (s : State σ) : s.calls <+: (align_second_stage cfg D inp s).1.calls :=
  forLoop_inv (fun b => s.calls <+: b.1.calls) _ _ (s, true) (List.prefix_refl _)
    (fun k b _ hb => hb.trans (secondStageBody_calls cfg D inp k b))

theorem align_third_stage_calls (cfg : Config) (D : Delegates σ β) (inp : Input)
    (s : State σ) : s.calls <+: (align_third_stage cfg D inp s).1.calls :=
  forLoop_inv (fun b => s.calls <+: b.1.calls) _ _ (s, true) (List.prefix_refl _)
    (fun k b _ hb => hb.trans (thirdStageBody_calls cfg D inp k b))

theorem align_calls (cfg : Config) (D : Delegates σ β) (inp : Input) (s : State σ) :
    s.calls <+: (align cfg D inp s).1.calls := by
  have h1 := align_first_stage_calls cfg D inp s
  have h2 := align_second_stage_calls cfg D inp (align_first_stage cfg D inp s).1
  have h3 := align_third_stage_calls cfg D inp
    (align_second_stage cfg D inp (align_first_stage cfg D inp s).1).1
  unfold align
  dsimp only
  split_ifs
  · exact h1
  · exact h1.trans h2
  · exact (h1.trans h2).trans h3
  · exact (h1.trans h2).trans h3

/-! ## A slot whose two flags are down is left alone -/

theorem firstLoop_retired (cfg : Config) (D : Delegates σ β) (inp : Input)
    (acc : State σ × Bool) (i : Nat) (hp : (acc.1.progressTracker i).pairNotDone = false) :
    slotView i (forLoop (firstStageBody cfg D inp) inp.barcodeSize acc).1 = slotView i acc.1 := by
  refine forLoop_inv (fun b => slotView i b.1 = slotView i acc.1) _ _ acc rfl ?_
  intro k b _ hb
  by_cases hk : k = i
  · subst hk
    have ht : b.1.progressTracker k = acc.1.progressTracker k := congrArg SlotView.tracker hb
    unfold firstStageBody
    rw [ht, hp]
    simpa using hb
  · exact (firstStageBody_frame cfg D inp i k hk b).trans hb

theorem targetLoop_retired (D : Delegates σ β) (n : Nat) (s : State σ) (i : Nat)
    (hp : (s.progressTracker i).pairNotDone = false) :
    slotView i (forLoop (targetLocBody D) n s) = slotView i s := by
  refine forLoop_inv (fun b => slotView i b = slotView i s) _ _ s rfl ?_
  intro k b _ hb
  by_cases hk : k = i
  · subst hk
    have ht : b.progressTracker k = s.progressTracker k := congrArg SlotView.tracker hb
    unfold targetLocBody
    rw [ht, hp]
    simpa using hb
  · exact (targetLocBody_frame D i k hk b).trans hb

theorem align_first_stage_retired (cfg : Config) (D : Delegates σ β) (inp : Input)
    (s : State σ) (i : Nat) (hp : (s.progressTracker i).pairNotDone = false) :
    slotView i (align_first_stage cfg D inp s).1 = slotView i s := by
  have h1 := firstLoop_retired cfg D inp (s, true) i hp
  have hp1 : ((forLoop (firstStageBody cfg D inp) inp.barcodeSize (s, true)).1.progressTracker
      i).pairNotDone = false := by
    have := congrArg (fun v => v.tracker.pairNotDone) h1
    simpa [slotView, hp] using this
  exact (targetLoop_retired D inp.barcodeSize _ i hp1).trans h1

theorem align_second_stage_retired (cfg : Config) (D : Delegates σ β) (inp : Input)
    (s : State σ) (i : Nat) (hp : (s.progressTracker i).pairNotDone = false) :
    slotView i (align_second_stage cfg D inp s).1 = slotView i s := by
  refine forLoop_inv (fun b => slotView i b.1 = slotView i s) _ _ (s, true) rfl ?_
  intro k b _ hb
  by_cases hk : k = i
  · subst hk
    have ht : b.1.progressTracker k = s.progressTracker k := congrArg SlotView.tracker hb
    unfold secondStageBody
    rw [ht, hp]
    simpa using hb
  · exact (secondStageBody_frame cfg D inp i k hk b).trans hb

theorem align_third_stage_retired (cfg : Config) (D : Delegates σ β) (inp : Input)
    (s : State σ) (i : Nat) (hs : (s.progressTracker i).singleNotDone = false) :
    slotView i (align_third_stage cfg D inp s).1 = slotView i s := by
  refine forLoop_inv (fun b => slotView i b.1 = slotView i s) _ _ (s, true) rfl ?_
  intro k b _ hb
  by_cases hk : k = i
  · subst hk
    have ht : b.1.progressTracker k = s.progressTracker k := congrArg SlotView.tracker hb
    unfold thirdStageBody
    rw [ht, hs]
    simpa using hb
  · exact (thirdStageBody_frame cfg D inp i k hk b).trans hb

/-- Once slot `i` has both flags down after Stage 1, the rest of `align` leaves it alone. -/
theorem align_view_of_retired_after_first (cfg : Config) (D : Delegates σ β) (inp : Input)
    (s : State σ) (i : Nat)
    (hp : ((align_first_stage cfg D inp s).1.progressTracker i).pairNotDone = false)
    (hs : ((align_first_stage cfg D inp s).1.progressTracker i).singleNotDone = false) :
    slotView i (align cfg D inp s).1 = slotView i (align_first_stage cfg D inp s).1 := by
  have h2 := align_second_stage_retired cfg D inp (align_first_stage cfg D inp s).1 i hp
  have hs2 : ((align_second_stage cfg D inp (align_first_stage cfg D inp s).1).1.progressTracker
      i).singleNotDone = false := by
    have := congrArg (fun v => v.tracker.singleNotDone) h2
    simpa [slotView, hs] using this
  have h3 := align_third_stage_retired cfg D inp
    (align_second_stage cfg D inp (align_first_stage cfg D inp s).1).1 i hs2
  unfold align
  dsimp only
  split_ifs
  · rfl
  · exact h2
  · exact h3.trans h2
  · exact h3.trans h2

/-! ## Decomposition of a stage at one slot -/

/-- The state in which iteration `i` runs agrees with the initial state on slot `i`, the
final state agrees on slot `i` with the state right after iteration `i`, and a flag lowered
by iteration `i` is still down at the end. -/
theorem forLoop_slot {α V : Type} (view : α → V) (flag : α → Bool) (body : Nat → α → α)
    (i : Nat) (frame : ∀ k b, k ≠ i → view (body k b) = view b)
    (mono : ∀ k b, flag b = false → flag (body k b) = false) (n : Nat) (hn : i < n) (a0 : α) :
    ∃ a, view a = view a0 ∧ view (forLoop body n a0) = view (body i a) ∧
      (flag (body i a) = false → flag (forLoop body n a0) = false) :=
  ⟨forLoop body i a0, forLoop_view_before view body i frame i (le_refl i) a0,
    forLoop_view_after view body i frame n hn a0,
    forLoop_flag_after flag body i mono n hn a0⟩

theorem firstStageBody_flag (cfg : Config) (D : Delegates σ β) (inp : Input) (k : Nat)
    (acc : State σ × Bool) (h : acc.2 = false) : (firstStageBody cfg D inp k acc).2 = false := by
  unfold firstStageBody
  dsimp only
  split_ifs <;> simp [h]

theorem secondStageBody_flag (cfg : Config) (D : Delegates σ β) (inp : Input) (k : Nat)
    (acc : State σ × Bool) (h : acc.2 = false) :
    (secondStageBody cfg D inp k acc).2 = false := by
  unfold secondStageBody
  dsimp only
  split_ifs <;> simp [h]

theorem thirdStageMate_flag (cfg : Config) (D : Delegates σ β) (inp : Input) (k r : Nat)
    (a : MateAcc σ) (h : a.barcodeFinished = false) :
    (thirdStageMate cfg D inp k r a).1.barcodeFinished = false := by
  unfold thirdStageMate
  dsimp only
  split_ifs <;> simp [h]

theorem thirdStageBody_flag (cfg : Config) (D : Delegates σ β) (inp : Input) (k : Nat)
    (acc : State σ × Bool) (h : acc.2 = false) :
    (thirdStageBody cfg D inp k acc).2 = false := by
  have hloop : (forLoopBreak (thirdStageMate cfg D inp k) NUM_READS_PER_PAIR 0
      ⟨acc.1, acc.2, true⟩).barcodeFinished = false :=
    forLoopBreak_inv (fun b => b.barcodeFinished = false) _ _ _ ⟨acc.1, acc.2, true⟩ h
      (fun r b _ _ hb => thirdStageMate_flag cfg D inp k r b hb)
  unfold thirdStageBody
  dsimp only
  split_ifs
  · exact hloop
  · exact hloop
  · exact h

theorem firstLoop_slot (cfg : Config) (D : Delegates σ β) (inp : Input) (acc : State σ × Bool)
    (i : Nat) (hi : i < inp.barcodeSize) :
    ∃ a : State σ × Bool, slotView i a.1 = slotView i acc.1 ∧
      slotView i (forLoop (firstStageBody cfg D inp) inp.barcodeSize acc).1 =
        slotView i (firstStageBody cfg D inp i a).1 ∧
      ((firstStageBody cfg D inp i a).2 = false →
        (forLoop (firstStageBody cfg D inp) inp.barcodeSize acc).2 = false) :=
  forLoop_slot (fun b : State σ × Bool => slotView i b.1) (fun b => b.2) _ i
    (fun k b hk => firstStageBody_frame cfg D inp i k hk b)
    (fun k b hb => firstStageBody_flag cfg D inp k b hb) _ hi acc

theorem secondStage_slot (cfg : Config) (D : Delegates σ β) (inp : Input) (s : State σ)
    (i : Nat) (hi : i < inp.barcodeSize) :
    ∃ a : State σ × Bool, slotView i a.1 = slotView i s ∧
      slotView i (align_second_stage cfg D inp s).1 =
        slotView i (secondStageBody cfg D inp i a).1 ∧
      ((secondStageBody cfg D inp i a).2 = false →
        (align_second_stage cfg D inp s).2 = false) :=
  forLoop_slot (fun b : State σ × Bool => slotView i b.1) (fun b => b.2) _ i
    (fun k b hk => secondStageBody_frame cfg D inp i k hk b)
    (fun k b hb => secondStageBody_flag cfg D inp k b hb) _ hi (s, true)

theorem thirdStage_slot (cfg : Config) (D : Delegates σ β) (inp : Input) (s : State σ)
    (i : Nat) (hi : i < inp.barcodeSize) :
    ∃ a : State σ × Bool, slotView i a.1 = slotView i s ∧
      slotView i (align_third_stage cfg D inp s).1 =
        slotView i (thirdStageBody cfg D inp i a).1 ∧
      ((thirdStageBody cfg D inp i a).2 = false →
        (align_third_stage cfg D inp s).2 = false) :=
  forLoop_slot (fun b : State σ × Bool => slotView i b.1) (fun b => b.2) _ i
    (fun k b hk => thirdStageBody_frame cfg D inp i k hk b)
    (fun k b hb => thirdStageBody_flag cfg D inp k b hb) _ hi (s, true)

/-! ## Claims -/

/-- The three-way case split of `align` on the results of the stages. -/
theorem align_eq (cfg : Config) (D : Delegates σ β) (inp : Input) (s : State σ) :
    align cfg D inp s =
      if (align_first_stage cfg D inp s).2 = true then
        ((align_first_stage cfg D inp s).1, true)
      else if (align_second_stage cfg D inp (align_first_stage cfg D inp s).1).2 = false then
        ((align_second_stage cfg D inp (align_first_stage cfg D inp s).1).1, false)
      else
        align_third_stage cfg D inp
          (align_second_stage cfg D inp (align_first_stage cfg D inp s).1).1 := by
  unfold align
  dsimp only
  split_ifs with h1 h2 h3 h4 h5 h6 <;> first
    | rfl
    | (exfalso; simp_all; done)
    | (apply Prod.ext <;> simp_all)

/-- C1: `align` composes the stages: when `align_first_stage` returns true the outcome is the
state after Stage 1 with result true; otherwise, when `align_second_stage` returns false, it is
the state after Stage 2 with result false; otherwise it is exactly the outcome of
`align_third_stage`. -/
theorem align_composes_stages (cfg : Config) (D : Delegates σ β) (inp : Input) (s : State σ) :
    align cfg D inp s =
      if (align_first_stage cfg D inp s).2 = true then
        ((align_first_stage cfg D inp s).1, true)
      else if (align_second_stage cfg D inp (align_first_stage cfg D inp s).1).2 = false then
        ((align_second_stage cfg D inp (align_first_stage cfg D inp s).1).1, false)
      else
        align_third_stage cfg D inp
          (align_second_stage cfg D inp (align_first_stage cfg D inp s).1).1 :=
  align_eq cfg D inp s

/-- What the both-mates-too-short branch of Stage 1 leaves in slot `i`. -/
theorem firstStageBody_short (cfg : Config) (D : Delegates σ β) (inp : Input) (i : Nat)
    (acc : State σ × Bool) (hp : (acc.1.progressTracker i).pairNotDone = true)
    (h0 : (inp.pairedReads (i * NUM_READS_PER_PAIR)).getDataLength < cfg.minReadLength)
    (h1 : (inp.pairedReads (i * NUM_READS_PER_PAIR + 1)).getDataLength < cfg.minReadLength) :
    (∀ r, r < NUM_READS_PER_PAIR →
      (((firstStageBody cfg D inp i acc).1.result i 0).status r = AlignmentResult.NotFound ∧
       ((firstStageBody cfg D inp i acc).1.result i 0).location r = 0 ∧
       ((firstStageBody cfg D inp i acc).1.result i 0).mapq r = 0 ∧
       ((firstStageBody cfg D inp i acc).1.result i 0).score r = 0)) ∧
    ((firstStageBody cfg D inp i acc).1.result i 0).alignedAsPair = false ∧
    ((firstStageBody cfg D inp i acc).1.result i 0).fromAlignTogether = false ∧
    ((firstStageBody cfg D inp i acc).1.progressTracker i).pairNotDone = false ∧
    ((firstStageBody cfg D inp i acc).1.progressTracker i).singleNotDone = false ∧
    (firstStageBody cfg D inp i acc).1.calls = acc.1.calls := by
  unfold firstStageBody
  rw [if_pos hp]
  dsimp only
  rw [if_pos ⟨h0, h1⟩]
  refine ⟨?_, ?_, ?_, ?_, ?_, ?_⟩
  · intro r hr
    simp only [NUM_READS_PER_PAIR] at hr
    interval_cases r <;>
      simp [State.modResult, State.modTracker, setAt, retireShort, clearMate, forLoop,
        NUM_READS_PER_PAIR]
  all_goals
    simp [State.modResult, State.modTracker, setAt, retireShort, clearMate, forLoop,
      NUM_READS_PER_PAIR]

/-- C2: a slot with `pairNotDone` set whose two mates are both shorter than `minReadLength`
is retired by one call of `align`: both mates `NotFound` with location, mapq and score 0,
`alignedAsPair` and `fromAlignTogether` false, both progress flags cleared, and no delegate
(paired or single-read) is invoked for the slot, whatever happens to the other slots. -/
theorem align_retires_short_pair (cfg : Config) (D : Delegates σ β) (inp : Input)
    (s : State σ) (i : Nat) (hi : i < inp.barcodeSize)
    (hp : (s.progressTracker i).pairNotDone = true)
    (h0 : (inp.pairedReads (i * NUM_READS_PER_PAIR)).getDataLength < cfg.minReadLength)
    (h1 : (inp.pairedReads (i * NUM_READS_PER_PAIR + 1)).getDataLength < cfg.minReadLength) :
    (∀ r, r < NUM_READS_PER_PAIR →
      (((align cfg D inp s).1.result i 0).status r = AlignmentResult.NotFound ∧
       ((align cfg D inp s).1.result i 0).location r = 0 ∧
       ((align cfg D inp s).1.result i 0).mapq r = 0 ∧
       ((align cfg D inp s).1.result i 0).score r = 0)) ∧
    ((align cfg D inp s).1.result i 0).alignedAsPair = false ∧
    ((align cfg D inp s).1.result i 0).fromAlignTogether = false ∧
    ((align cfg D inp s).1.progressTracker i).pairNotDone = false ∧
    ((align cfg D inp s).1.progressTracker i).singleNotDone = false ∧
    ∃ evs, (align cfg D inp s).1.calls = s.calls ++ evs ∧ ∀ c ∈ evs, c.slot ≠ i := by
  obtain ⟨a, ha, hfin, -⟩ := firstLoop_slot cfg D inp (s, true) i hi
  have hpa : (a.1.progressTracker i).pairNotDone = true := by
    have := congrArg (fun v => v.tracker.pairNotDone) ha
    simpa [slotView, hp] using this
  obtain ⟨b1, b2, b3, b4, b5, b6⟩ := firstStageBody_short cfg D inp i a hpa h0 h1
  -- slot `i` right after the first loop of Stage 1
  have hL1p : ((forLoop (firstStageBody cfg D inp) inp.barcodeSize (s, true)).1.progressTracker
      i).pairNotDone = false := by
    have := congrArg (fun v => v.tracker.pairNotDone) hfin
    simpa [slotView, b4] using this
  have hS1 : slotView i (align_first_stage cfg D inp s).1 =
      slotView i (firstStageBody cfg D inp i a).1 :=
    (targetLoop_retired D inp.barcodeSize _ i hL1p).trans hfin
  have hS1p : ((align_first_stage cfg D inp s).1.progressTracker i).pairNotDone = false := by
    have := congrArg (fun v => v.tracker.pairNotDone) hS1
    simpa [slotView, b4] using this
  have hS1s : ((align_first_stage cfg D inp s).1.progressTracker i).singleNotDone = false := by
    have := congrArg (fun v => v.tracker.singleNotDone) hS1
    simpa [slotView, b5] using this
  have hA : slotView i (align cfg D inp s).1 = slotView i (firstStageBody cfg D inp i a).1 :=
    (align_view_of_retired_after_first cfg D inp s i hS1p hS1s).trans hS1
  have hrow : (align cfg D inp s).1.result i = (firstStageBody cfg D inp i a).1.result i :=
    congrArg SlotView.row hA
  have htr : (align cfg D inp s).1.progressTracker i =
      (firstStageBody cfg D inp i a).1.progressTracker i := congrArg SlotView.tracker hA
  have hcalls : slotCalls i (align cfg D inp s).1.calls = slotCalls i s.calls := by
    have h := congrArg SlotView.calls hA
    have h' := congrArg SlotView.calls ha
    simp only [slotView] at h h'
    rw [h, b6, h']
  rw [hrow, htr]
  refine ⟨b1, b2, b3, b4, b5, ?_⟩
  obtain ⟨evs, hevs⟩ := align_calls cfg D inp s
  refine ⟨evs, hevs.symm, ?_⟩
  have hnew : slotCalls i evs = [] :=
    slotCalls_new hevs.symm (by simpa using hcalls)
  intro c hc hslot
  have : c ∈ slotCalls i evs := mem_slotCalls.mpr ⟨hc, hslot⟩
  simp [hnew] at this

/-- C2 at the three-pair batch: pair 0 (both mates of length 10, minimum 20) is retired. -/
theorem align_retires_short_pair_witness :
    (∀ r, r < NUM_READS_PER_PAIR →
      (((align ⟨20, false⟩ (sampleDelegates 2 1) (sampleInput threePairs 3 5 5)
          freshState).1.result 0 0).status r = AlignmentResult.NotFound ∧
       ((align ⟨20, false⟩ (sampleDelegates 2 1) (sampleInput threePairs 3 5 5)
          freshState).1.result 0 0).location r = 0 ∧
       ((align ⟨20, false⟩ (sampleDelegates 2 1) (sampleInput threePairs 3 5 5)
          freshState).1.result 0 0).mapq r = 0 ∧
       ((align ⟨20, false⟩ (sampleDelegates 2 1) (sampleInput threePairs 3 5 5)
          freshState).1.result 0 0).score r = 0)) ∧
    ((align ⟨20, false⟩ (sampleDelegates 2 1) (sampleInput threePairs 3 5 5)
        freshState).1.result 0 0).alignedAsPair = false ∧
    ((align ⟨20, false⟩ (sampleDelegates 2 1) (sampleInput threePairs 3 5 5)
        freshState).1.result 0 0).fromAlignTogether = false ∧
    ((align ⟨20, false⟩ (sampleDelegates 2 1) (sampleInput threePairs 3 5 5)
        freshState).1.progressTracker 0).pairNotDone = false ∧
    ((align ⟨20, false⟩ (sampleDelegates 2 1) (sampleInput threePairs 3 5 5)
        freshState).1.progressTracker 0).singleNotDone = false ∧
    ∃ evs, (align ⟨20, false⟩ (sampleDelegates 2 1) (sampleInput threePairs 3 5 5)
        freshState).1.calls = freshState.calls ++ evs ∧ ∀ c ∈ evs, c.slot ≠ 0 :=
  align_retires_short_pair ⟨20, false⟩ (sampleDelegates 2 1) (sampleInput threePairs 3 5 5)
    freshState 0 (by decide) (by decide) (by decide) (by decide)

/-- A pair that is not retired as too short lowers `barcodeFinished` in Stage 1. -/
theorem firstStageBody_not_short (cfg : Config) (D : Delegates σ β) (inp : Input) (i : Nat)
    (acc : State σ × Bool) (hp : (acc.1.progressTracker i).pairNotDone = true)
    (hlen : ¬((inp.pairedReads (i * NUM_READS_PER_PAIR)).getDataLength < cfg.minReadLength ∧
      (inp.pairedReads (i * NUM_READS_PER_PAIR + 1)).getDataLength < cfg.minReadLength)) :
    (firstStageBody cfg D inp i acc).2 = false := by
  unfold firstStageBody
  rw [if_pos hp]
  dsimp only
  rw [if_neg hlen]
  split_ifs <;> rfl

/-- When Stage 1 reports the batch finished, every slot that entered with `pairNotDone` set
has both flags cleared. -/
theorem align_first_stage_true (cfg : Config) (D : Delegates σ β) (inp : Input) (s : State σ)
    (i : Nat) (hi : i < inp.barcodeSize) (hp : (s.progressTracker i).pairNotDone = true)
    (hret : (align_first_stage cfg D inp s).2 = true) :
    ((align_first_stage cfg D inp s).1.progressTracker i).pairNotDone = false ∧
    ((align_first_stage cfg D inp s).1.progressTracker i).singleNotDone = false := by
  obtain ⟨a, ha, hfin, hflag⟩ := firstLoop_slot cfg D inp (s, true) i hi
  have hpa : (a.1.progressTracker i).pairNotDone = true := by
    have := congrArg (fun v => v.tracker.pairNotDone) ha
    simpa [slotView, hp] using this
  have hshort : (inp.pairedReads (i * NUM_READS_PER_PAIR)).getDataLength < cfg.minReadLength ∧
      (inp.pairedReads (i * NUM_READS_PER_PAIR + 1)).getDataLength < cfg.minReadLength := by
    by_contra hlen
    have := hflag (firstStageBody_not_short cfg D inp i a hpa hlen)
    have hret' : (forLoop (firstStageBody cfg D inp) inp.barcodeSize (s, true)).2 = true := hret
    rw [this] at hret'
    exact Bool.noConfusion hret'
  obtain ⟨-, -, -, b4, b5, -⟩ := firstStageBody_short cfg D inp i a hpa hshort.1 hshort.2
  have hL1p : ((forLoop (firstStageBody cfg D inp) inp.barcodeSize (s, true)).1.progressTracker
      i).pairNotDone = false := by
    have := congrArg (fun v => v.tracker.pairNotDone) hfin
    simpa [slotView, b4] using this
  have hS1 : slotView i (align_first_stage cfg D inp s).1 =
      slotView i (firstStageBody cfg D inp i a).1 :=
    (targetLoop_retired D inp.barcodeSize _ i hL1p).trans hfin
  have htr : (align_first_stage cfg D inp s).1.progressTracker i =
      (firstStageBody cfg D inp i a).1.progressTracker i := congrArg SlotView.tracker hS1
  rw [htr]
  exact ⟨b4, b5⟩

/-- An iteration of Stage 2 that keeps `barcodeFinished` up leaves `pairNotDone` cleared. -/
theorem secondStageBody_true (cfg : Config) (D : Delegates σ β) (inp : Input) (i : Nat)
    (acc : State σ × Bool) (h : (secondStageBody cfg D inp i acc).2 = true) :
    ((secondStageBody cfg D inp i acc).1.progressTracker i).pairNotDone = false := by
  revert h
  unfold secondStageBody classify
  dsimp only
  split_ifs <;> simp_all [State.modResult, State.modTracker, State.log, setAt, afterPhase3,
    afterPhase4]

/-- When Stage 2 returns true, every slot of the batch has `pairNotDone` cleared. -/
theorem align_second_stage_true (cfg : Config) (D : Delegates σ β) (inp : Input) (s : State σ)
    (i : Nat) (hi : i < inp.barcodeSize) (hret : (align_second_stage cfg D inp s).2 = true) :
    ((align_second_stage cfg D inp s).1.progressTracker i).pairNotDone = false := by
  obtain ⟨a, -, hfin, hflag⟩ := secondStage_slot cfg D inp s i hi
  have hb : (secondStageBody cfg D inp i a).2 = true := by
    by_contra hne
    have := hflag (by simpa using hne)
    rw [this] at hret
    exact Bool.noConfusion hret
  have htr : (align_second_stage cfg D inp s).1.progressTracker i =
      (secondStageBody cfg D inp i a).1.progressTracker i := congrArg SlotView.tracker hfin
  rw [htr]
  exact secondStageBody_true cfg D inp i a hb

theorem thirdStageMate_tracker (cfg : Config) (D : Delegates σ β) (inp : Input) (k r : Nat)
    (a : MateAcc σ) :
    (thirdStageMate cfg D inp k r a).1.state.progressTracker = a.state.progressTracker := by
  unfold thirdStageMate
  dsimp only
  split_ifs <;> simp [afterAlignRead, storeOverflow, storeCount, State.modResult, State.log]

theorem thirdStageMate_overflow_flag (cfg : Config) (D : Delegates σ β) (inp : Input)
    (k r : Nat) (a : MateAcc σ) (h : a.noOverflow = false → a.barcodeFinished = false) :
    (thirdStageMate cfg D inp k r a).1.noOverflow = false →
      (thirdStageMate cfg D inp k r a).1.barcodeFinished = false := by
  unfold thirdStageMate
  dsimp only
  split_ifs <;> simp_all

/-- The mate loop of Stage 3 does not touch the trackers, and leaves `barcodeFinished` down
whenever it leaves `noOverflow` down. -/
theorem mateLoop_facts (cfg : Config) (D : Delegates σ β) (inp : Input) (k : Nat)
    (acc : State σ × Bool) :
    (forLoopBreak (thirdStageMate cfg D inp k) NUM_READS_PER_PAIR 0
        ⟨acc.1, acc.2, true⟩).state.progressTracker = acc.1.progressTracker ∧
    ((forLoopBreak (thirdStageMate cfg D inp k) NUM_READS_PER_PAIR 0
        ⟨acc.1, acc.2, true⟩).noOverflow = false →
      (forLoopBreak (thirdStageMate cfg D inp k) NUM_READS_PER_PAIR 0
        ⟨acc.1, acc.2, true⟩).barcodeFinished = false) := by
  refine forLoopBreak_inv (fun b : MateAcc σ => b.state.progressTracker = acc.1.progressTracker ∧
    (b.noOverflow = false → b.barcodeFinished = false)) _ _ _ ⟨acc.1, acc.2, true⟩
    ⟨rfl, by simp⟩ ?_
  intro r b _ _ hb
  exact ⟨(thirdStageMate_tracker cfg D inp k r b).trans hb.1,
    thirdStageMate_overflow_flag cfg D inp k r b hb.2⟩

/-- An iteration of Stage 3 that keeps `barcodeFinished` up leaves `singleNotDone` cleared. -/
theorem thirdStageBody_true (cfg : Config) (D : Delegates σ β) (inp : Input) (i : Nat)
    (acc : State σ × Bool) (h : (thirdStageBody cfg D inp i acc).2 = true) :
    ((thirdStageBody cfg D inp i acc).1.progressTracker i).singleNotDone = false := by
  obtain ⟨h1, h2⟩ := mateLoop_facts cfg D inp i acc
  revert h
  unfold thirdStageBody
  dsimp only
  split_ifs with hs hno
  · intro _
    simp [State.modResult, State.modTracker, setAt]
  · intro h
    rw [h2 (by simpa using hno)] at h
    exact Bool.noConfusion h
  · intro _
    simpa using hs

/-- An iteration of Stage 3 never changes a `pairNotDone` flag. -/
theorem thirdStageBody_pairNotDone (cfg : Config) (D : Delegates σ β) (inp : Input) (k : Nat)
    (acc : State σ × Bool) (i : Nat) :
    ((thirdStageBody cfg D inp k acc).1.progressTracker i).pairNotDone =
      (acc.1.progressTracker i).pairNotDone := by
  obtain ⟨h1, -⟩ := mateLoop_facts cfg D inp k acc
  unfold thirdStageBody
  dsimp only
  split_ifs
  · by_cases hik : i = k
    · subst hik; simp [State.modResult, State.modTracker, setAt, h1]
    · simp [State.modResult, State.modTracker, setAt, h1, hik]
  · rw [h1]
  · rfl

theorem align_third_stage_pairNotDone (cfg : Config) (D : Delegates σ β) (inp : Input)
    (s : State σ) (i : Nat) :
    ((align_third_stage cfg D inp s).1.progressTracker i).pairNotDone =
      (s.progressTracker i).pairNotDone :=
  forLoop_inv (fun b => (b.1.progressTracker i).pairNotDone = (s.progressTracker i).pairNotDone)
    _ _ (s, true) rfl
    (fun k b _ hb => (thirdStageBody_pairNotDone cfg D inp k b i).trans hb)

/-- When Stage 3 returns true, every slot of the batch has `singleNotDone` cleared. -/
theorem align_third_stage_true (cfg : Config) (D : Delegates σ β) (inp : Input) (s : State σ)
    (i : Nat) (hi : i < inp.barcodeSize) (hret : (align_third_stage cfg D inp s).2 = true) :
    ((align_third_stage cfg D inp s).1.progressTracker i).singleNotDone = false := by
  obtain ⟨a, -, hfin, hflag⟩ := thirdStage_slot cfg D inp s i hi
  have hb : (thirdStageBody cfg D inp i a).2 = true := by
    by_contra hne
    have := hflag (by simpa using hne)
    rw [this] at hret
    exact Bool.noConfusion hret
  have htr : (align_third_stage cfg D inp s).1.progressTracker i =
      (thirdStageBody cfg D inp i a).1.progressTracker i := congrArg SlotView.tracker hfin
  rw [htr]
  exact thirdStageBody_true cfg D inp i a hb

/-- C3: for a batch all of whose slots start with `pairNotDone` and `singleNotDone` set, if
`align` returns true then every slot of the batch has both flags cleared on return. -/
theorem align_true_all_retired (cfg : Config) (D : Delegates σ β) (inp : Input) (s : State σ)
    (hinit : ∀ i, i < inp.barcodeSize →
      (s.progressTracker i).pairNotDone = true ∧ (s.progressTracker i).singleNotDone = true)
    (hret : (align cfg D inp s).2 = true) :
    ∀ i, i < inp.barcodeSize →
      ((align cfg D inp s).1.progressTracker i).pairNotDone = false ∧
      ((align cfg D inp s).1.progressTracker i).singleNotDone = false := by
  intro i hi
  rw [align_eq] at hret ⊢
  by_cases h1 : (align_first_stage cfg D inp s).2 = true
  · rw [if_pos h1]
    exact align_first_stage_true cfg D inp s i hi (hinit i hi).1 h1
  · rw [if_neg h1] at hret ⊢
    by_cases h2 : (align_second_stage cfg D inp (align_first_stage cfg D inp s).1).2 = false
    · rw [if_pos h2] at hret
      exact Bool.noConfusion hret
    · rw [if_neg h2] at hret ⊢
      have h2' : (align_second_stage cfg D inp (align_first_stage cfg D inp s).1).2 = true := by
        simpa using h2
      refine ⟨?_, align_third_stage_true cfg D inp _ i hi hret⟩
      rw [align_third_stage_pairNotDone]
      exact align_second_stage_true cfg D inp _ i hi h2'

/-- C3 at the three-pair batch, which one call of `align` finishes: slot 2, which went
through all three stages, has both flags cleared. -/
theorem align_true_all_retired_witness :
    ((align ⟨20, false⟩ (sampleDelegates 2 1) (sampleInput threePairs 3 5 5)
      freshState).1.progressTracker 2).pairNotDone = false ∧
    ((align ⟨20, false⟩ (sampleDelegates 2 1) (sampleInput threePairs 3 5 5)
      freshState).1.progressTracker 2).singleNotDone = false :=
  align_true_all_retired ⟨20, false⟩ (sampleDelegates 2 1) (sampleInput threePairs 3 5 5)
    freshState (fun _ _ => ⟨rfl, rfl⟩) (by decide) 2 (by decide)

theorem secondStageBody_nSecondary_frame (cfg : Config) (D : Delegates σ β) (inp : Input)
    (i k : Nat) (hk : k ≠ i) (acc : State σ × Bool) :
    (secondStageBody cfg D inp k acc).1.nSecondaryResults i = acc.1.nSecondaryResults i := by
  have hik : i ≠ k := fun h => hk h.symm
  unfold secondStageBody classify
  dsimp only
  split_ifs <;>
    simp [afterPhase3, afterPhase4, State.modResult, State.modTracker, State.log, setAt, hik]

/-- What `classify` does to slot `i`, in terms of the materialised statuses. -/
theorem classify_facts (cfg : Config) (i : Nat) (s : State σ) :
    ((classify cfg i s).result i 0).status = (s.result i 0).status ∧
    ((classify cfg i s).result i 0).alignedAsPair = true ∧
    ((classify cfg i s).result i 0).fromAlignTogether =
      (if cfg.forceSpacing = true ∧ (s.result i 0).status 0 = AlignmentResult.NotFound
        then false else true) ∧
    ((classify cfg i s).progressTracker i).pairNotDone = false ∧
    ((classify cfg i s).progressTracker i).singleNotDone =
      (if cfg.forceSpacing = true then false
       else if (s.result i 0).status 0 ≠ AlignmentResult.NotFound ∧
          (s.result i 0).status 1 ≠ AlignmentResult.NotFound then false
       else (s.progressTracker i).singleNotDone) ∧
    (classify cfg i s).calls = s.calls ∧
    (classify cfg i s).nSecondaryResults = s.nSecondaryResults ∧
    (classify cfg i s).nSingleEndSecondaryResults = s.nSingleEndSecondaryResults := by
  unfold classify
  by_cases hfs : cfg.forceSpacing = true <;>
  by_cases h0 : (s.result i 0).status 0 = AlignmentResult.NotFound <;>
  by_cases h1 : (s.result i 0).status 1 = AlignmentResult.NotFound <;>
  simp [hfs, h0, h1, State.modResult, State.modTracker, setAt]

/-- The two outcomes of one Stage 2 iteration on a slot with `pairNotDone` set: either the
collection phase overflows, or the result is materialised and classified. -/
theorem secondStageBody_cases (cfg : Config) (D : Delegates σ β) (inp : Input) (i : Nat)
    (acc : State σ × Bool) (hp : (acc.1.progressTracker i).pairNotDone = true) :
    (slotCalls i (secondStageBody cfg D inp i acc).1.calls = slotCalls i acc.1.calls ++
        [Call.phase3 i (inp.secondaryResultBufferSize i) true] ∧
      (secondStageBody cfg D inp i acc).2 = false ∧
      (secondStageBody cfg D inp i acc).1.nSecondaryResults i =
        inp.secondaryResultBufferSize i + 1 ∧
      (secondStageBody cfg D inp i acc).1.nSingleEndSecondaryResults
        (NUM_READS_PER_PAIR * i) = 0 ∧
      (secondStageBody cfg D inp i acc).1.nSingleEndSecondaryResults
        (NUM_READS_PER_PAIR * i + 1) = 0 ∧
      (secondStageBody cfg D inp i acc).1.progressTracker i = acc.1.progressTracker i ∧
      (secondStageBody cfg D inp i acc).1.result i 0 = acc.1.result i 0) ∨
    (∃ st0 st1,
      slotCalls i (secondStageBody cfg D inp i acc).1.calls = slotCalls i acc.1.calls ++
        [Call.phase3 i (inp.secondaryResultBufferSize i) false, Call.phase4 i st0 st1] ∧
      (secondStageBody cfg D inp i acc).2 = acc.2 ∧
      ((secondStageBody cfg D inp i acc).1.result i 0).status 0 = st0 ∧
      ((secondStageBody cfg D inp i acc).1.result i 0).status 1 = st1 ∧
      ((secondStageBody cfg D inp i acc).1.result i 0).alignedAsPair = true ∧
      ((secondStageBody cfg D inp i acc).1.result i 0).fromAlignTogether =
        (if cfg.forceSpacing = true ∧ st0 = AlignmentResult.NotFound then false else true) ∧
      ((secondStageBody cfg D inp i acc).1.progressTracker i).pairNotDone = false ∧
      ((secondStageBody cfg D inp i acc).1.progressTracker i).singleNotDone =
        (if cfg.forceSpacing = true then false
         else if st0 ≠ AlignmentResult.NotFound ∧ st1 ≠ AlignmentResult.NotFound then false
         else (acc.1.progressTracker i).singleNotDone)) := by
  rcases Bool.eq_false_or_eq_true (callPhase3 D inp i acc.1).secondaryBufferOverflow with
    hov | hov
  · left
    unfold secondStageBody
    simp [hp, hov, afterPhase3, State.log, setAt, slotCalls, Call.slot]
  · right
    obtain ⟨c1, c2, c3, c4, c5, c6, -, -⟩ := classify_facts cfg i
      (afterPhase4 i (afterPhase3 inp i acc.1 (callPhase3 D inp i acc.1))
        (callPhase4 D inp i (afterPhase3 inp i acc.1 (callPhase3 D inp i acc.1))
          (callPhase3 D inp i acc.1).best))
    have hbody : secondStageBody cfg D inp i acc =
        (classify cfg i (afterPhase4 i (afterPhase3 inp i acc.1 (callPhase3 D inp i acc.1))
          (callPhase4 D inp i (afterPhase3 inp i acc.1 (callPhase3 D inp i acc.1))
            (callPhase3 D inp i acc.1).best)), acc.2) := by
      unfold secondStageBody
      rw [if_pos hp]
      dsimp only
      rw [hov]
      rfl
    rw [hbody]
    generalize callPhase4 D inp i (afterPhase3 inp i acc.1 (callPhase3 D inp i acc.1))
      (callPhase3 D inp i acc.1).best = p at c1 c2 c3 c4 c5 c6 ⊢
    have hrow : (afterPhase4 i (afterPhase3 inp i acc.1 (callPhase3 D inp i acc.1)) p).result
        i 0 = p.row 0 := by
      simp [afterPhase4, State.log, setAt]
    have htr : (afterPhase4 i (afterPhase3 inp i acc.1 (callPhase3 D inp i acc.1))
        p).progressTracker i = acc.1.progressTracker i := by
      simp [afterPhase4, afterPhase3, State.log]
    have hcl : (afterPhase4 i (afterPhase3 inp i acc.1 (callPhase3 D inp i acc.1)) p).calls =
        acc.1.calls ++ [Call.phase3 i (inp.secondaryResultBufferSize i) false,
          Call.phase4 i ((p.row 0).status 0) ((p.row 0).status 1)] := by
      simp [afterPhase4, afterPhase3, State.log, hov]
    rw [hrow] at c1 c3 c5
    rw [htr] at c5
    refine ⟨(p.row 0).status 0, (p.row 0).status 1, ?_, rfl, ?_, ?_, c2, c3, c4, c5⟩
    · dsimp only
      rw [c6, hcl, slotCalls_append]
      simp [slotCalls, Call.slot]
    · dsimp only; rw [c1]
    · dsimp only; rw [c1]

/-- The outcome of Stage 2 for a slot of the batch that enters it with `pairNotDone` set. -/
theorem align_second_stage_cases (cfg : Config) (D : Delegates σ β) (inp : Input)
    (s : State σ) (i : Nat) (hi : i < inp.barcodeSize)
    (hp : (s.progressTracker i).pairNotDone = true) :
    (slotCalls i (align_second_stage cfg D inp s).1.calls = slotCalls i s.calls ++
        [Call.phase3 i (inp.secondaryResultBufferSize i) true] ∧
      (align_second_stage cfg D inp s).2 = false ∧
      (align_second_stage cfg D inp s).1.nSecondaryResults i =
        inp.secondaryResultBufferSize i + 1 ∧
      (align_second_stage cfg D inp s).1.nSingleEndSecondaryResults
        (NUM_READS_PER_PAIR * i) = 0 ∧
      (align_second_stage cfg D inp s).1.nSingleEndSecondaryResults
        (NUM_READS_PER_PAIR * i + 1) = 0 ∧
      (align_second_stage cfg D inp s).1.progressTracker i = s.progressTracker i ∧
      (align_second_stage cfg D inp s).1.result i 0 = s.result i 0) ∨
    (∃ st0 st1,
      slotCalls i (align_second_stage cfg D inp s).1.calls = slotCalls i s.calls ++
        [Call.phase3 i (inp.secondaryResultBufferSize i) false, Call.phase4 i st0 st1] ∧
      ((align_second_stage cfg D inp s).1.result i 0).status 0 = st0 ∧
      ((align_second_stage cfg D inp s).1.result i 0).status 1 = st1 ∧
      ((align_second_stage cfg D inp s).1.result i 0).alignedAsPair = true ∧
      ((align_second_stage cfg D inp s).1.result i 0).fromAlignTogether =
        (if cfg.forceSpacing = true ∧ st0 = AlignmentResult.NotFound then false else true) ∧
      ((align_second_stage cfg D inp s).1.progressTracker i).pairNotDone = false ∧
      ((align_second_stage cfg D inp s).1.progressTracker i).singleNotDone =
        (if cfg.forceSpacing = true then false
         else if st0 ≠ AlignmentResult.NotFound ∧ st1 ≠ AlignmentResult.NotFound then false
         else (s.progressTracker i).singleNotDone)) := by
  obtain ⟨a, ha, hfin, hflag⟩ :=
    forLoop_slot (fun b : State σ × Bool => (slotView i b.1, b.1.nSecondaryResults i))
      (fun b => b.2) (secondStageBody cfg D inp) i
      (fun k b hk => Prod.ext (secondStageBody_frame cfg D inp i k hk b)
        (secondStageBody_nSecondary_frame cfg D inp i k hk b))
      (fun k b hb => secondStageBody_flag cfg D inp k b hb) inp.barcodeSize hi (s, true)
  have hav : slotView i a.1 = slotView i s := congrArg Prod.fst ha
  have hfv : slotView i (align_second_stage cfg D inp s).1 =
      slotView i (secondStageBody cfg D inp i a).1 := congrArg Prod.fst hfin
  have hfn : (align_second_stage cfg D inp s).1.nSecondaryResults i =
      (secondStageBody cfg D inp i a).1.nSecondaryResults i := congrArg Prod.snd hfin
  have hat : a.1.progressTracker i = s.progressTracker i := congrArg SlotView.tracker hav
  have har : a.1.result i = s.result i := congrArg SlotView.row hav
  have hac : slotCalls i a.1.calls = slotCalls i s.calls := congrArg SlotView.calls hav
  have hft : (align_second_stage cfg D inp s).1.progressTracker i =
      (secondStageBody cfg D inp i a).1.progressTracker i := congrArg SlotView.tracker hfv
  have hfr : (align_second_stage cfg D inp s).1.result i =
      (secondStageBody cfg D inp i a).1.result i := congrArg SlotView.row hfv
  have hfc : slotCalls i (align_second_stage cfg D inp s).1.calls =
      slotCalls i (secondStageBody cfg D inp i a).1.calls := congrArg SlotView.calls hfv
  have hf1 : (align_second_stage cfg D inp s).1.nSingleEndSecondaryResults
      (NUM_READS_PER_PAIR * i) = (secondStageBody cfg D inp i a).1.nSingleEndSecondaryResults
      (NUM_READS_PER_PAIR * i) := congrArg SlotView.nSingleFirst hfv
  have hf2 : (align_second_stage cfg D inp s).1.nSingleEndSecondaryResults
      (NUM_READS_PER_PAIR * i + 1) = (secondStageBody cfg D inp i a).1.nSingleEndSecondaryResults
      (NUM_READS_PER_PAIR * i + 1) := congrArg SlotView.nSingleSecond hfv
  rw [hfc, hfn, hf1, hf2, hft, hfr, ← hat, ← har, ← hac]
  rcases secondStageBody_cases cfg D inp i a (by rw [hat, hp]) with h | ⟨st0, st1, h⟩
  · left
    exact ⟨h.1, hflag h.2.1, h.2.2⟩
  · right
    exact ⟨st0, st1, h.1, h.2.2⟩

/-- C5: in `align_second_stage`, a slot with `pairNotDone` set whose collection phase reports
overflow ends with `nSecondaryResults[i] = secondaryResultBufferSize[i] + 1` (so 1 for
capacity 0), both single-end counts of the pair 0, `pairNotDone` still set, `singleNotDone`
and the primary result unchanged, no `align_phase_4` invocation for the slot, and the stage
returns false. -/
theorem second_stage_overflow (cfg : Config) (D : Delegates σ β) (inp : Input) (s : State σ)
    (i : Nat) (hi : i < inp.barcodeSize) (hp : (s.progressTracker i).pairNotDone = true)
    (evs : List Call) (hevs : (align_second_stage cfg D inp s).1.calls = s.calls ++ evs)
    (cap : Int) (hov : Call.phase3 i cap true ∈ evs) :
    (align_second_stage cfg D inp s).1.nSecondaryResults i =
      inp.secondaryResultBufferSize i + 1 ∧
    (align_second_stage cfg D inp s).1.nSingleEndSecondaryResults (2 * i) = 0 ∧
    (align_second_stage cfg D inp s).1.nSingleEndSecondaryResults (2 * i + 1) = 0 ∧
    ((align_second_stage cfg D inp s).1.progressTracker i).pairNotDone = true ∧
    ((align_second_stage cfg D inp s).1.progressTracker i).singleNotDone =
      (s.progressTracker i).singleNotDone ∧
    (∀ st0 st1, Call.phase4 i st0 st1 ∉ evs) ∧
    (align_second_stage cfg D inp s).1.result i 0 = s.result i 0 ∧
    (align_second_stage cfg D inp s).2 = false ∧
    (inp.secondaryResultBufferSize i = 0 →
      (align_second_stage cfg D inp s).1.nSecondaryResults i = 1) := by
  have hmem : Call.phase3 i cap true ∈ slotCalls i evs := mem_slotCalls.mpr ⟨hov, rfl⟩
  rcases align_second_stage_cases cfg D inp s i hi hp with
    ⟨h1, h2, h3, h4, h5, h6, h7⟩ | ⟨st0, st1, h1, -⟩
  · have hnew := slotCalls_new hevs h1
    refine ⟨h3, h4, h5, by rw [h6, hp], by rw [h6], ?_, h7, h2, ?_⟩
    · intro st0 st1 hmem4
      have : Call.phase4 i st0 st1 ∈ slotCalls i evs := mem_slotCalls.mpr ⟨hmem4, rfl⟩
      simp [hnew] at this
    · intro h0
      rw [h3, h0]
      rfl
  · have hnew := slotCalls_new hevs h1
    simp [hnew] at hmem

/-- C5 at the three-pair batch with paired capacity 0: slot 1 overflows and reports count 1. -/
theorem second_stage_overflow_witness :
    (align_second_stage ⟨20, false⟩ (sampleDelegates 2 1) (sampleInput threePairs 3 0 5)
      (align_first_stage ⟨20, false⟩ (sampleDelegates 2 1) (sampleInput threePairs 3 0 5)
        freshState).1).1.nSecondaryResults 1 = 1 :=
  (second_stage_overflow ⟨20, false⟩ (sampleDelegates 2 1) (sampleInput threePairs 3 0 5)
    (align_first_stage ⟨20, false⟩ (sampleDelegates 2 1) (sampleInput threePairs 3 0 5)
      freshState).1 1 (by decide) (by decide)
    [Call.phase3 1 0 true, Call.phase3 2 0 true] (by decide) 0 (by decide)).1

/-- C6: in `align_second_stage` with `forceSpacing` off, a slot with `pairNotDone` set whose
collection phase does not overflow ends with `pairNotDone` cleared and `alignedAsPair`,
`fromAlignTogether` true; `singleNotDone` is cleared when both materialised statuses differ
from `NotFound` and keeps its entry value otherwise. -/
theorem second_stage_classifies (cfg : Config) (D : Delegates σ β) (inp : Input) (s : State σ)
    (i : Nat) (hi : i < inp.barcodeSize) (hp : (s.progressTracker i).pairNotDone = true)
    (hfs : cfg.forceSpacing = false)
    (evs : List Call) (hevs : (align_second_stage cfg D inp s).1.calls = s.calls ++ evs)
    (cap : Int) (hno : Call.phase3 i cap false ∈ evs) :
    ((align_second_stage cfg D inp s).1.progressTracker i).pairNotDone = false ∧
    ((align_second_stage cfg D inp s).1.result i 0).alignedAsPair = true ∧
    ((align_second_stage cfg D inp s).1.result i 0).fromAlignTogether = true ∧
    (∃ st0 st1, Call.phase4 i st0 st1 ∈ evs ∧
      ((align_second_stage cfg D inp s).1.result i 0).status 0 = st0 ∧
      ((align_second_stage cfg D inp s).1.result i 0).status 1 = st1 ∧
      ((align_second_stage cfg D inp s).1.progressTracker i).singleNotDone =
        (if st0 ≠ AlignmentResult.NotFound ∧ st1 ≠ AlignmentResult.NotFound then false
         else (s.progressTracker i).singleNotDone)) := by
  have hmem : Call.phase3 i cap false ∈ slotCalls i evs := mem_slotCalls.mpr ⟨hno, rfl⟩
  rcases align_second_stage_cases cfg D inp s i hi hp with
    ⟨h1, -⟩ | ⟨st0, st1, h1, h2, h3, h4, h5, h6, h7⟩
  · have hnew := slotCalls_new hevs h1
    simp [hnew] at hmem
  · have hnew := slotCalls_new hevs h1
    have h4mem : Call.phase4 i st0 st1 ∈ slotCalls i evs := by simp [hnew]
    refine ⟨h6, h4, ?_, st0, st1, (mem_slotCalls.mp h4mem).1, h2, h3, ?_⟩
    · rw [h5]; simp [hfs]
    · rw [h7]; simp [hfs]

/-- C6 at the three-pair batch: pair 1 (both mates placed) has both flags cleared, pair 2 (mate
1 not placed) keeps `singleNotDone`. -/
theorem second_stage_classifies_witness :
    ((align_second_stage ⟨20, false⟩ (sampleDelegates 2 1) (sampleInput threePairs 3 5 5)
      (align_first_stage ⟨20, false⟩ (sampleDelegates 2 1) (sampleInput threePairs 3 5 5)
        freshState).1).1.progressTracker 2).pairNotDone = false :=
  (second_stage_classifies ⟨20, false⟩ (sampleDelegates 2 1) (sampleInput threePairs 3 5 5)
    (align_first_stage ⟨20, false⟩ (sampleDelegates 2 1) (sampleInput threePairs 3 5 5)
      freshState).1 2 (by decide) (by decide) rfl
    [Call.phase3 1 5 false,
      Call.phase4 1 AlignmentResult.SingleHit AlignmentResult.SingleHit,
      Call.phase3 2 5 false,
      Call.phase4 2 AlignmentResult.SingleHit AlignmentResult.NotFound]
    (by decide) 5 (by decide)).1

/-- C9: in `align_second_stage` with `forceSpacing` on, a slot with `pairNotDone` set whose
collection phase does not overflow ends with both flags cleared whatever the materialised
statuses, and `fromAlignTogether` is false exactly when the materialised status of mate 0 is
`NotFound`. -/
theorem second_stage_forced_spacing (cfg : Config) (D : Delegates σ β) (inp : Input)
    (s : State σ) (i : Nat) (hi : i < inp.barcodeSize)
    (hp : (s.progressTracker i).pairNotDone = true) (hfs : cfg.forceSpacing = true)
    (evs : List Call) (hevs : (align_second_stage cfg D inp s).1.calls = s.calls ++ evs)
    (cap : Int) (hno : Call.phase3 i cap false ∈ evs) :
    ((align_second_stage cfg D inp s).1.progressTracker i).pairNotDone = false ∧
    ((align_second_stage cfg D inp s).1.progressTracker i).singleNotDone = false ∧
    (∃ st0 st1, Call.phase4 i st0 st1 ∈ evs ∧
      ((align_second_stage cfg D inp s).1.result i 0).status 0 = st0 ∧
      ((align_second_stage cfg D inp s).1.result i 0).status 1 = st1 ∧
      (((align_second_stage cfg D inp s).1.result i 0).fromAlignTogether = false ↔
        st0 = AlignmentResult.NotFound)) := by
  have hmem : Call.phase3 i cap false ∈ slotCalls i evs := mem_slotCalls.mpr ⟨hno, rfl⟩
  rcases align_second_stage_cases cfg D inp s i hi hp with
    ⟨h1, -⟩ | ⟨st0, st1, h1, h2, h3, h4, h5, h6, h7⟩
  · have hnew := slotCalls_new hevs h1
    simp [hnew] at hmem
  · have hnew := slotCalls_new hevs h1
    have h4mem : Call.phase4 i st0 st1 ∈ slotCalls i evs := by simp [hnew]
    refine ⟨h6, ?_, st0, st1, (mem_slotCalls.mp h4mem).1, h2, h3, ?_⟩
    · rw [h7]; simp [hfs]
    · rw [h5]; simp [hfs]

/-- C9 at the three-pair batch under forced spacing: pair 1 has both flags cleared. -/
theorem second_stage_forced_spacing_witness :
    ((align_second_stage ⟨20, true⟩ (sampleDelegates 2 1) (sampleInput threePairs 3 5 5)
      (align_first_stage ⟨20, true⟩ (sampleDelegates 2 1) (sampleInput threePairs 3 5 5)
        freshState).1).1.progressTracker 1).pairNotDone = false ∧
    ((align_second_stage ⟨20, true⟩ (sampleDelegates 2 1) (sampleInput threePairs 3 5 5)
      (align_first_stage ⟨20, true⟩ (sampleDelegates 2 1) (sampleInput threePairs 3 5 5)
        freshState).1).1.progressTracker 1).singleNotDone = false :=
  ⟨(second_stage_forced_spacing ⟨20, true⟩ (sampleDelegates 2 1)
      (sampleInput threePairs 3 5 5)
      (align_first_stage ⟨20, true⟩ (sampleDelegates 2 1) (sampleInput threePairs 3 5 5)
        freshState).1 1 (by decide) (by decide) rfl
      [Call.phase3 1 5 false,
        Call.phase4 1 AlignmentResult.SingleHit AlignmentResult.SingleHit,
        Call.phase3 2 5 false,
        Call.phase4 2 AlignmentResult.SingleHit AlignmentResult.NotFound]
      (by decide) 5 (by decide)).1,
    (second_stage_forced_spacing ⟨20, true⟩ (sampleDelegates 2 1)
      (sampleInput threePairs 3 5 5)
      (align_first_stage ⟨20, true⟩ (sampleDelegates 2 1) (sampleInput threePairs 3 5 5)
        freshState).1 1 (by decide) (by decide) rfl
      [Call.phase3 1 5 false,
        Call.phase4 1 AlignmentResult.SingleHit AlignmentResult.SingleHit,
        Call.phase3 2 5 false,
        Call.phase4 2 AlignmentResult.SingleHit AlignmentResult.NotFound]
      (by decide) 5 (by decide)).2.1⟩

theorem forLoopBreak_two {α : Type} (body : Nat → α → α × Bool) (a : α) :
    forLoopBreak body 2 0 a =
      if (body 0 a).2 then (body 0 a).1 else (body 1 (body 0 a).1).1 := by
  simp [forLoopBreak]

/-- The mate-loop body acts on slot `i` as `mateStep` does, with the answer of the
`AlignRead` call it makes. -/
theorem thirdStageMate_view (cfg : Config) (D : Delegates σ β) (inp : Input) (i r : Nat)
    (hr : r < 2) (a : MateAcc σ) :
    mateViewOf i (thirdStageMate cfg D inp i r a).1 =
      (mateStep cfg inp i r
        ⟨(callAlignRead D inp i r a.state).fitInSecondaryBuffer,
          (callAlignRead D inp i r a.state).singleResult,
          (callAlignRead D inp i r a.state).singleEndSecondaryResultsThisTime⟩
        (mateViewOf i a)).1 ∧
    (thirdStageMate cfg D inp i r a).2 =
      (mateStep cfg inp i r
        ⟨(callAlignRead D inp i r a.state).fitInSecondaryBuffer,
          (callAlignRead D inp i r a.state).singleResult,
          (callAlignRead D inp i r a.state).singleEndSecondaryResultsThisTime⟩
        (mateViewOf i a)).2 := by
  unfold thirdStageMate mateStep
  interval_cases r
  · by_cases hshort :
        (inp.pairedReads (i * NUM_READS_PER_PAIR)).getDataLength < cfg.minReadLength
    · simp [hshort, mateViewOf, slotView, State.modResult, setAt]
    · rcases Bool.eq_false_or_eq_true (callAlignRead D inp i 0 a.state).fitInSecondaryBuffer
        with hfit | hfit <;>
      simp [hshort, hfit, mateViewOf, slotView, slotCalls, afterAlignRead, storeOverflow,
        storeCount, State.modResult, State.log, setAt, Call.slot]
  · by_cases hshort :
        (inp.pairedReads (i * NUM_READS_PER_PAIR + 1)).getDataLength < cfg.minReadLength
    · simp [hshort, mateViewOf, slotView, State.modResult, setAt]
    · rcases Bool.eq_false_or_eq_true (callAlignRead D inp i 1 a.state).fitInSecondaryBuffer
        with hfit | hfit <;>
      simp [hshort, hfit, mateViewOf, slotView, slotCalls, afterAlignRead, storeOverflow,
        storeCount, State.modResult, State.log, setAt, Call.slot]

/-- One iteration of the pair loop of Stage 3 on a slot with `singleNotDone` set acts on the
slot as `thirdStageSlot` does, for some answers of the single-read aligner. -/
theorem thirdStageBody_view (cfg : Config) (D : Delegates σ β) (inp : Input) (i : Nat)
    (acc : State σ × Bool) (hs : (acc.1.progressTracker i).singleNotDone = true) :
    ∃ o0 o1 : SingleAnswer,
      slotView i (thirdStageBody cfg D inp i acc).1 =
        (thirdStageSlot cfg inp i o0 o1 (slotView i acc.1) acc.2).1 ∧
      (thirdStageBody cfg D inp i acc).2 =
        (thirdStageSlot cfg inp i o0 o1 (slotView i acc.1) acc.2).2 := by
  obtain ⟨o0, v0, b0⟩ : ∃ o : SingleAnswer,
      mateViewOf i (thirdStageMate cfg D inp i 0 ⟨acc.1, acc.2, true⟩).1 =
        (mateStep cfg inp i 0 o (mateViewOf i ⟨acc.1, acc.2, true⟩)).1 ∧
      (thirdStageMate cfg D inp i 0 ⟨acc.1, acc.2, true⟩).2 =
        (mateStep cfg inp i 0 o (mateViewOf i ⟨acc.1, acc.2, true⟩)).2 :=
    ⟨_, thirdStageMate_view cfg D inp i 0 (by norm_num) ⟨acc.1, acc.2, true⟩⟩
  obtain ⟨o1, v1, -⟩ : ∃ o : SingleAnswer,
      mateViewOf i (thirdStageMate cfg D inp i 1
          (thirdStageMate cfg D inp i 0 ⟨acc.1, acc.2, true⟩).1).1 =
        (mateStep cfg inp i 1 o
          (mateViewOf i (thirdStageMate cfg D inp i 0 ⟨acc.1, acc.2, true⟩).1)).1 ∧
      (thirdStageMate cfg D inp i 1 (thirdStageMate cfg D inp i 0 ⟨acc.1, acc.2, true⟩).1).2 =
        (mateStep cfg inp i 1 o
          (mateViewOf i (thirdStageMate cfg D inp i 0 ⟨acc.1, acc.2, true⟩).1)).2 :=
    ⟨_, thirdStageMate_view cfg D inp i 1 (by norm_num) _⟩
  refine ⟨o0, o1, ?_⟩
  have hloop : mateViewOf i (forLoopBreak (thirdStageMate cfg D inp i) NUM_READS_PER_PAIR 0
      ⟨acc.1, acc.2, true⟩) = mateLoopView cfg inp i o0 o1 (slotView i acc.1) acc.2 := by
    show mateViewOf i (forLoopBreak (thirdStageMate cfg D inp i) 2 0 ⟨acc.1, acc.2, true⟩) = _
    rw [forLoopBreak_two]
    unfold mateLoopView
    have hm : mateViewOf i (⟨acc.1, acc.2, true⟩ : MateAcc σ) =
        ⟨slotView i acc.1, acc.2, true⟩ := rfl
    rw [hm] at v0 b0
    rw [← b0]
    split_ifs
    · exact v0
    · rw [v1, v0]
  have hno := congrArg MateView.noOverflow hloop
  have hbf := congrArg MateView.barcodeFinished hloop
  have hsl := congrArg MateView.slot hloop
  simp only [mateViewOf] at hno hbf hsl
  unfold thirdStageBody thirdStageSlot
  rw [if_pos hs]
  dsimp only
  rw [← hno, ← hbf, ← hsl]
  split_ifs
  · simp only [slotView, State.modResult, State.modTracker, setAt, if_true, and_true]
    congr 1
    funext j
    by_cases hj : j = 0 <;> simp [hj, setAt]
  · exact ⟨rfl, rfl⟩

/-- The outcome of Stage 3 for a slot of the batch that enters it with `singleNotDone` set:
its view is changed as by `thirdStageSlot`, and the stage returns false whenever
`thirdStageSlot` lowers `barcodeFinished`. -/
theorem align_third_stage_view (cfg : Config) (D : Delegates σ β) (inp : Input) (s : State σ)
    (i : Nat) (hi : i < inp.barcodeSize) (hs : (s.progressTracker i).singleNotDone = true) :
    ∃ (o0 o1 : SingleAnswer) (bf : Bool),
      slotView i (align_third_stage cfg D inp s).1 =
        (thirdStageSlot cfg inp i o0 o1 (slotView i s) bf).1 ∧
      ((thirdStageSlot cfg inp i o0 o1 (slotView i s) bf).2 = false →
        (align_third_stage cfg D inp s).2 = false) := by
  obtain ⟨a, ha, hfin, hflag⟩ := thirdStage_slot cfg D inp s i hi
  have hat : a.1.progressTracker i = s.progressTracker i := congrArg SlotView.tracker ha
  obtain ⟨o0, o1, hv, hb⟩ := thirdStageBody_view cfg D inp i a (by rw [hat, hs])
  refine ⟨o0, o1, a.2, ?_, ?_⟩
  · rw [hfin, hv, ha]
  · intro h
    apply hflag
    rw [hb, ha]
    exact h
theorem thirdStageSlot_calls (cfg : Config) (inp : Input) (i : Nat) (o0 o1 : SingleAnswer)
    (v : SlotView) (bf : Bool) :
    (thirdStageSlot cfg inp i o0 o1 v bf).1.calls = v.calls ++ stage3Calls cfg inp i o0 o1 v := by
  by_cases h0 : (inp.pairedReads (i * NUM_READS_PER_PAIR)).getDataLength < cfg.minReadLength <;>
  by_cases h1 : (inp.pairedReads (i * NUM_READS_PER_PAIR + 1)).getDataLength < cfg.minReadLength <;>
  rcases Bool.eq_false_or_eq_true o0.fits with hf0 | hf0 <;>
  rcases Bool.eq_false_or_eq_true o1.fits with hf1 | hf1 <;>
  simp [thirdStageSlot, mateLoopView, mateStep, stage3Calls, h0, h1, hf0, hf1]

theorem thirdStageSlot_overflow (cfg : Config) (inp : Input) (i : Nat) (o0 o1 : SingleAnswer)
    (v : SlotView) (bf : Bool) (h : stage3Overflows cfg inp i o0 o1) :
    (thirdStageSlot cfg inp i o0 o1 v bf).2 = false ∧
    (thirdStageSlot cfg inp i o0 o1 v bf).1.nSingleFirst = inp.singleSecondaryBufferSize i + 1 ∧
    (thirdStageSlot cfg inp i o0 o1 v bf).1.nSingleSecond = 0 ∧
    (thirdStageSlot cfg inp i o0 o1 v bf).1.tracker = v.tracker ∧
    ((thirdStageSlot cfg inp i o0 o1 v bf).1.row 0).alignedAsPair = (v.row 0).alignedAsPair ∧
    ((thirdStageSlot cfg inp i o0 o1 v bf).1.row 0).fromAlignTogether =
      (v.row 0).fromAlignTogether := by
  unfold stage3Overflows at h
  by_cases h0 : (inp.pairedReads (i * NUM_READS_PER_PAIR)).getDataLength < cfg.minReadLength <;>
  by_cases h1 : (inp.pairedReads (i * NUM_READS_PER_PAIR + 1)).getDataLength < cfg.minReadLength <;>
  rcases Bool.eq_false_or_eq_true o0.fits with hf0 | hf0 <;>
  rcases Bool.eq_false_or_eq_true o1.fits with hf1 | hf1 <;>
  simp [h0, h1, hf0, hf1] at h <;>
  simp [thirdStageSlot, mateLoopView, mateStep, h0, h1, hf0, hf1, setAt, markShort,
    storeSingle]

theorem stage3Calls_overflow (cfg : Config) (inp : Input) (i : Nat) (o0 o1 : SingleAnswer)
    (v : SlotView) (r : Nat) (cap off : Int) (res : SingleAlignmentResult) (n : Int)
    (h : Call.alignRead i r cap off false res n ∈ stage3Calls cfg inp i o0 o1 v) :
    stage3Overflows cfg inp i o0 o1 ∧
    (r = 0 → ∀ cap1 off1 fits1 res1 n1,
      Call.alignRead i 1 cap1 off1 fits1 res1 n1 ∉ stage3Calls cfg inp i o0 o1 v) := by
  unfold stage3Overflows
  by_cases h0 : (inp.pairedReads (i * NUM_READS_PER_PAIR)).getDataLength < cfg.minReadLength <;>
  by_cases h1 : (inp.pairedReads (i * NUM_READS_PER_PAIR + 1)).getDataLength < cfg.minReadLength <;>
  rcases Bool.eq_false_or_eq_true o0.fits with hf0 | hf0 <;>
  rcases Bool.eq_false_or_eq_true o1.fits with hf1 | hf1 <;>
  simp [stage3Calls, h0, h1, hf0, hf1] at h ⊢ <;>
  omega

/-- The slot-`i` part of the invocations of a whole Stage 3 run, for a slot with
`singleNotDone` set: the run acts on the slot as `thirdStageSlot`, and the invocations made
for the slot are `stage3Calls`. -/
theorem align_third_stage_slot_calls (cfg : Config) (D : Delegates σ β) (inp : Input)
    (s : State σ) (i : Nat) (hi : i < inp.barcodeSize)
    (hs : (s.progressTracker i).singleNotDone = true)
    (evs : List Call) (hevs : (align_third_stage cfg D inp s).1.calls = s.calls ++ evs) :
    ∃ (o0 o1 : SingleAnswer) (bf : Bool),
      slotView i (align_third_stage cfg D inp s).1 =
        (thirdStageSlot cfg inp i o0 o1 (slotView i s) bf).1 ∧
      ((thirdStageSlot cfg inp i o0 o1 (slotView i s) bf).2 = false →
        (align_third_stage cfg D inp s).2 = false) ∧
      slotCalls i evs = stage3Calls cfg inp i o0 o1 (slotView i s) := by
  obtain ⟨o0, o1, bf, hv, hflag⟩ := align_third_stage_view cfg D inp s i hi hs
  refine ⟨o0, o1, bf, hv, hflag, ?_⟩
  have hc := congrArg SlotView.calls hv
  rw [thirdStageSlot_calls] at hc
  exact slotCalls_new hevs hc

/-- C10: in `align_third_stage`, a slot with `singleNotDone` set for which the single-read
aligner reports that its results do not fit (for mate 0 or mate 1) ends with the first mate's
single-end count equal to `singleSecondaryBufferSize[i] + 1`, the second mate's count 0,
`singleNotDone` still set, `alignedAsPair` and `fromAlignTogether` unchanged, and the stage
returns false; when the overflow is on mate 0 the aligner is not invoked for mate 1. -/
theorem third_stage_overflow (cfg : Config) (D : Delegates σ β) (inp : Input) (s : State σ)
    (i : Nat) (hi : i < inp.barcodeSize) (hs : (s.progressTracker i).singleNotDone = true)
    (evs : List Call) (hevs : (align_third_stage cfg D inp s).1.calls = s.calls ++ evs)
    (r : Nat) (cap off : Int) (res : SingleAlignmentResult) (n : Int)
    (hov : Call.alignRead i r cap off false res n ∈ evs) :
    (align_third_stage cfg D inp s).1.nSingleEndSecondaryResults (2 * i) =
      inp.singleSecondaryBufferSize i + 1 ∧
    (align_third_stage cfg D inp s).1.nSingleEndSecondaryResults (2 * i + 1) = 0 ∧
    ((align_third_stage cfg D inp s).1.progressTracker i).singleNotDone = true ∧
    ((align_third_stage cfg D inp s).1.result i 0).alignedAsPair =
      (s.result i 0).alignedAsPair ∧
    ((align_third_stage cfg D inp s).1.result i 0).fromAlignTogether =
      (s.result i 0).fromAlignTogether ∧
    (align_third_stage cfg D inp s).2 = false ∧
    (r = 0 → ∀ cap1 off1 fits1 res1 n1, Call.alignRead i 1 cap1 off1 fits1 res1 n1 ∉ evs) := by
  obtain ⟨o0, o1, bf, hv, hflag, hcalls⟩ :=
    align_third_stage_slot_calls cfg D inp s i hi hs evs hevs
  have hmem : Call.alignRead i r cap off false res n ∈ slotCalls i evs :=
    mem_slotCalls.mpr ⟨hov, rfl⟩
  rw [hcalls] at hmem
  obtain ⟨hovf, hno1⟩ := stage3Calls_overflow cfg inp i o0 o1 _ r cap off res n hmem
  obtain ⟨k1, k2, k3, k4, k5, k6⟩ :=
    thirdStageSlot_overflow cfg inp i o0 o1 (slotView i s) bf hovf
  have ht : (align_third_stage cfg D inp s).1.progressTracker i =
      (thirdStageSlot cfg inp i o0 o1 (slotView i s) bf).1.tracker :=
    congrArg SlotView.tracker hv
  have hrow : (align_third_stage cfg D inp s).1.result i 0 =
      (thirdStageSlot cfg inp i o0 o1 (slotView i s) bf).1.row 0 :=
    congrArg (fun v => v.row 0) hv
  have hn1 : (align_third_stage cfg D inp s).1.nSingleEndSecondaryResults (2 * i) =
      (thirdStageSlot cfg inp i o0 o1 (slotView i s) bf).1.nSingleFirst :=
    congrArg SlotView.nSingleFirst hv
  have hn2 : (align_third_stage cfg D inp s).1.nSingleEndSecondaryResults (2 * i + 1) =
      (thirdStageSlot cfg inp i o0 o1 (slotView i s) bf).1.nSingleSecond :=
    congrArg SlotView.nSingleSecond hv
  refine ⟨hn1.trans k2, hn2.trans k3, ?_, ?_, ?_, hflag k1, ?_⟩
  · rw [ht, k4]; exact hs
  · rw [hrow, k5]; rfl
  · rw [hrow, k6]; rfl
  · intro hr cap1 off1 fits1 res1 n1 hm
    have : Call.alignRead i 1 cap1 off1 fits1 res1 n1 ∈ slotCalls i evs :=
      mem_slotCalls.mpr ⟨hm, rfl⟩
    rw [hcalls] at this
    exact hno1 hr cap1 off1 fits1 res1 n1 this

/-- C10 at a one-pair batch whose single-end capacity 0 is too small for mate 0. -/
theorem third_stage_overflow_witness :
    (align_third_stage ⟨20, false⟩ (sampleDelegates 2 3) (sampleInput chimericPair 1 5 0)
      afterSecondStage).1.nSingleEndSecondaryResults (2 * 0) = 0 + 1 ∧
    (align_third_stage ⟨20, false⟩ (sampleDelegates 2 3) (sampleInput chimericPair 1 5 0)
      afterSecondStage).2 = false :=
  ⟨(third_stage_overflow ⟨20, false⟩ (sampleDelegates 2 3) (sampleInput chimericPair 1 5 0)
      afterSecondStage 0 (by decide) (by decide)
      [Call.alignRead 0 0 0 0 false ⟨AlignmentResult.SingleHit, 500, Direction.RC, 2, 3, 70⟩ 0]
      (by decide) 0 0 0 ⟨AlignmentResult.SingleHit, 500, Direction.RC, 2, 3, 70⟩ 0
      (by decide)).1,
    (third_stage_overflow ⟨20, false⟩ (sampleDelegates 2 3) (sampleInput chimericPair 1 5 0)
      afterSecondStage 0 (by decide) (by decide)
      [Call.alignRead 0 0 0 0 false ⟨AlignmentResult.SingleHit, 500, Direction.RC, 2, 3, 70⟩ 0]
      (by decide) 0 0 0 ⟨AlignmentResult.SingleHit, 500, Direction.RC, 2, 3, 70⟩ 0
      (by decide)).2.2.2.2.2.1⟩

/-- C4 (failing input): a first call of `align` on the one-pair batch `chimericPair` with
single-end capacity 0 returns false and leaves slot 0 with `pairNotDone` cleared,
`singleNotDone` set and the sentinel count 1.  The next call, with capacity 10, returns true
although slot 0 still has `singleNotDone` set, and invokes no delegate at all; yet Stage 3
run on that state with capacity 10 fits both mates and retires the slot. -/
theorem align_skips_slot_pending_in_stage3 :
    (align ⟨20, false⟩ (sampleDelegates 2 3) (sampleInput chimericPair 1 5 0) freshState).2 =
      false ∧
    (pendingState.progressTracker 0).pairNotDone = false ∧
    (pendingState.progressTracker 0).singleNotDone = true ∧
    pendingState.nSingleEndSecondaryResults 0 = 1 ∧
    (align ⟨20, false⟩ (sampleDelegates 2 3) (sampleInput chimericPair 1 5 10)
      pendingState).2 = true ∧
    ((align ⟨20, false⟩ (sampleDelegates 2 3) (sampleInput chimericPair 1 5 10)
      pendingState).1.progressTracker 0).singleNotDone = true ∧
    (align ⟨20, false⟩ (sampleDelegates 2 3) (sampleInput chimericPair 1 5 10)
      pendingState).1.calls = pendingState.calls ∧
    (align_third_stage ⟨20, false⟩ (sampleDelegates 2 3) (sampleInput chimericPair 1 5 10)
      pendingState).2 = true ∧
    ((align_third_stage ⟨20, false⟩ (sampleDelegates 2 3) (sampleInput chimericPair 1 5 10)
      pendingState).1.progressTracker 0).singleNotDone = false := by
  decide

/-- C8 (failing input): with `forceSpacing` on, a pair of two long mates whose seed lookup
stops (`align_phase_1` returns true) leaves Stage 1 and Stage 2 with `pairNotDone` cleared and
`singleNotDone` still set, and Stage 3 of the same `align` call invokes the single-read
aligner for both mates. -/
theorem forced_spacing_pair_reaches_stage3 :
    ((align_second_stage ⟨20, true⟩ (sampleDelegates 2 1) (sampleInput unplaceablePair 1 5 5)
      (align_first_stage ⟨20, true⟩ (sampleDelegates 2 1) (sampleInput unplaceablePair 1 5 5)
        freshState).1).1.progressTracker 0).pairNotDone = false ∧
    ((align_second_stage ⟨20, true⟩ (sampleDelegates 2 1) (sampleInput unplaceablePair 1 5 5)
      (align_first_stage ⟨20, true⟩ (sampleDelegates 2 1) (sampleInput unplaceablePair 1 5 5)
        freshState).1).1.progressTracker 0).singleNotDone = true ∧
    (align ⟨20, true⟩ (sampleDelegates 2 1) (sampleInput unplaceablePair 1 5 5)
      freshState).1.calls =
      [Call.phase1 0 true,
       Call.alignRead 0 0 5 0 true ⟨AlignmentResult.NotFound, 500, Direction.RC, 2, 3, 70⟩ 1,
       Call.alignRead 0 1 4 1 true ⟨AlignmentResult.NotFound, 500, Direction.RC, 2, 3, 70⟩ 1] := by
  decide

/-- When no slot of the batch has `pairNotDone` set, `align` returns true at once and changes
nothing, whatever the `singleNotDone` flags are. -/
theorem align_of_no_pair_pending (cfg : Config) (D : Delegates σ β) (inp : Input) (s : State σ)
    (hall : ∀ i, i < inp.barcodeSize → (s.progressTracker i).pairNotDone = false) :
    align cfg D inp s = (s, true) := by
  have h1 : forLoop (firstStageBody cfg D inp) inp.barcodeSize (s, true) = (s, true) := by
    refine forLoop_inv (fun b => b = (s, true)) _ _ _ rfl ?_
    intro k b hk hb
    subst hb
    unfold firstStageBody
    simp [hall k hk]
  have h2 : forLoop (targetLocBody D) inp.barcodeSize s = s := by
    refine forLoop_inv (fun b => b = s) _ _ _ rfl ?_
    intro k b hk hb
    subst hb
    unfold targetLocBody
    simp [hall k hk]
  have h3 : align_first_stage cfg D inp s = (s, true) := by
    unfold align_first_stage
    simp only [h1, h2]
  unfold align
  simp [h3]

/-- The first loop of Stage 1 on a pair of two long mates with `pairNotDone` set. -/
theorem firstStageBody_long (cfg : Config) (D : Delegates σ β) (inp : Input) (i : Nat)
    (acc : State σ × Bool) (hp : (acc.1.progressTracker i).pairNotDone = true)
    (hl0 : cfg.minReadLength ≤ (inp.pairedReads (i * NUM_READS_PER_PAIR)).getDataLength)
    (hl1 : cfg.minReadLength ≤ (inp.pairedReads (i * NUM_READS_PER_PAIR + 1)).getDataLength) :
    ∃ (stop cont : Bool) (loci : GenomeLocation),
      slotCalls i (firstStageBody cfg D inp i acc).1.calls = slotCalls i acc.1.calls ++
        (Call.phase1 i stop ::
          (if stop = true then [] else [Call.phase2init i cont, Call.phase2getLoci i loci])) ∧
      ((firstStageBody cfg D inp i acc).1.progressTracker i).pairNotDone = (!stop && cont) ∧
      ((firstStageBody cfg D inp i acc).1.progressTracker i).singleNotDone =
        (acc.1.progressTracker i).singleNotDone ∧
      (firstStageBody cfg D inp i acc).2 = false ∧
      (stop = false →
        ((firstStageBody cfg D inp i acc).1.progressTracker i).nextLoci = loci ∧
        ((firstStageBody cfg D inp i acc).1.progressTracker i).next = none) := by
  have hns : ¬((inp.pairedReads (i * NUM_READS_PER_PAIR)).getDataLength < cfg.minReadLength ∧
      (inp.pairedReads (i * NUM_READS_PER_PAIR + 1)).getDataLength < cfg.minReadLength) := by
    omega
  unfold firstStageBody
  rw [if_pos hp]
  dsimp only
  rw [if_neg hns, if_pos ⟨hl0, hl1⟩]
  split_ifs with hc
  · refine ⟨false, _, _, ?_, rfl, ?_, rfl, fun _ => ⟨rfl, ?_⟩⟩
    · simp [State.modResult, State.modTracker, State.log, setAt] at hc
      simp [State.modResult, State.modTracker, State.log, setAt, slotCalls, Call.slot, hc]
    · simp [State.modResult, State.modTracker, State.log, setAt]
    · simp [State.modResult, State.modTracker, State.log, setAt]
  · refine ⟨true, false, 0, ?_, ?_, ?_, rfl, fun h => Bool.noConfusion h⟩
    · simp [State.modResult, State.modTracker, State.log, setAt] at hc
      simp [State.modResult, State.modTracker, State.log, setAt, slotCalls, Call.slot, hc]
    · simp [State.modResult, State.modTracker, State.log, setAt] at hc
      simp [State.modResult, State.modTracker, State.log, setAt, hc]
    · simp [State.modResult, State.modTracker, State.log, setAt]

/-- The second loop of Stage 1 at slot `i`. -/
theorem targetLocBody_slot (D : Delegates σ β) (i : Nat) (s : State σ) :
    slotCalls i (targetLocBody D i s).calls = slotCalls i s.calls ++
      (if (s.progressTracker i).pairNotDone = true then [Call.phase2toTarget i clusterTargetLoc]
       else []) ∧
    (targetLocBody D i s).progressTracker i = s.progressTracker i := by
  unfold targetLocBody
  split_ifs <;> simp [State.log, slotCalls, Call.slot]

/-- Stage 1 on a slot of the batch with `pairNotDone` set and two long mates: the delegate
invocations made for the slot and the flags it is left with. -/
theorem align_first_stage_long (cfg : Config) (D : Delegates σ β) (inp : Input) (s : State σ)
    (i : Nat) (hi : i < inp.barcodeSize) (hp : (s.progressTracker i).pairNotDone = true)
    (hl0 : cfg.minReadLength ≤ (inp.pairedReads (i * NUM_READS_PER_PAIR)).getDataLength)
    (hl1 : cfg.minReadLength ≤ (inp.pairedReads (i * NUM_READS_PER_PAIR + 1)).getDataLength) :
    ∃ (stop cont : Bool) (loci : GenomeLocation),
      slotCalls i (align_first_stage cfg D inp s).1.calls = slotCalls i s.calls ++
        (Call.phase1 i stop ::
          (if stop = true then [] else [Call.phase2init i cont, Call.phase2getLoci i loci])) ++
        (if (!stop && cont) = true then [Call.phase2toTarget i clusterTargetLoc] else []) ∧
      ((align_first_stage cfg D inp s).1.progressTracker i).pairNotDone = (!stop && cont) ∧
      ((align_first_stage cfg D inp s).1.progressTracker i).singleNotDone =
        (s.progressTracker i).singleNotDone ∧
      (align_first_stage cfg D inp s).2 = false ∧
      (stop = false →
        ((align_first_stage cfg D inp s).1.progressTracker i).nextLoci = loci ∧
        ((align_first_stage cfg D inp s).1.progressTracker i).next = none) := by
  obtain ⟨a, ha, hfin, hflag⟩ := firstLoop_slot cfg D inp (s, true) i hi
  have hat : a.1.progressTracker i = s.progressTracker i := congrArg SlotView.tracker ha
  have hac : slotCalls i a.1.calls = slotCalls i s.calls := congrArg SlotView.calls ha
  obtain ⟨stop, cont, loci, b1, b2, b3, b4, b5⟩ :=
    firstStageBody_long cfg D inp i a (by rw [hat, hp]) hl0 hl1
  have hLt : (forLoop (firstStageBody cfg D inp) inp.barcodeSize (s, true)).1.progressTracker i =
      (firstStageBody cfg D inp i a).1.progressTracker i := congrArg SlotView.tracker hfin
  have hLc : slotCalls i (forLoop (firstStageBody cfg D inp) inp.barcodeSize (s, true)).1.calls =
      slotCalls i (firstStageBody cfg D inp i a).1.calls := congrArg SlotView.calls hfin
  obtain ⟨c, hc, hcfin, -⟩ :=
    forLoop_slot (fun b : State σ => slotView i b) (fun _ => true) (targetLocBody D) i
      (fun k b hk => targetLocBody_frame D i k hk b) (fun _ _ h => h) inp.barcodeSize hi
      (forLoop (firstStageBody cfg D inp) inp.barcodeSize (s, true)).1
  have hct : c.progressTracker i =
      (forLoop (firstStageBody cfg D inp) inp.barcodeSize (s, true)).1.progressTracker i :=
    congrArg SlotView.tracker hc
  have hcc : slotCalls i c.calls =
      slotCalls i (forLoop (firstStageBody cfg D inp) inp.barcodeSize (s, true)).1.calls :=
    congrArg SlotView.calls hc
  obtain ⟨t1, t2⟩ := targetLocBody_slot D i c
  have hSt : (align_first_stage cfg D inp s).1.progressTracker i =
      (targetLocBody D i c).progressTracker i := congrArg SlotView.tracker hcfin
  have hSc : slotCalls i (align_first_stage cfg D inp s).1.calls =
      slotCalls i (targetLocBody D i c).calls := congrArg SlotView.calls hcfin
  refine ⟨stop, cont, loci, ?_, ?_, ?_, hflag b4, ?_⟩
  · rw [hSc, t1, hcc, hLc, b1, hac, hct, hLt, b2]
  · rw [hSt, t2, hct, hLt, b2]
  · rw [hSt, t2, hct, hLt, b3, hat]
  · rw [hSt, t2, hct, hLt]
    exact b5

/-! ## Which stage logs which invocations -/

/-- Stage 3 on a slot with two long mates: the invocations made for it, and the result when
both answers fit. -/
theorem thirdStageSlot_long (cfg : Config) (inp : Input) (i : Nat) (o0 o1 : SingleAnswer)
    (v : SlotView) (bf : Bool)
    (hl0 : cfg.minReadLength ≤ (inp.pairedReads (i * NUM_READS_PER_PAIR)).getDataLength)
    (hl1 : cfg.minReadLength ≤ (inp.pairedReads (i * NUM_READS_PER_PAIR + 1)).getDataLength) :
    stage3Calls cfg inp i o0 o1 v =
      Call.alignRead i 0 (inp.singleSecondaryBufferSize i - v.nSingleFirst) v.nSingleFirst
          o0.fits o0.res o0.n ::
        (if o0.fits = false then []
         else [Call.alignRead i 1 (inp.singleSecondaryBufferSize i - o0.n) o0.n
            o1.fits o1.res o1.n]) ∧
    (o0.fits = true → o1.fits = true →
      ((thirdStageSlot cfg inp i o0 o1 v bf).1.row 0).status 0 = o0.res.status ∧
      ((thirdStageSlot cfg inp i o0 o1 v bf).1.row 0).location 0 = o0.res.location ∧
      ((thirdStageSlot cfg inp i o0 o1 v bf).1.row 0).direction 0 = o0.res.direction ∧
      ((thirdStageSlot cfg inp i o0 o1 v bf).1.row 0).score 0 = o0.res.score ∧
      ((thirdStageSlot cfg inp i o0 o1 v bf).1.row 0).scorePriorToClipping 0 =
        o0.res.scorePriorToClipping ∧
      ((thirdStageSlot cfg inp i o0 o1 v bf).1.row 0).mapq 0 = Int.tdiv o0.res.mapq 3 ∧
      ((thirdStageSlot cfg inp i o0 o1 v bf).1.row 0).status 1 = o1.res.status ∧
      ((thirdStageSlot cfg inp i o0 o1 v bf).1.row 0).location 1 = o1.res.location ∧
      ((thirdStageSlot cfg inp i o0 o1 v bf).1.row 0).direction 1 = o1.res.direction ∧
      ((thirdStageSlot cfg inp i o0 o1 v bf).1.row 0).score 1 = o1.res.score ∧
      ((thirdStageSlot cfg inp i o0 o1 v bf).1.row 0).scorePriorToClipping 1 =
        o1.res.scorePriorToClipping ∧
      ((thirdStageSlot cfg inp i o0 o1 v bf).1.row 0).mapq 1 = Int.tdiv o1.res.mapq 3 ∧
      ((thirdStageSlot cfg inp i o0 o1 v bf).1.row 0).alignedAsPair = false ∧
      ((thirdStageSlot cfg inp i o0 o1 v bf).1.row 0).fromAlignTogether = false ∧
      (thirdStageSlot cfg inp i o0 o1 v bf).1.tracker.singleNotDone = false) := by
  have h0 : ¬(inp.pairedReads (i * NUM_READS_PER_PAIR)).getDataLength < cfg.minReadLength := by
    omega
  have h1 : ¬(inp.pairedReads (i * NUM_READS_PER_PAIR + 1)).getDataLength < cfg.minReadLength := by
    omega
  refine ⟨?_, ?_⟩
  · rcases Bool.eq_false_or_eq_true o0.fits with hf0 | hf0 <;>
      simp [stage3Calls, h0, h1, hf0]
  · intro hf0 hf1
    simp [thirdStageSlot, mateLoopView, mateStep, h0, h1, hf0, hf1, setAt, storeSingle]

theorem thirdStageMate_nSecondary (cfg : Config) (D : Delegates σ β) (inp : Input) (k r j : Nat)
    (hj : j ≠ 0) (a : MateAcc σ) :
    (thirdStageMate cfg D inp k r a).1.state.nSecondaryResults j =
      a.state.nSecondaryResults j := by
  unfold thirdStageMate
  dsimp only
  split_ifs <;>
    simp [afterAlignRead, storeOverflow, storeCount, State.modResult, State.log, setAt, hj]

/-- Stage 3 never writes a paired secondary count other than element 0 of the array. -/
theorem align_third_stage_nSecondary (cfg : Config) (D : Delegates σ β) (inp : Input)
    (s : State σ) (j : Nat) (hj : j ≠ 0) :
    (align_third_stage cfg D inp s).1.nSecondaryResults j = s.nSecondaryResults j := by
  refine forLoop_inv (fun b : State σ × Bool => b.1.nSecondaryResults j = s.nSecondaryResults j)
    _ _ (s, true) rfl ?_
  intro k b _ hb
  have hloop : (forLoopBreak (thirdStageMate cfg D inp k) NUM_READS_PER_PAIR 0
      ⟨b.1, b.2, true⟩).state.nSecondaryResults j = s.nSecondaryResults j :=
    forLoopBreak_inv (fun m : MateAcc σ => m.state.nSecondaryResults j = s.nSecondaryResults j)
      _ _ _ ⟨b.1, b.2, true⟩ hb
      (fun r m _ _ hm => (thirdStageMate_nSecondary cfg D inp k r j hj m).trans hm)
  unfold thirdStageBody
  dsimp only
  split_ifs
  · simpa [State.modResult, State.modTracker] using hloop
  · exact hloop
  · exact hb

/-- C11 (failing input): on the two-pair batch, pair 1 overflows its single-end buffer in
Stage 3 and pair 0 is not processed at all; yet on return the paired secondary count of the
overflowing pair 1 is still 2, and the count of pair 0 has been reset from 2 to 0. -/
theorem third_stage_overflow_resets_first_slot :
    twoPairsAfterSecondStage.nSecondaryResults 0 = 2 ∧
    twoPairsAfterSecondStage.nSecondaryResults 1 = 2 ∧
    (twoPairsAfterSecondStage.progressTracker 0).singleNotDone = false ∧
    (align_third_stage ⟨20, false⟩ (sampleDelegates 2 3) (sampleInput twoPairs 2 5 0)
      twoPairsAfterSecondStage).1.calls = twoPairsAfterSecondStage.calls ++
      [Call.alignRead 1 0 0 0 false ⟨AlignmentResult.SingleHit, 500, Direction.RC, 2, 3, 70⟩
        0] ∧
    (align_third_stage ⟨20, false⟩ (sampleDelegates 2 3) (sampleInput twoPairs 2 5 0)
      twoPairsAfterSecondStage).1.nSecondaryResults 1 = 2 ∧
    (align_third_stage ⟨20, false⟩ (sampleDelegates 2 3) (sampleInput twoPairs 2 5 0)
      twoPairsAfterSecondStage).1.nSecondaryResults 0 = 0 := by
  decide

/-- C20 (failing input): slot 0 of `pendingState` was left by a Stage 3 overflow with capacity
0, so its first-mate count holds the sentinel 1.  Re-running `align_third_stage` with
capacity 10 calls the aligner for mate 0 with capacity 9 and output offset 1, not with
capacity 10 and offset 0. -/
theorem third_stage_retry_counts_sentinel :
    (pendingState.progressTracker 0).singleNotDone = true ∧
    pendingState.nSingleEndSecondaryResults 0 = 0 + 1 ∧
    (align_third_stage ⟨20, false⟩ (sampleDelegates 2 3) (sampleInput chimericPair 1 5 10)
      pendingState).1.calls = pendingState.calls ++
      [Call.alignRead 0 0 9 1 true ⟨AlignmentResult.SingleHit, 500, Direction.RC, 2, 3, 70⟩ 3,
       Call.alignRead 0 1 7 3 true ⟨AlignmentResult.NotFound, 500, Direction.RC, 2, 3, 70⟩
        3] := by
  decide

/-- Stage 3 on a slot with two long mates whose answers both fit: the counts stored. -/
theorem thirdStageSlot_long_counts (cfg : Config) (inp : Input) (i : Nat)
    (o0 o1 : SingleAnswer) (v : SlotView) (bf : Bool)
    (hl0 : cfg.minReadLength ≤ (inp.pairedReads (i * NUM_READS_PER_PAIR)).getDataLength)
    (hl1 : cfg.minReadLength ≤ (inp.pairedReads (i * NUM_READS_PER_PAIR + 1)).getDataLength)
    (hf0 : o0.fits = true) (hf1 : o1.fits = true) :
    (thirdStageSlot cfg inp i o0 o1 v bf).1.nSingleFirst = o0.n ∧
    (thirdStageSlot cfg inp i o0 o1 v bf).1.nSingleSecond = o1.n := by
  have h0 : ¬(inp.pairedReads (i * NUM_READS_PER_PAIR)).getDataLength < cfg.minReadLength := by
    omega
  have h1 : ¬(inp.pairedReads (i * NUM_READS_PER_PAIR + 1)).getDataLength < cfg.minReadLength := by
    omega
  simp [thirdStageSlot, mateLoopView, mateStep, h0, h1, hf0, hf1]

theorem thirdStageMate_buffer_frame (cfg : Config) (D : Delegates σ β) (inp : Input)
    (i k r : Nat) (hk : k ≠ i) (a : MateAcc σ) :
    (thirdStageMate cfg D inp k r a).1.state.singleEndSecondaryResults i =
      a.state.singleEndSecondaryResults i := by
  have hik : i ≠ k := fun h => hk h.symm
  unfold thirdStageMate
  dsimp only
  split_ifs <;>
    simp [afterAlignRead, storeOverflow, storeCount, State.modResult, State.log, setAt, hik]

theorem thirdStageBody_buffer_frame (cfg : Config) (D : Delegates σ β) (inp : Input)
    (i k : Nat) (hk : k ≠ i) (acc : State σ × Bool) :
    (thirdStageBody cfg D inp k acc).1.singleEndSecondaryResults i =
      acc.1.singleEndSecondaryResults i := by
  have hloop : (forLoopBreak (thirdStageMate cfg D inp k) NUM_READS_PER_PAIR 0
      ⟨acc.1, acc.2, true⟩).state.singleEndSecondaryResults i =
        acc.1.singleEndSecondaryResults i :=
    forLoopBreak_inv (fun b : MateAcc σ => b.state.singleEndSecondaryResults i =
      acc.1.singleEndSecondaryResults i) _ _ _ ⟨acc.1, acc.2, true⟩ rfl
      (fun r b _ _ hb => (thirdStageMate_buffer_frame cfg D inp i k r hk b).trans hb)
  unfold thirdStageBody
  dsimp only
  split_ifs
  · simpa [State.modResult, State.modTracker] using hloop
  · exact hloop
  · rfl

/-- One iteration of the pair loop of Stage 3 on a slot with `singleNotDone` set acts on the
slot as `thirdStageSlot` does for the answers of the two `AlignRead` calls of the mate loop:
the one made in the state at entry and the one made in the state mate 0 leaves. -/
theorem thirdStageBody_view_answers (cfg : Config) (D : Delegates σ β) (inp : Input) (i : Nat)
    (acc : State σ × Bool) (hs : (acc.1.progressTracker i).singleNotDone = true) :
    slotView i (thirdStageBody cfg D inp i acc).1 =
      (thirdStageSlot cfg inp i
        ⟨(callAlignRead D inp i 0 acc.1).fitInSecondaryBuffer,
          (callAlignRead D inp i 0 acc.1).singleResult,
          (callAlignRead D inp i 0 acc.1).singleEndSecondaryResultsThisTime⟩
        ⟨(callAlignRead D inp i 1
            (thirdStageMate cfg D inp i 0 ⟨acc.1, acc.2, true⟩).1.state).fitInSecondaryBuffer,
          (callAlignRead D inp i 1
            (thirdStageMate cfg D inp i 0 ⟨acc.1, acc.2, true⟩).1.state).singleResult,
          (callAlignRead D inp i 1
            (thirdStageMate cfg D inp i 0
              ⟨acc.1, acc.2, true⟩).1.state).singleEndSecondaryResultsThisTime⟩
        (slotView i acc.1) acc.2).1 := by
  obtain ⟨v0, b0⟩ := thirdStageMate_view cfg D inp i 0 (by norm_num) ⟨acc.1, acc.2, true⟩
  obtain ⟨v1, -⟩ := thirdStageMate_view cfg D inp i 1 (by norm_num)
    (thirdStageMate cfg D inp i 0 ⟨acc.1, acc.2, true⟩).1
  generalize (⟨(callAlignRead D inp i 0 acc.1).fitInSecondaryBuffer,
      (callAlignRead D inp i 0 acc.1).singleResult,
      (callAlignRead D inp i 0 acc.1).singleEndSecondaryResultsThisTime⟩ : SingleAnswer) = o0
    at v0 b0 ⊢
  generalize (⟨(callAlignRead D inp i 1
        (thirdStageMate cfg D inp i 0 ⟨acc.1, acc.2, true⟩).1.state).fitInSecondaryBuffer,
      (callAlignRead D inp i 1
        (thirdStageMate cfg D inp i 0 ⟨acc.1, acc.2, true⟩).1.state).singleResult,
      (callAlignRead D inp i 1
        (thirdStageMate cfg D inp i 0
          ⟨acc.1, acc.2, true⟩).1.state).singleEndSecondaryResultsThisTime⟩ : SingleAnswer) = o1
    at v1 ⊢
  have hloop : mateViewOf i (forLoopBreak (thirdStageMate cfg D inp i) NUM_READS_PER_PAIR 0
      ⟨acc.1, acc.2, true⟩) = mateLoopView cfg inp i o0 o1 (slotView i acc.1) acc.2 := by
    show mateViewOf i (forLoopBreak (thirdStageMate cfg D inp i) 2 0 ⟨acc.1, acc.2, true⟩) = _
    rw [forLoopBreak_two]
    unfold mateLoopView
    have hm : mateViewOf i (⟨acc.1, acc.2, true⟩ : MateAcc σ) =
        ⟨slotView i acc.1, acc.2, true⟩ := rfl
    rw [hm] at v0 b0
    rw [← b0]
    split_ifs
    · exact v0
    · rw [v1, v0]
  have hno := congrArg MateView.noOverflow hloop
  have hbf := congrArg MateView.barcodeFinished hloop
  have hsl := congrArg MateView.slot hloop
  simp only [mateViewOf] at hno hbf hsl
  unfold thirdStageBody thirdStageSlot
  rw [if_pos hs]
  dsimp only
  rw [← hno, ← hbf, ← hsl]
  split_ifs
  · simp only [slotView, State.modResult, State.modTracker, setAt, if_true]
    congr 1
    funext j
    by_cases hj : j = 0 <;> simp [hj, setAt]
  · rfl

/-- The state in which the slot's turn comes in `align_third_stage`: the slot's view and its
single-end buffer are those at entry of the stage, and the slot's view on return is the one
its own iteration leaves. -/
theorem thirdStage_slot_buffer (cfg : Config) (D : Delegates σ β) (inp : Input) (s : State σ)
    (i : Nat) (hi : i < inp.barcodeSize) :
    ∃ a : State σ × Bool, slotView i a.1 = slotView i s ∧
      a.1.singleEndSecondaryResults i = s.singleEndSecondaryResults i ∧
      slotView i (align_third_stage cfg D inp s).1 =
        slotView i (thirdStageBody cfg D inp i a).1 := by
  obtain ⟨a, ha, hfin, -⟩ := forLoop_slot
    (fun b : State σ × Bool => (slotView i b.1, b.1.singleEndSecondaryResults i))
    (fun b => b.2) (thirdStageBody cfg D inp) i
    (fun k b hk => Prod.ext (thirdStageBody_frame cfg D inp i k hk b)
      (thirdStageBody_buffer_frame cfg D inp i k hk b))
    (fun k b hb => thirdStageBody_flag cfg D inp k b hb) inp.barcodeSize hi (s, true)
  exact ⟨a, congrArg Prod.fst ha, congrArg Prod.snd ha, congrArg Prod.fst hfin⟩

/-- The `AlignRead` call for mate 0 of a slot whose first-mate count is 0: the arguments
handed to the single-read aligner. -/
theorem callAlignRead_first (D : Delegates σ β) (inp : Input) (i : Nat) (a : State σ)
    (hzero : a.nSingleEndSecondaryResults (NUM_READS_PER_PAIR * i) = 0) :
    callAlignRead D inp i 0 a =
      D.AlignRead a.world (inp.pairedReads (i * NUM_READS_PER_PAIR))
        inp.maxEditDistanceForSecondaryResults (inp.singleSecondaryBufferSize i)
        inp.maxSecondaryAlignmentsToReturn
        (fun k => a.singleEndSecondaryResults i (k : Int)) := by
  unfold callAlignRead
  rw [hzero]
  simp

/-- The `AlignRead` call for mate 1 of a slot whose first-mate count was 0 and whose long
mate 0 fitted: the arguments handed to the single-read aligner, in terms of the answer `o0`
for mate 0. -/
theorem callAlignRead_second (cfg : Config) (D : Delegates σ β) (inp : Input) (i : Nat)
    (m : MateAcc σ)
    (hl0 : cfg.minReadLength ≤ (inp.pairedReads (i * NUM_READS_PER_PAIR)).getDataLength)
    (hzero : m.state.nSingleEndSecondaryResults (NUM_READS_PER_PAIR * i) = 0)
    (hfit : (callAlignRead D inp i 0 m.state).fitInSecondaryBuffer = true) :
    callAlignRead D inp i 1 (thirdStageMate cfg D inp i 0 m).1.state =
      D.AlignRead (callAlignRead D inp i 0 m.state).world
        (inp.pairedReads (i * NUM_READS_PER_PAIR + 1))
        inp.maxEditDistanceForSecondaryResults
        (inp.singleSecondaryBufferSize i -
          (callAlignRead D inp i 0 m.state).singleEndSecondaryResultsThisTime)
        inp.maxSecondaryAlignmentsToReturn
        (fun k =>
          if 0 ≤ (callAlignRead D inp i 0 m.state).singleEndSecondaryResultsThisTime + (k : Int)
          then (callAlignRead D inp i 0 m.state).buffer
            ((callAlignRead D inp i 0 m.state).singleEndSecondaryResultsThisTime +
              (k : Int)).toNat
          else m.state.singleEndSecondaryResults i
            ((callAlignRead D inp i 0 m.state).singleEndSecondaryResultsThisTime + (k : Int))) := by
  have h0 : ¬(inp.pairedReads (i * NUM_READS_PER_PAIR)).getDataLength < cfg.minReadLength := by
    omega
  generalize ho : callAlignRead D inp i 0 m.state = o at hfit ⊢
  unfold thirdStageMate
  dsimp only
  rw [Nat.add_zero, if_neg h0, ho, hfit]
  simp [callAlignRead, storeCount, afterAlignRead, State.modResult, State.log, setAt, hzero]

/-- C12: shared single-end budget.  In `align_third_stage`, for a slot with `singleNotDone`
set, two mates of at least `minReadLength` and a first-mate single-end count of 0 at entry,
the single-read aligner is handed, for mate 0, the capacity `singleSecondaryBufferSize[i]` and
the slot's buffer from offset 0; when its answer `o0` fits and reports `n0` secondary results
it is handed, for mate 1, the capacity `singleSecondaryBufferSize[i] - n0` and the slot's
buffer, as mate 0 left it, from offset `n0` (and it is not called for mate 1 when mate 0 does
not fit); these are the only calls for the slot, and when both answers fit the two counts
stored are `n0` and `n1`.  Here `w` is the delegate state when the slot's turn comes. -/
theorem shared_single_end_budget (cfg : Config) (D : Delegates σ β) (inp : Input)
    (s : State σ) (i : Nat) (hi : i < inp.barcodeSize)
    (hs : (s.progressTracker i).singleNotDone = true)
    (hl0 : cfg.minReadLength ≤ (inp.pairedReads (i * NUM_READS_PER_PAIR)).getDataLength)
    (hl1 : cfg.minReadLength ≤ (inp.pairedReads (i * NUM_READS_PER_PAIR + 1)).getDataLength)
    (hzero : s.nSingleEndSecondaryResults (2 * i) = 0)
    (evs : List Call) (hevs : (align_third_stage cfg D inp s).1.calls = s.calls ++ evs) :
    ∃ (w : σ) (o0 : AlignReadOut σ),
      o0 = D.AlignRead w (inp.pairedReads (i * NUM_READS_PER_PAIR))
        inp.maxEditDistanceForSecondaryResults (inp.singleSecondaryBufferSize i)
        inp.maxSecondaryAlignmentsToReturn
        (fun k => s.singleEndSecondaryResults i (k : Int)) ∧
      Call.alignRead i 0 (inp.singleSecondaryBufferSize i) 0 o0.fitInSecondaryBuffer
        o0.singleResult o0.singleEndSecondaryResultsThisTime ∈ evs ∧
      (∀ cap off f r n, Call.alignRead i 0 cap off f r n ∈ evs →
        cap = inp.singleSecondaryBufferSize i ∧ off = 0 ∧ f = o0.fitInSecondaryBuffer ∧
        r = o0.singleResult ∧ n = o0.singleEndSecondaryResultsThisTime) ∧
      (o0.fitInSecondaryBuffer = false →
        ∀ cap off f r n, Call.alignRead i 1 cap off f r n ∉ evs) ∧
      (o0.fitInSecondaryBuffer = true → ∃ o1 : AlignReadOut σ,
        o1 = D.AlignRead o0.world (inp.pairedReads (i * NUM_READS_PER_PAIR + 1))
          inp.maxEditDistanceForSecondaryResults
          (inp.singleSecondaryBufferSize i - o0.singleEndSecondaryResultsThisTime)
          inp.maxSecondaryAlignmentsToReturn
          (fun k =>
            if 0 ≤ o0.singleEndSecondaryResultsThisTime + (k : Int)
            then o0.buffer (o0.singleEndSecondaryResultsThisTime + (k : Int)).toNat
            else s.singleEndSecondaryResults i
              (o0.singleEndSecondaryResultsThisTime + (k : Int))) ∧
        Call.alignRead i 1
          (inp.singleSecondaryBufferSize i - o0.singleEndSecondaryResultsThisTime)
          o0.singleEndSecondaryResultsThisTime o1.fitInSecondaryBuffer o1.singleResult
          o1.singleEndSecondaryResultsThisTime ∈ evs ∧
        (∀ cap off f r n, Call.alignRead i 1 cap off f r n ∈ evs →
          cap = inp.singleSecondaryBufferSize i - o0.singleEndSecondaryResultsThisTime ∧
          off = o0.singleEndSecondaryResultsThisTime ∧ f = o1.fitInSecondaryBuffer ∧
          r = o1.singleResult ∧ n = o1.singleEndSecondaryResultsThisTime) ∧
        (o1.fitInSecondaryBuffer = true →
          (align_third_stage cfg D inp s).1.nSingleEndSecondaryResults (2 * i) =
            o0.singleEndSecondaryResultsThisTime ∧
          (align_third_stage cfg D inp s).1.nSingleEndSecondaryResults (2 * i + 1) =
            o1.singleEndSecondaryResultsThisTime)) := by
  obtain ⟨a, ha, hbuf, hfin⟩ := thirdStage_slot_buffer cfg D inp s i hi
  have hat : a.1.progressTracker i = s.progressTracker i := congrArg SlotView.tracker ha
  have hza : a.1.nSingleEndSecondaryResults (NUM_READS_PER_PAIR * i) = 0 :=
    (congrArg SlotView.nSingleFirst ha).trans hzero
  have hv := thirdStageBody_view_answers cfg D inp i a (by rw [hat, hs])
  have he0 := callAlignRead_first D inp i a.1 hza
  have he1 := callAlignRead_second cfg D inp i ⟨a.1, a.2, true⟩ hl0 hza
  dsimp only at he1
  rw [hbuf] at he0 he1
  generalize callAlignRead D inp i 1
    (thirdStageMate cfg D inp i 0 ⟨a.1, a.2, true⟩).1.state = o1 at hv he1
  generalize callAlignRead D inp i 0 a.1 = o0 at hv he0 he1
  rw [← hfin, ha] at hv
  have hcalls : slotCalls i evs = stage3Calls cfg inp i
      ⟨o0.fitInSecondaryBuffer, o0.singleResult, o0.singleEndSecondaryResultsThisTime⟩
      ⟨o1.fitInSecondaryBuffer, o1.singleResult, o1.singleEndSecondaryResultsThisTime⟩
      (slotView i s) := by
    have hc := congrArg SlotView.calls hv
    rw [thirdStageSlot_calls] at hc
    exact slotCalls_new hevs hc
  obtain ⟨hc3, -⟩ := thirdStageSlot_long cfg inp i
    ⟨o0.fitInSecondaryBuffer, o0.singleResult, o0.singleEndSecondaryResultsThisTime⟩
    ⟨o1.fitInSecondaryBuffer, o1.singleResult, o1.singleEndSecondaryResultsThisTime⟩
    (slotView i s) a.2 hl0 hl1
  have hz : (slotView i s).nSingleFirst = 0 := hzero
  rw [hc3, hz] at hcalls
  dsimp only at hcalls
  have hmem : ∀ r cap off f res n, Call.alignRead i r cap off f res n ∈ evs ↔
      Call.alignRead i r cap off f res n ∈ slotCalls i evs :=
    fun _ _ _ _ _ _ => ⟨fun h => mem_slotCalls.mpr ⟨h, rfl⟩, fun h => (mem_slotCalls.mp h).1⟩
  have hn1 : (align_third_stage cfg D inp s).1.nSingleEndSecondaryResults (2 * i) = _ :=
    congrArg SlotView.nSingleFirst hv
  have hn2 : (align_third_stage cfg D inp s).1.nSingleEndSecondaryResults (2 * i + 1) = _ :=
    congrArg SlotView.nSingleSecond hv
  refine ⟨a.1.world, o0, he0, ?_, ?_, ?_, ?_⟩
  · rw [hmem, hcalls]
    simp
  · intro cap off f r n h
    rw [hmem, hcalls] at h
    rcases Bool.eq_false_or_eq_true o0.fitInSecondaryBuffer with hf | hf <;>
      simp [hf] at h ⊢ <;> simp [h]
  · intro hf cap off f r n h
    rw [hmem, hcalls] at h
    simp [hf] at h
  · intro hf
    refine ⟨o1, he1 hf, ?_, ?_, ?_⟩
    · rw [hmem, hcalls]
      simp [hf]
    · intro cap off f r n h
      rw [hmem, hcalls] at h
      simp [hf] at h
      simp [h]
    · intro hf1
      rw [hn1, hn2]
      exact thirdStageSlot_long_counts cfg inp i _ _ _ a.2 hl0 hl1 hf hf1

/-- C12 at the three-pair batch: for pair 2 the aligner is called with capacity 5 at offset 0
for mate 0, which reports one result, and with capacity 4 at offset 1 for mate 1, which reports
one result; the counts stored are 1 and 1. -/
theorem shared_single_end_budget_witness :
    (align_third_stage ⟨20, false⟩ (sampleDelegates 2 1) (sampleInput threePairs 3 5 5)
      (align_second_stage ⟨20, false⟩ (sampleDelegates 2 1) (sampleInput threePairs 3 5 5)
        (align_first_stage ⟨20, false⟩ (sampleDelegates 2 1) (sampleInput threePairs 3 5 5)
          freshState).1).1).1.nSingleEndSecondaryResults (2 * 2) = 1 ∧
    (align_third_stage ⟨20, false⟩ (sampleDelegates 2 1) (sampleInput threePairs 3 5 5)
      (align_second_stage ⟨20, false⟩ (sampleDelegates 2 1) (sampleInput threePairs 3 5 5)
        (align_first_stage ⟨20, false⟩ (sampleDelegates 2 1) (sampleInput threePairs 3 5 5)
          freshState).1).1).1.nSingleEndSecondaryResults (2 * 2 + 1) = 1 := by
  obtain ⟨w, o0, -, -, h0, -, hfit⟩ := shared_single_end_budget ⟨20, false⟩
    (sampleDelegates 2 1) (sampleInput threePairs 3 5 5)
    (align_second_stage ⟨20, false⟩ (sampleDelegates 2 1) (sampleInput threePairs 3 5 5)
      (align_first_stage ⟨20, false⟩ (sampleDelegates 2 1) (sampleInput threePairs 3 5 5)
        freshState).1).1 2 (by decide) (by decide) (by decide) (by decide) (by decide)
    [Call.alignRead 2 0 5 0 true ⟨AlignmentResult.SingleHit, 500, Direction.RC, 2, 3, 70⟩ 1,
     Call.alignRead 2 1 4 1 true ⟨AlignmentResult.NotFound, 500, Direction.RC, 2, 3, 70⟩ 1]
    (by decide)
  obtain ⟨-, -, hf0, -, hn0⟩ := h0 5 0 true
    ⟨AlignmentResult.SingleHit, 500, Direction.RC, 2, 3, 70⟩ 1 (by decide)
  obtain ⟨o1, -, -, h1, hcounts⟩ := hfit hf0.symm
  obtain ⟨-, -, hf1, -, hn1⟩ := h1 4 1 true
    ⟨AlignmentResult.NotFound, 500, Direction.RC, 2, 3, 70⟩ 1 (by decide)
  have hc := hcounts hf1.symm
  rw [← hn0, ← hn1] at hc
  exact hc

/-- No `AlignRead` invocation is made for a mate that is too short. -/
theorem stage3Calls_short (cfg : Config) (inp : Input) (i : Nat) (o0 o1 : SingleAnswer)
    (v : SlotView) (r : Nat) (hr : r < 2)
    (hshort : (inp.pairedReads (i * NUM_READS_PER_PAIR + r)).getDataLength < cfg.minReadLength)
    (cap off : Int) (f : Bool) (res : SingleAlignmentResult) (n : Int) :
    Call.alignRead i r cap off f res n ∉ stage3Calls cfg inp i o0 o1 v := by
  interval_cases r
  · have h : (inp.pairedReads (i * NUM_READS_PER_PAIR)).getDataLength < cfg.minReadLength :=
      hshort
    by_cases h1 :
        (inp.pairedReads (i * NUM_READS_PER_PAIR + 1)).getDataLength < cfg.minReadLength <;>
      simp [stage3Calls, h, h1]
  · by_cases h0 : (inp.pairedReads (i * NUM_READS_PER_PAIR)).getDataLength < cfg.minReadLength <;>
      simp [stage3Calls, hshort, h0]

/-- An overflowing Stage 3 iteration logs a non-fitting `AlignRead` invocation. -/
theorem stage3Overflows_mem (cfg : Config) (inp : Input) (i : Nat) (o0 o1 : SingleAnswer)
    (v : SlotView) (h : stage3Overflows cfg inp i o0 o1) :
    ∃ r cap off res n, Call.alignRead i r cap off false res n ∈ stage3Calls cfg inp i o0 o1 v := by
  unfold stage3Overflows at h
  by_cases h0 : (inp.pairedReads (i * NUM_READS_PER_PAIR)).getDataLength < cfg.minReadLength <;>
  by_cases h1 : (inp.pairedReads (i * NUM_READS_PER_PAIR + 1)).getDataLength < cfg.minReadLength <;>
  rcases Bool.eq_false_or_eq_true o0.fits with hf0 | hf0 <;>
  rcases Bool.eq_false_or_eq_true o1.fits with hf1 | hf1 <;>
  simp [h0, h1, hf0, hf1] at h <;>
  simp [stage3Calls, h0, h1, hf0, hf1]

/-- A too short mate 0 is marked `NotFound` by Stage 3 whatever happens to mate 1. -/
theorem thirdStageSlot_short_first (cfg : Config) (inp : Input) (i : Nat)
    (o0 o1 : SingleAnswer) (v : SlotView) (bf : Bool)
    (hshort : (inp.pairedReads (i * NUM_READS_PER_PAIR)).getDataLength < cfg.minReadLength) :
    ((thirdStageSlot cfg inp i o0 o1 v bf).1.row 0).status 0 = AlignmentResult.NotFound ∧
    ((thirdStageSlot cfg inp i o0 o1 v bf).1.row 0).mapq 0 = 0 ∧
    ((thirdStageSlot cfg inp i o0 o1 v bf).1.row 0).location 0 = 0 ∧
    ((thirdStageSlot cfg inp i o0 o1 v bf).1.row 0).score 0 = 0 ∧
    ((thirdStageSlot cfg inp i o0 o1 v bf).1.row 0).direction 0 = Direction.FORWARD := by
  by_cases h1 : (inp.pairedReads (i * NUM_READS_PER_PAIR + 1)).getDataLength < cfg.minReadLength <;>
  rcases Bool.eq_false_or_eq_true o1.fits with hf1 | hf1 <;>
  simp [thirdStageSlot, mateLoopView, mateStep, hshort, h1, hf1, setAt, markShort, storeSingle]

/-- A Stage 3 iteration that does not overflow leaves the count of a too short mate alone and
marks the mate `NotFound`. -/
theorem thirdStageSlot_short_ok (cfg : Config) (inp : Input) (i : Nat) (o0 o1 : SingleAnswer)
    (v : SlotView) (bf : Bool) (r : Nat) (hr : r < 2)
    (hshort : (inp.pairedReads (i * NUM_READS_PER_PAIR + r)).getDataLength < cfg.minReadLength)
    (hok : ¬stage3Overflows cfg inp i o0 o1) :
    (if r = 0 then (thirdStageSlot cfg inp i o0 o1 v bf).1.nSingleFirst
      else (thirdStageSlot cfg inp i o0 o1 v bf).1.nSingleSecond) =
      (if r = 0 then v.nSingleFirst else v.nSingleSecond) ∧
    ((thirdStageSlot cfg inp i o0 o1 v bf).1.row 0).status r = AlignmentResult.NotFound ∧
    ((thirdStageSlot cfg inp i o0 o1 v bf).1.row 0).mapq r = 0 ∧
    ((thirdStageSlot cfg inp i o0 o1 v bf).1.row 0).location r = 0 ∧
    ((thirdStageSlot cfg inp i o0 o1 v bf).1.row 0).score r = 0 ∧
    ((thirdStageSlot cfg inp i o0 o1 v bf).1.row 0).direction r = Direction.FORWARD := by
  unfold stage3Overflows at hok
  interval_cases r
  · have h0 : (inp.pairedReads (i * NUM_READS_PER_PAIR)).getDataLength < cfg.minReadLength :=
      hshort
    by_cases h1 :
        (inp.pairedReads (i * NUM_READS_PER_PAIR + 1)).getDataLength < cfg.minReadLength <;>
    rcases Bool.eq_false_or_eq_true o1.fits with hf1 | hf1 <;>
    simp [h0, h1, hf1] at hok <;>
    simp [thirdStageSlot, mateLoopView, mateStep, h0, h1, hf1, setAt, markShort, storeSingle]
  · by_cases h0 : (inp.pairedReads (i * NUM_READS_PER_PAIR)).getDataLength < cfg.minReadLength <;>
    rcases Bool.eq_false_or_eq_true o0.fits with hf0 | hf0 <;>
    simp [h0, hshort, hf0] at hok <;>
    simp [thirdStageSlot, mateLoopView, mateStep, h0, hshort, hf0, setAt, markShort,
      storeSingle]

/-- An overflow logged for mate 0 means that mate 0 is long and its answer does not fit. -/
theorem stage3Calls_overflow_first (cfg : Config) (inp : Input) (i : Nat) (o0 o1 : SingleAnswer)
    (v : SlotView) (cap off : Int) (res : SingleAlignmentResult) (n : Int)
    (h : Call.alignRead i 0 cap off false res n ∈ stage3Calls cfg inp i o0 o1 v) :
    ¬(inp.pairedReads (i * NUM_READS_PER_PAIR)).getDataLength < cfg.minReadLength ∧
    o0.fits = false := by
  by_cases h0 : (inp.pairedReads (i * NUM_READS_PER_PAIR)).getDataLength < cfg.minReadLength <;>
  by_cases h1 : (inp.pairedReads (i * NUM_READS_PER_PAIR + 1)).getDataLength < cfg.minReadLength <;>
  rcases Bool.eq_false_or_eq_true o0.fits with hf0 | hf0 <;>
  simp [stage3Calls, h0, h1, hf0] at h ⊢

/-- When mate 0 overflows, the iteration leaves the result rows and the tracker of the slot
as they were. -/
theorem thirdStageSlot_overflow_first (cfg : Config) (inp : Input) (i : Nat)
    (o0 o1 : SingleAnswer) (v : SlotView) (bf : Bool)
    (h0 : ¬(inp.pairedReads (i * NUM_READS_PER_PAIR)).getDataLength < cfg.minReadLength)
    (hf0 : o0.fits = false) :
    (thirdStageSlot cfg inp i o0 o1 v bf).1.row = v.row ∧
    (thirdStageSlot cfg inp i o0 o1 v bf).1.tracker = v.tracker := by
  simp [thirdStageSlot, mateLoopView, mateStep, h0, hf0]

/-- C13 (as stated, refuted): in `shortFirstAfterSecondStage` mate 0 of slot 0 is too short and
`singleNotDone` is set, yet `align_third_stage` changes that mate's single-end count from 0 to
the sentinel 1, because mate 1 overflows; in `shortSecondAfterSecondStage` mate 1 is too short,
yet its status is left at `SingleHit` and not set to `NotFound`, because mate 0 overflows and
the mate loop is left before mate 1 is looked at. -/
theorem third_stage_short_mate_counterexample :
    ((shortFirstAfterSecondStage.progressTracker 0).singleNotDone = true ∧
      (shortFirstPair 0).getDataLength < 20 ∧
      shortFirstAfterSecondStage.nSingleEndSecondaryResults 0 = 0 ∧
      (align_third_stage ⟨20, false⟩ (sampleDelegates 2 3) (sampleInput shortFirstPair 1 5 0)
        shortFirstAfterSecondStage).1.nSingleEndSecondaryResults 0 = 1) ∧
    ((shortSecondAfterSecondStage.progressTracker 0).singleNotDone = true ∧
      (shortSecondPair 1).getDataLength < 20 ∧
      ((align_third_stage ⟨20, false⟩ (sampleDelegates 2 3) (sampleInput shortSecondPair 1 5 0)
        shortSecondAfterSecondStage).1.result 0 0).status 1 = AlignmentResult.SingleHit) := by
  decide

/-- C13 (amended): in `align_third_stage`, for a slot with `singleNotDone` set and a mate `r`
shorter than `minReadLength`, the single-read aligner is never invoked for that mate (so the
mate causes no overflow); if no `AlignRead` call for the slot overflows in this call, the
mate's single-end count is unchanged and `result[i]` gets status `NotFound`, mapq 0, location
0, score 0 and direction `FORWARD` for the mate; for mate 0 the result fields are set even
when mate 1 overflows.  If an `AlignRead` call for the slot does overflow, the first mate's
count is overwritten with `singleSecondaryBufferSize[i] + 1` and the second mate's with 0,
whichever mate is the short one, and `singleNotDone` stays set; if it is mate 0 that
overflows, the result rows of the slot are left as they were, so a short mate 1 is not marked
in that call. -/
theorem third_stage_short_mate (cfg : Config) (D : Delegates σ β) (inp : Input) (s : State σ)
    (i : Nat) (hi : i < inp.barcodeSize) (hs : (s.progressTracker i).singleNotDone = true)
    (r : Nat) (hr : r < 2)
    (hshort : (inp.pairedReads (i * NUM_READS_PER_PAIR + r)).getDataLength < cfg.minReadLength)
    (evs : List Call) (hevs : (align_third_stage cfg D inp s).1.calls = s.calls ++ evs) :
    (∀ cap off f res n, Call.alignRead i r cap off f res n ∉ evs) ∧
    ((∀ r1 cap off res n, Call.alignRead i r1 cap off false res n ∉ evs) →
      (align_third_stage cfg D inp s).1.nSingleEndSecondaryResults (2 * i + r) =
        s.nSingleEndSecondaryResults (2 * i + r) ∧
      ((align_third_stage cfg D inp s).1.result i 0).status r = AlignmentResult.NotFound ∧
      ((align_third_stage cfg D inp s).1.result i 0).mapq r = 0 ∧
      ((align_third_stage cfg D inp s).1.result i 0).location r = 0 ∧
      ((align_third_stage cfg D inp s).1.result i 0).score r = 0 ∧
      ((align_third_stage cfg D inp s).1.result i 0).direction r = Direction.FORWARD) ∧
    (r = 0 →
      ((align_third_stage cfg D inp s).1.result i 0).status 0 = AlignmentResult.NotFound ∧
      ((align_third_stage cfg D inp s).1.result i 0).mapq 0 = 0 ∧
      ((align_third_stage cfg D inp s).1.result i 0).location 0 = 0 ∧
      ((align_third_stage cfg D inp s).1.result i 0).score 0 = 0 ∧
      ((align_third_stage cfg D inp s).1.result i 0).direction 0 = Direction.FORWARD) ∧
    (∀ r1 cap off res n, Call.alignRead i r1 cap off false res n ∈ evs →
      (align_third_stage cfg D inp s).1.nSingleEndSecondaryResults (2 * i) =
        inp.singleSecondaryBufferSize i + 1 ∧
      (align_third_stage cfg D inp s).1.nSingleEndSecondaryResults (2 * i + 1) = 0 ∧
      ((align_third_stage cfg D inp s).1.progressTracker i).singleNotDone = true) ∧
    (∀ cap off res n, Call.alignRead i 0 cap off false res n ∈ evs →
      (align_third_stage cfg D inp s).1.result i = s.result i) := by
  obtain ⟨o0, o1, bf, hv, -, hcalls⟩ :=
    align_third_stage_slot_calls cfg D inp s i hi hs evs hevs
  have hrows : (align_third_stage cfg D inp s).1.result i =
      (thirdStageSlot cfg inp i o0 o1 (slotView i s) bf).1.row :=
    congrArg SlotView.row hv
  have htr : (align_third_stage cfg D inp s).1.progressTracker i =
      (thirdStageSlot cfg inp i o0 o1 (slotView i s) bf).1.tracker :=
    congrArg SlotView.tracker hv
  have hrow : (align_third_stage cfg D inp s).1.result i 0 =
      (thirdStageSlot cfg inp i o0 o1 (slotView i s) bf).1.row 0 :=
    congrArg (fun v => v.row 0) hv
  have hn1 : (align_third_stage cfg D inp s).1.nSingleEndSecondaryResults (2 * i) =
      (thirdStageSlot cfg inp i o0 o1 (slotView i s) bf).1.nSingleFirst :=
    congrArg SlotView.nSingleFirst hv
  have hn2 : (align_third_stage cfg D inp s).1.nSingleEndSecondaryResults (2 * i + 1) =
      (thirdStageSlot cfg inp i o0 o1 (slotView i s) bf).1.nSingleSecond :=
    congrArg SlotView.nSingleSecond hv
  refine ⟨?_, ?_, ?_, ?_, ?_⟩
  · intro cap off f res n hm
    have : Call.alignRead i r cap off f res n ∈ slotCalls i evs :=
      mem_slotCalls.mpr ⟨hm, rfl⟩
    rw [hcalls] at this
    exact stage3Calls_short cfg inp i o0 o1 _ r hr hshort cap off f res n this
  · intro hno
    have hok : ¬stage3Overflows cfg inp i o0 o1 := by
      intro hov
      obtain ⟨r1, cap, off, res, n, hm⟩ := stage3Overflows_mem cfg inp i o0 o1 (slotView i s) hov
      rw [← hcalls] at hm
      exact hno r1 cap off res n (mem_slotCalls.mp hm).1
    obtain ⟨k1, k2⟩ := thirdStageSlot_short_ok cfg inp i o0 o1 (slotView i s) bf r hr hshort hok
    rw [hrow]
    refine ⟨?_, k2⟩
    interval_cases r
    · exact hn1.trans k1
    · exact hn2.trans k1
  · intro h0
    subst h0
    rw [hrow]
    exact thirdStageSlot_short_first cfg inp i o0 o1 (slotView i s) bf hshort
  · intro r1 cap off res n hm
    have hmem : Call.alignRead i r1 cap off false res n ∈ slotCalls i evs :=
      mem_slotCalls.mpr ⟨hm, rfl⟩
    rw [hcalls] at hmem
    obtain ⟨hovf, -⟩ := stage3Calls_overflow cfg inp i o0 o1 _ r1 cap off res n hmem
    obtain ⟨-, k2, k3, k4, -, -⟩ :=
      thirdStageSlot_overflow cfg inp i o0 o1 (slotView i s) bf hovf
    refine ⟨hn1.trans k2, hn2.trans k3, ?_⟩
    rw [htr, k4]
    exact hs
  · intro cap off res n hm
    have hmem : Call.alignRead i 0 cap off false res n ∈ slotCalls i evs :=
      mem_slotCalls.mpr ⟨hm, rfl⟩
    rw [hcalls] at hmem
    obtain ⟨h0, hf0⟩ := stage3Calls_overflow_first cfg inp i o0 o1 _ cap off res n hmem
    rw [hrows, (thirdStageSlot_overflow_first cfg inp i o0 o1 (slotView i s) bf h0 hf0).1]
    rfl

/-- C13 (amended) at the batch `shortFirstPair` with single-end capacity 5: mate 0 is too
short and mate 1 fits, so mate 0 keeps its count 0 and is marked `NotFound`. -/
theorem third_stage_short_mate_witness :
    (align_third_stage ⟨20, false⟩ (sampleDelegates 2 3) (sampleInput shortFirstPair 1 5 5)
      (align_second_stage ⟨20, false⟩ (sampleDelegates 2 3) (sampleInput shortFirstPair 1 5 5)
        (align_first_stage ⟨20, false⟩ (sampleDelegates 2 3) (sampleInput shortFirstPair 1 5 5)
          freshState).1).1).1.nSingleEndSecondaryResults (2 * 0 + 0) = 0 ∧
    ((align_third_stage ⟨20, false⟩ (sampleDelegates 2 3) (sampleInput shortFirstPair 1 5 5)
      (align_second_stage ⟨20, false⟩ (sampleDelegates 2 3) (sampleInput shortFirstPair 1 5 5)
        (align_first_stage ⟨20, false⟩ (sampleDelegates 2 3) (sampleInput shortFirstPair 1 5 5)
          freshState).1).1).1.result 0 0).status 0 = AlignmentResult.NotFound :=
  have h := (third_stage_short_mate ⟨20, false⟩ (sampleDelegates 2 3)
    (sampleInput shortFirstPair 1 5 5)
    (align_second_stage ⟨20, false⟩ (sampleDelegates 2 3) (sampleInput shortFirstPair 1 5 5)
      (align_first_stage ⟨20, false⟩ (sampleDelegates 2 3) (sampleInput shortFirstPair 1 5 5)
        freshState).1).1 0 (by decide) (by decide) 0 (by decide) (by decide)
    [Call.alignRead 0 1 5 0 true ⟨AlignmentResult.NotFound, 500, Direction.RC, 2, 3, 70⟩ 3]
    (by decide)).2.1 (by simp)
  ⟨h.1, h.2.1⟩

/-- The first loop of Stage 1 invokes no delegate for a pair with a mate that is too short. -/
theorem firstStageBody_not_long (cfg : Config) (D : Delegates σ β) (inp : Input) (i : Nat)
    (acc : State σ × Bool)
    (hnl : ¬(cfg.minReadLength ≤ (inp.pairedReads (i * NUM_READS_PER_PAIR)).getDataLength ∧
      cfg.minReadLength ≤ (inp.pairedReads (i * NUM_READS_PER_PAIR + 1)).getDataLength)) :
    (firstStageBody cfg D inp i acc).1.calls = acc.1.calls := by
  unfold firstStageBody
  dsimp only
  rw [if_neg hnl]
  split_ifs <;> simp [State.modResult, State.modTracker]

/-- Stage 1 on a slot of the batch one of whose mates is too short: the only delegate
invocation that can be made for the slot is the scan to the target locus. -/
theorem align_first_stage_not_long (cfg : Config) (D : Delegates σ β) (inp : Input)
    (s : State σ) (i : Nat) (hi : i < inp.barcodeSize)
    (hnl : ¬(cfg.minReadLength ≤ (inp.pairedReads (i * NUM_READS_PER_PAIR)).getDataLength ∧
      cfg.minReadLength ≤ (inp.pairedReads (i * NUM_READS_PER_PAIR + 1)).getDataLength)) :
    ∃ b : Bool, slotCalls i (align_first_stage cfg D inp s).1.calls = slotCalls i s.calls ++
      (if b = true then [Call.phase2toTarget i clusterTargetLoc] else []) := by
  obtain ⟨a, ha, hfin, -⟩ := firstLoop_slot cfg D inp (s, true) i hi
  have hac : slotCalls i a.1.calls = slotCalls i s.calls := congrArg SlotView.calls ha
  have hLc : slotCalls i (forLoop (firstStageBody cfg D inp) inp.barcodeSize (s, true)).1.calls =
      slotCalls i (firstStageBody cfg D inp i a).1.calls := congrArg SlotView.calls hfin
  obtain ⟨c, hc, hcfin, -⟩ :=
    forLoop_slot (fun b : State σ => slotView i b) (fun _ => true) (targetLocBody D) i
      (fun k b hk => targetLocBody_frame D i k hk b) (fun _ _ h => h) inp.barcodeSize hi
      (forLoop (firstStageBody cfg D inp) inp.barcodeSize (s, true)).1
  have hcc : slotCalls i c.calls =
      slotCalls i (forLoop (firstStageBody cfg D inp) inp.barcodeSize (s, true)).1.calls :=
    congrArg SlotView.calls hc
  obtain ⟨t1, -⟩ := targetLocBody_slot D i c
  have hSc : slotCalls i (align_first_stage cfg D inp s).1.calls =
      slotCalls i (targetLocBody D i c).calls := congrArg SlotView.calls hcfin
  refine ⟨(c.progressTracker i).pairNotDone, ?_⟩
  rw [hSc, t1, hcc, hLc, firstStageBody_not_long cfg D inp i a hnl, hac]

/-- The first loop of Stage 1 on a pending pair with exactly one mate that is too short: the
tracker entry is left as it was and `barcodeFinished` is lowered. -/
theorem firstStageBody_one_short (cfg : Config) (D : Delegates σ β) (inp : Input) (i : Nat)
    (acc : State σ × Bool) (hp : (acc.1.progressTracker i).pairNotDone = true)
    (hns : ¬((inp.pairedReads (i * NUM_READS_PER_PAIR)).getDataLength < cfg.minReadLength ∧
      (inp.pairedReads (i * NUM_READS_PER_PAIR + 1)).getDataLength < cfg.minReadLength))
    (hnl : ¬(cfg.minReadLength ≤ (inp.pairedReads (i * NUM_READS_PER_PAIR)).getDataLength ∧
      cfg.minReadLength ≤ (inp.pairedReads (i * NUM_READS_PER_PAIR + 1)).getDataLength)) :
    (firstStageBody cfg D inp i acc).1.progressTracker i = acc.1.progressTracker i ∧
    (firstStageBody cfg D inp i acc).2 = false := by
  unfold firstStageBody
  rw [if_pos hp]
  dsimp only
  rw [if_neg hns, if_neg hnl]
  simp [State.modResult]

/-- Stage 1 on a slot of the batch with `pairNotDone` set and exactly one mate that is too
short: the tracker entry is unchanged, the only delegate invocation for the slot is the scan
to the target locus, and the stage returns false. -/
theorem align_first_stage_one_short (cfg : Config) (D : Delegates σ β) (inp : Input)
    (s : State σ) (i : Nat) (hi : i < inp.barcodeSize)
    (hp : (s.progressTracker i).pairNotDone = true)
    (hns : ¬((inp.pairedReads (i * NUM_READS_PER_PAIR)).getDataLength < cfg.minReadLength ∧
      (inp.pairedReads (i * NUM_READS_PER_PAIR + 1)).getDataLength < cfg.minReadLength))
    (hnl : ¬(cfg.minReadLength ≤ (inp.pairedReads (i * NUM_READS_PER_PAIR)).getDataLength ∧
      cfg.minReadLength ≤ (inp.pairedReads (i * NUM_READS_PER_PAIR + 1)).getDataLength)) :
    (align_first_stage cfg D inp s).1.progressTracker i = s.progressTracker i ∧
    slotCalls i (align_first_stage cfg D inp s).1.calls =
      slotCalls i s.calls ++ [Call.phase2toTarget i clusterTargetLoc] ∧
    (align_first_stage cfg D inp s).2 = false := by
  obtain ⟨a, ha, hfin, hflag⟩ := firstLoop_slot cfg D inp (s, true) i hi
  have hat : a.1.progressTracker i = s.progressTracker i := congrArg SlotView.tracker ha
  have hac : slotCalls i a.1.calls = slotCalls i s.calls := congrArg SlotView.calls ha
  obtain ⟨b1, b2⟩ := firstStageBody_one_short cfg D inp i a (by rw [hat, hp]) hns hnl
  have hLt : (forLoop (firstStageBody cfg D inp) inp.barcodeSize (s, true)).1.progressTracker i =
      (firstStageBody cfg D inp i a).1.progressTracker i := congrArg SlotView.tracker hfin
  have hLc : slotCalls i (forLoop (firstStageBody cfg D inp) inp.barcodeSize (s, true)).1.calls =
      slotCalls i (firstStageBody cfg D inp i a).1.calls := congrArg SlotView.calls hfin
  obtain ⟨c, hc, hcfin, -⟩ :=
    forLoop_slot (fun b : State σ => slotView i b) (fun _ => true) (targetLocBody D) i
      (fun k b hk => targetLocBody_frame D i k hk b) (fun _ _ h => h) inp.barcodeSize hi
      (forLoop (firstStageBody cfg D inp) inp.barcodeSize (s, true)).1
  have hct : c.progressTracker i =
      (forLoop (firstStageBody cfg D inp) inp.barcodeSize (s, true)).1.progressTracker i :=
    congrArg SlotView.tracker hc
  have hcc : slotCalls i c.calls =
      slotCalls i (forLoop (firstStageBody cfg D inp) inp.barcodeSize (s, true)).1.calls :=
    congrArg SlotView.calls hc
  obtain ⟨t1, t2⟩ := targetLocBody_slot D i c
  have hSt : (align_first_stage cfg D inp s).1.progressTracker i =
      (targetLocBody D i c).progressTracker i := congrArg SlotView.tracker hcfin
  have hSc : slotCalls i (align_first_stage cfg D inp s).1.calls =
      slotCalls i (targetLocBody D i c).calls := congrArg SlotView.calls hcfin
  have hcs : c.progressTracker i = s.progressTracker i := by rw [hct, hLt, b1, hat]
  refine ⟨by rw [hSt, t2, hcs], ?_, hflag b2⟩
  rw [hSc, t1, hcs, hp, hcc, hLc, firstStageBody_not_long cfg D inp i a hnl, hac]
  simp

/-- C14 (as stated, refuted): in the batch `shortFirstPair` slot 0 has `pairNotDone` set and
its mate 1 has length 50, at least the minimum 20, yet `align_first_stage` invokes neither
`align_phase_1` nor `align_phase_2_init` for the pair: the only delegate invocation is the scan
to the target locus of the second loop. -/
theorem first_stage_dispatch_counterexample :
    (freshState.progressTracker 0).pairNotDone = true ∧
    20 ≤ (shortFirstPair 1).getDataLength ∧
    (align_first_stage ⟨20, false⟩ (sampleDelegates 2 3) (sampleInput shortFirstPair 1 5 0)
      freshState).1.calls = [Call.phase2toTarget 0 0] := by
  decide

/-- C14 (amended): in `align_first_stage`, for a slot of the batch with `pairNotDone` set, if
both mates have data length of at least `minReadLength` then `align_phase_1` is invoked for the
pair, followed, when it signals continued work, by `align_phase_2_init` and the read of the
candidate locus, which is cached in the tracker (and `pairNotDone` becomes the answer of
`align_phase_2_init`); if one of the mates is shorter, no seed lookup, scan initialisation or
locus read is made for the pair.  When exactly one mate is shorter, the pair is not retired
(its tracker entry is unchanged, so `pairNotDone` stays set), the stage returns false (the
batch is marked not finished), and the only delegate invocation made for the pair is the scan
to the target locus of the second loop. -/
theorem first_stage_dispatch (cfg : Config) (D : Delegates σ β) (inp : Input) (s : State σ)
    (i : Nat) (hi : i < inp.barcodeSize) (hp : (s.progressTracker i).pairNotDone = true)
    (evs : List Call) (hevs : (align_first_stage cfg D inp s).1.calls = s.calls ++ evs) :
    ((cfg.minReadLength ≤ (inp.pairedReads (i * NUM_READS_PER_PAIR)).getDataLength ∧
      cfg.minReadLength ≤ (inp.pairedReads (i * NUM_READS_PER_PAIR + 1)).getDataLength) →
      ∃ (stop cont : Bool) (loci : GenomeLocation),
        slotCalls i evs =
          (Call.phase1 i stop ::
            (if stop = true then [] else [Call.phase2init i cont, Call.phase2getLoci i loci])) ++
          (if (!stop && cont) = true then [Call.phase2toTarget i clusterTargetLoc] else []) ∧
        (stop = false →
          ((align_first_stage cfg D inp s).1.progressTracker i).nextLoci = loci ∧
          ((align_first_stage cfg D inp s).1.progressTracker i).next = none ∧
          ((align_first_stage cfg D inp s).1.progressTracker i).pairNotDone = cont) ∧
        (stop = true →
          ((align_first_stage cfg D inp s).1.progressTracker i).pairNotDone = false)) ∧
    (¬(cfg.minReadLength ≤ (inp.pairedReads (i * NUM_READS_PER_PAIR)).getDataLength ∧
      cfg.minReadLength ≤ (inp.pairedReads (i * NUM_READS_PER_PAIR + 1)).getDataLength) →
      (∀ stop, Call.phase1 i stop ∉ evs) ∧ (∀ cont, Call.phase2init i cont ∉ evs) ∧
      (∀ loci, Call.phase2getLoci i loci ∉ evs)) ∧
    ((((inp.pairedReads (i * NUM_READS_PER_PAIR)).getDataLength < cfg.minReadLength ∧
        cfg.minReadLength ≤ (inp.pairedReads (i * NUM_READS_PER_PAIR + 1)).getDataLength) ∨
      (cfg.minReadLength ≤ (inp.pairedReads (i * NUM_READS_PER_PAIR)).getDataLength ∧
        (inp.pairedReads (i * NUM_READS_PER_PAIR + 1)).getDataLength < cfg.minReadLength)) →
      (align_first_stage cfg D inp s).1.progressTracker i = s.progressTracker i ∧
      ((align_first_stage cfg D inp s).1.progressTracker i).pairNotDone = true ∧
      (align_first_stage cfg D inp s).2 = false ∧
      slotCalls i evs = [Call.phase2toTarget i clusterTargetLoc]) := by
  refine ⟨?_, ?_, ?_⟩
  · rintro ⟨hl0, hl1⟩
    obtain ⟨stop, cont, loci, e1, p1, -, -, n1⟩ :=
      align_first_stage_long cfg D inp s i hi hp hl0 hl1
    refine ⟨stop, cont, loci, slotCalls_new hevs (by rw [e1, List.append_assoc]), ?_, ?_⟩
    · intro h
      refine ⟨(n1 h).1, (n1 h).2, ?_⟩
      rw [p1, h]
      simp
    · intro h
      rw [p1, h]
      simp
  · intro hnl
    obtain ⟨b, e1⟩ := align_first_stage_not_long cfg D inp s i hi hnl
    have hnew := slotCalls_new hevs e1
    refine ⟨?_, ?_, ?_⟩
    · intro x hm
      have : Call.phase1 i x ∈ slotCalls i evs := mem_slotCalls.mpr ⟨hm, rfl⟩
      rw [hnew] at this
      split_ifs at this <;> simp at this
    · intro x hm
      have : Call.phase2init i x ∈ slotCalls i evs := mem_slotCalls.mpr ⟨hm, rfl⟩
      rw [hnew] at this
      split_ifs at this <;> simp at this
    · intro x hm
      have : Call.phase2getLoci i x ∈ slotCalls i evs := mem_slotCalls.mpr ⟨hm, rfl⟩
      rw [hnew] at this
      split_ifs at this <;> simp at this
  · intro hone
    obtain ⟨k1, k2, k3⟩ := align_first_stage_one_short cfg D inp s i hi hp
      (by omega) (by omega)
    exact ⟨k1, by rw [k1, hp], k3, slotCalls_new hevs k2⟩

/-- C14 (amended) at the three-pair batch: for pair 1 the log of Stage 1 shows seed lookup,
scan initialisation, the locus read and the scan to the target locus, and the locus 1001 is
cached in the tracker. -/
theorem first_stage_dispatch_witness :
    ((align_first_stage ⟨20, false⟩ (sampleDelegates 2 1) (sampleInput threePairs 3 5 5)
      freshState).1.progressTracker 1).nextLoci = 1001 := by
  obtain ⟨stop, cont, loci, hl, h1, -⟩ :=
    (first_stage_dispatch ⟨20, false⟩ (sampleDelegates 2 1) (sampleInput threePairs 3 5 5)
      freshState 1 (by decide) rfl
      [Call.phase1 1 false, Call.phase2init 1 true, Call.phase2getLoci 1 1001,
        Call.phase1 2 false, Call.phase2init 2 true, Call.phase2getLoci 2 1002,
        Call.phase2toTarget 1 0, Call.phase2toTarget 2 0] (by decide)).1 (by decide)
  cases stop
  · simp [slotCalls, Call.slot] at hl
    rw [hl.2.1]
    exact (h1 rfl).1
  · simp [slotCalls, Call.slot] at hl

/-- C15: idempotence on a finished batch.  When every slot of the batch has `pairNotDone` and
`singleNotDone` cleared, `align` returns true and the whole state is unchanged: every result
record, every paired and single-end secondary count, every tracker entry, and the invocation
log, so no delegate is invoked. -/
theorem align_idempotent_on_finished (cfg : Config) (D : Delegates σ β) (inp : Input)
    (s : State σ)
    (hall : ∀ i, i < inp.barcodeSize →
      (s.progressTracker i).pairNotDone = false ∧ (s.progressTracker i).singleNotDone = false) :
    align cfg D inp s = (s, true) :=
  align_of_no_pair_pending cfg D inp s (fun i hi => (hall i hi).1)

/-- C15 at the finished three-pair batch: a second call returns true and logs nothing. -/
theorem align_idempotent_on_finished_witness :
    (align ⟨20, false⟩ (sampleDelegates 2 1) (sampleInput threePairs 3 5 5) finishedState).2 =
      true ∧
    (align ⟨20, false⟩ (sampleDelegates 2 1) (sampleInput threePairs 3 5 5)
      finishedState).1.calls = finishedState.calls := by
  rw [align_idempotent_on_finished ⟨20, false⟩ (sampleDelegates 2 1)
    (sampleInput threePairs 3 5 5) finishedState (by decide)]
  exact ⟨rfl, rfl⟩

/-- C17: a slot that enters `align` with `pairNotDone` and `singleNotDone` cleared has the same
result row (the `PairedAlignmentResult` record and the secondary results behind it) and the
same tracker entry after the call, whatever happens to the other slots. -/
theorem align_preserves_retired (cfg : Config) (D : Delegates σ β) (inp : Input) (s : State σ)
    (i : Nat) (hp : (s.progressTracker i).pairNotDone = false)
    (hs : (s.progressTracker i).singleNotDone = false) :
    (align cfg D inp s).1.result i = s.result i ∧
    (align cfg D inp s).1.progressTracker i = s.progressTracker i := by
  have h1 := align_first_stage_retired cfg D inp s i hp
  have ht1 : (align_first_stage cfg D inp s).1.progressTracker i = s.progressTracker i :=
    congrArg SlotView.tracker h1
  have hA := (align_view_of_retired_after_first cfg D inp s i (by rw [ht1, hp])
    (by rw [ht1, hs])).trans h1
  exact ⟨congrArg SlotView.row hA, congrArg SlotView.tracker hA⟩

/-- C17 at the three-pair batch after a Stage 2 overflow: in the next call, with capacity 5,
the retired pair 0 keeps its result and its flags while pairs 1 and 2 are worked on. -/
theorem align_preserves_retired_witness :
    (align ⟨20, false⟩ (sampleDelegates 2 1) (sampleInput threePairs 3 5 5)
      overflowedState).1.result 0 = overflowedState.result 0 ∧
    (align ⟨20, false⟩ (sampleDelegates 2 1) (sampleInput threePairs 3 5 5)
      overflowedState).1.progressTracker 0 = overflowedState.progressTracker 0 :=
  align_preserves_retired ⟨20, false⟩ (sampleDelegates 2 1) (sampleInput threePairs 3 5 5)
    overflowedState 0 (by decide) (by decide)

/-! ## Progress flags are only ever cleared -/

theorem firstStageBody_single (cfg : Config) (D : Delegates σ β) (inp : Input) (k i : Nat)
    (acc : State σ × Bool) (h : (acc.1.progressTracker i).singleNotDone = false) :
    ((firstStageBody cfg D inp k acc).1.progressTracker i).singleNotDone = false := by
  by_cases hk : k = i
  · subst hk
    unfold firstStageBody
    dsimp only
    split_ifs <;> simp [State.modResult, State.modTracker, State.log, setAt, h]
  · have := congrArg (fun v => v.tracker.singleNotDone) (firstStageBody_frame cfg D inp i k hk acc)
    simpa [slotView, h] using this

theorem targetLocBody_tracker (D : Delegates σ β) (k : Nat) (s : State σ) :
    (targetLocBody D k s).progressTracker = s.progressTracker := by
  unfold targetLocBody
  split_ifs <;> simp [State.log]

theorem align_first_stage_single (cfg : Config) (D : Delegates σ β) (inp : Input)
    (s : State σ) (i : Nat) (h : (s.progressTracker i).singleNotDone = false) :
    ((align_first_stage cfg D inp s).1.progressTracker i).singleNotDone = false := by
  have h1 : ((forLoop (firstStageBody cfg D inp) inp.barcodeSize (s, true)).1.progressTracker
      i).singleNotDone = false :=
    forLoop_inv (fun b : State σ × Bool => (b.1.progressTracker i).singleNotDone = false)
      _ _ (s, true) h (fun k b _ hb => firstStageBody_single cfg D inp k i b hb)
  exact forLoop_inv (fun b : State σ => (b.progressTracker i).singleNotDone = false) _ _ _ h1
    (fun k b _ hb => by
      show ((targetLocBody D k b).progressTracker i).singleNotDone = false
      rw [targetLocBody_tracker]
      exact hb)

theorem secondStageBody_single (cfg : Config) (D : Delegates σ β) (inp : Input) (k i : Nat)
    (acc : State σ × Bool) (h : (acc.1.progressTracker i).singleNotDone = false) :
    ((secondStageBody cfg D inp k acc).1.progressTracker i).singleNotDone = false := by
  by_cases hk : k = i
  · subst hk
    rcases Bool.eq_false_or_eq_true (acc.1.progressTracker k).pairNotDone with hp | hp
    · rcases secondStageBody_cases cfg D inp k acc hp with
        ⟨-, -, -, -, -, c6, -⟩ | ⟨st0, st1, -, -, -, -, -, -, -, c8⟩
      · rw [c6, h]
      · rw [c8, h]
        split_ifs <;> rfl
    · unfold secondStageBody
      simp [hp, h]
  · have := congrArg (fun v => v.tracker.singleNotDone)
      (secondStageBody_frame cfg D inp i k hk acc)
    simpa [slotView, h] using this

theorem align_second_stage_single (cfg : Config) (D : Delegates σ β) (inp : Input)
    (s : State σ) (i : Nat) (h : (s.progressTracker i).singleNotDone = false) :
    ((align_second_stage cfg D inp s).1.progressTracker i).singleNotDone = false :=
  forLoop_inv (fun b : State σ × Bool => (b.1.progressTracker i).singleNotDone = false)
    _ _ (s, true) h (fun k b _ hb => secondStageBody_single cfg D inp k i b hb)

/-- C18: progress flags only ever go from set to cleared.  For each of `align_first_stage`,
`align_second_stage`, `align_third_stage` and `align`, and for every slot, a `pairNotDone`
flag that is false at entry is false on return, and so is a `singleNotDone` flag. -/
theorem flags_never_raised (cfg : Config) (D : Delegates σ β) (inp : Input) (s : State σ)
    (i : Nat) :
    ((s.progressTracker i).pairNotDone = false →
      ((align_first_stage cfg D inp s).1.progressTracker i).pairNotDone = false ∧
      ((align_second_stage cfg D inp s).1.progressTracker i).pairNotDone = false ∧
      ((align_third_stage cfg D inp s).1.progressTracker i).pairNotDone = false ∧
      ((align cfg D inp s).1.progressTracker i).pairNotDone = false) ∧
    ((s.progressTracker i).singleNotDone = false →
      ((align_first_stage cfg D inp s).1.progressTracker i).singleNotDone = false ∧
      ((align_second_stage cfg D inp s).1.progressTracker i).singleNotDone = false ∧
      ((align_third_stage cfg D inp s).1.progressTracker i).singleNotDone = false ∧
      ((align cfg D inp s).1.progressTracker i).singleNotDone = false) := by
  have pair1 : ∀ t : State σ, (t.progressTracker i).pairNotDone = false →
      ((align_first_stage cfg D inp t).1.progressTracker i).pairNotDone = false := by
    intro t ht
    have := congrArg (fun v => v.tracker.pairNotDone) (align_first_stage_retired cfg D inp t i ht)
    simpa [slotView, ht] using this
  have pair2 : ∀ t : State σ, (t.progressTracker i).pairNotDone = false →
      ((align_second_stage cfg D inp t).1.progressTracker i).pairNotDone = false := by
    intro t ht
    have := congrArg (fun v => v.tracker.pairNotDone) (align_second_stage_retired cfg D inp t i ht)
    simpa [slotView, ht] using this
  have pair3 : ∀ t : State σ, (t.progressTracker i).pairNotDone = false →
      ((align_third_stage cfg D inp t).1.progressTracker i).pairNotDone = false := by
    intro t ht
    rw [align_third_stage_pairNotDone]
    exact ht
  have single3 : ∀ t : State σ, (t.progressTracker i).singleNotDone = false →
      ((align_third_stage cfg D inp t).1.progressTracker i).singleNotDone = false := by
    intro t ht
    have := congrArg (fun v => v.tracker.singleNotDone)
      (align_third_stage_retired cfg D inp t i ht)
    simpa [slotView, ht] using this
  refine ⟨fun hp => ⟨pair1 s hp, pair2 s hp, pair3 s hp, ?_⟩,
    fun hs => ⟨align_first_stage_single cfg D inp s i hs,
      align_second_stage_single cfg D inp s i hs, single3 s hs, ?_⟩⟩
  · rw [align_eq]
    split_ifs
    · exact pair1 s hp
    · exact pair2 _ (pair1 s hp)
    · exact pair3 _ (pair2 _ (pair1 s hp))
  · rw [align_eq]
    split_ifs
    · exact align_first_stage_single cfg D inp s i hs
    · exact align_second_stage_single cfg D inp _ i (align_first_stage_single cfg D inp s i hs)
    · exact single3 _ (align_second_stage_single cfg D inp _ i
        (align_first_stage_single cfg D inp s i hs))

/-- C18 at the three-pair batch after a Stage 2 overflow: the retired pair 0 is not
re-activated by the next call of `align`. -/
theorem flags_never_raised_witness :
    ((align ⟨20, false⟩ (sampleDelegates 2 1) (sampleInput threePairs 3 5 5)
      overflowedState).1.progressTracker 0).pairNotDone = false ∧
    ((align ⟨20, false⟩ (sampleDelegates 2 1) (sampleInput threePairs 3 5 5)
      overflowedState).1.progressTracker 0).singleNotDone = false :=
  ⟨((flags_never_raised ⟨20, false⟩ (sampleDelegates 2 1) (sampleInput threePairs 3 5 5)
      overflowedState 0).1 (by decide)).2.2.2,
    ((flags_never_raised ⟨20, false⟩ (sampleDelegates 2 1) (sampleInput threePairs 3 5 5)
      overflowedState 0).2 (by decide)).2.2.2⟩

/-! ## The return value of a stage and the overflows it logged -/

/-- Chaining two steps each of which lowers a flag exactly when it logs an invocation
satisfying `P`. -/
theorem flag_iff_trans {P : Call → Prop} {l0 l1 l2 evs new : List Call} {f0 f1 f2 : Bool}
    (h1 : l1 = l0 ++ evs) (hf1 : f1 = false ↔ f0 = false ∨ ∃ c ∈ evs, P c)
    (h2 : l2 = l1 ++ new) (hf2 : f2 = false ↔ f1 = false ∨ ∃ c ∈ new, P c) :
    l2 = l0 ++ (evs ++ new) ∧ (f2 = false ↔ f0 = false ∨ ∃ c ∈ evs ++ new, P c) := by
  refine ⟨by rw [h2, h1, List.append_assoc], ?_⟩
  rw [hf2, hf1]
  constructor
  · rintro ((h | ⟨c, hc, hp⟩) | ⟨c, hc, hp⟩)
    · exact Or.inl h
    · exact Or.inr ⟨c, List.mem_append.mpr (Or.inl hc), hp⟩
    · exact Or.inr ⟨c, List.mem_append.mpr (Or.inr hc), hp⟩
  · rintro (h | ⟨c, hc, hp⟩)
    · exact Or.inl (Or.inl h)
    · rcases List.mem_append.mp hc with h | h
      · exact Or.inl (Or.inr ⟨c, h, hp⟩)
      · exact Or.inr ⟨c, h, hp⟩

theorem forLoop_flag_iff {α : Type} (calls : α → List Call) (flag : α → Bool)
    (P : Call → Prop) (body : Nat → α → α) (n : Nat) (a : α)
    (hstep : ∀ k b, ∃ new, calls (body k b) = calls b ++ new ∧
      (flag (body k b) = false ↔ flag b = false ∨ ∃ c ∈ new, P c)) :
    ∃ evs, calls (forLoop body n a) = calls a ++ evs ∧
      (flag (forLoop body n a) = false ↔ flag a = false ∨ ∃ c ∈ evs, P c) := by
  refine forLoop_inv (fun b => ∃ evs, calls b = calls a ++ evs ∧
    (flag b = false ↔ flag a = false ∨ ∃ c ∈ evs, P c)) body n a ⟨[], by simp, by simp⟩ ?_
  rintro k b - ⟨evs, he, hf⟩
  obtain ⟨new, hn, hnf⟩ := hstep k b
  exact ⟨evs ++ new, flag_iff_trans he hf hn hnf⟩

theorem secondStageBody_overflow_iff (cfg : Config) (D : Delegates σ β) (inp : Input) (k : Nat)
    (acc : State σ × Bool) :
    ∃ new, (secondStageBody cfg D inp k acc).1.calls = acc.1.calls ++ new ∧
      ((secondStageBody cfg D inp k acc).2 = false ↔
        acc.2 = false ∨ ∃ c ∈ new, ∃ j cap, c = Call.phase3 j cap true) := by
  unfold secondStageBody
  dsimp only
  split_ifs with hp hov
  · refine ⟨[Call.phase3 k (inp.secondaryResultBufferSize k) true], ?_, ?_⟩
    · simp [afterPhase3, State.log, hov]
    · simp
  · obtain ⟨-, -, -, -, -, c6, -, -⟩ := classify_facts cfg k
      (afterPhase4 k (afterPhase3 inp k acc.1 (callPhase3 D inp k acc.1))
        (callPhase4 D inp k (afterPhase3 inp k acc.1 (callPhase3 D inp k acc.1))
          (callPhase3 D inp k acc.1).best))
    have hov' : (callPhase3 D inp k acc.1).secondaryBufferOverflow = false := by
      simpa using hov
    generalize callPhase4 D inp k (afterPhase3 inp k acc.1 (callPhase3 D inp k acc.1))
      (callPhase3 D inp k acc.1).best = p at c6 ⊢
    refine ⟨[Call.phase3 k (inp.secondaryResultBufferSize k) false,
      Call.phase4 k ((p.row 0).status 0) ((p.row 0).status 1)], ?_, ?_⟩
    · dsimp only
      rw [c6]
      simp [afterPhase4, afterPhase3, State.log, hov']
    · simp
  · exact ⟨[], by simp, by simp⟩

theorem thirdStageMate_overflow_iff (cfg : Config) (D : Delegates σ β) (inp : Input)
    (k r : Nat) (a : MateAcc σ) :
    ∃ new, (thirdStageMate cfg D inp k r a).1.state.calls = a.state.calls ++ new ∧
      ((thirdStageMate cfg D inp k r a).1.barcodeFinished = false ↔
        a.barcodeFinished = false ∨
          ∃ c ∈ new, ∃ j m cap off res n, c = Call.alignRead j m cap off false res n) := by
  unfold thirdStageMate
  dsimp only
  split_ifs with hshort hfit
  · exact ⟨[], by simp [State.modResult], by simp⟩
  · have hf : (callAlignRead D inp k r a.state).fitInSecondaryBuffer = false := by
      simpa using hfit
    refine ⟨[Call.alignRead k r (inp.singleSecondaryBufferSize k -
        a.state.nSingleEndSecondaryResults (NUM_READS_PER_PAIR * k))
      (a.state.nSingleEndSecondaryResults (NUM_READS_PER_PAIR * k))
      false (callAlignRead D inp k r a.state).singleResult
      (callAlignRead D inp k r a.state).singleEndSecondaryResultsThisTime], ?_, ?_⟩
    · simp [storeOverflow, afterAlignRead, State.log, hf]
    · simp
  · have hf : (callAlignRead D inp k r a.state).fitInSecondaryBuffer = true := by
      simpa using hfit
    refine ⟨[Call.alignRead k r (inp.singleSecondaryBufferSize k -
        a.state.nSingleEndSecondaryResults (NUM_READS_PER_PAIR * k))
      (a.state.nSingleEndSecondaryResults (NUM_READS_PER_PAIR * k))
      true (callAlignRead D inp k r a.state).singleResult
      (callAlignRead D inp k r a.state).singleEndSecondaryResultsThisTime], ?_, ?_⟩
    · simp [storeCount, afterAlignRead, State.modResult, State.log, hf]
    · simp

theorem thirdStageBody_overflow_iff (cfg : Config) (D : Delegates σ β) (inp : Input) (k : Nat)
    (acc : State σ × Bool) :
    ∃ new, (thirdStageBody cfg D inp k acc).1.calls = acc.1.calls ++ new ∧
      ((thirdStageBody cfg D inp k acc).2 = false ↔
        acc.2 = false ∨
          ∃ c ∈ new, ∃ j m cap off res n, c = Call.alignRead j m cap off false res n) := by
  have hloop : ∃ new, (forLoopBreak (thirdStageMate cfg D inp k) NUM_READS_PER_PAIR 0
      ⟨acc.1, acc.2, true⟩).state.calls = acc.1.calls ++ new ∧
      ((forLoopBreak (thirdStageMate cfg D inp k) NUM_READS_PER_PAIR 0
        ⟨acc.1, acc.2, true⟩).barcodeFinished = false ↔ acc.2 = false ∨
          ∃ c ∈ new, ∃ j m cap off res n, c = Call.alignRead j m cap off false res n) := by
    refine forLoopBreak_inv (fun b : MateAcc σ => ∃ new, b.state.calls = acc.1.calls ++ new ∧
      (b.barcodeFinished = false ↔ acc.2 = false ∨
        ∃ c ∈ new, ∃ j m cap off res n, c = Call.alignRead j m cap off false res n))
      _ _ _ ⟨acc.1, acc.2, true⟩ ⟨[], by simp, by simp⟩ ?_
    rintro r b - - ⟨evs, he, hf⟩
    obtain ⟨new, hn, hnf⟩ := thirdStageMate_overflow_iff cfg D inp k r b
    exact ⟨evs ++ new, flag_iff_trans he hf hn hnf⟩
  unfold thirdStageBody
  dsimp only
  split_ifs
  · simpa [State.modResult, State.modTracker] using hloop
  · exact hloop
  · exact ⟨[], by simp, by simp⟩

/-- Each stage returns true exactly when its log has no overflowing collection. -/
theorem stage_result_iff_no_overflow_event (cfg : Config) (D : Delegates σ β) (inp : Input)
    (s : State σ)
    (evs2 : List Call) (h2 : (align_second_stage cfg D inp s).1.calls = s.calls ++ evs2)
    (evs3 : List Call) (h3 : (align_third_stage cfg D inp s).1.calls = s.calls ++ evs3) :
    ((align_second_stage cfg D inp s).2 = true ↔ ∀ j cap, Call.phase3 j cap true ∉ evs2) ∧
    ((align_second_stage cfg D inp s).2 = true → ∀ i, i < inp.barcodeSize →
      ((align_second_stage cfg D inp s).1.progressTracker i).pairNotDone = false) ∧
    ((align_third_stage cfg D inp s).2 = true ↔
      ∀ j m cap off res n, Call.alignRead j m cap off false res n ∉ evs3) ∧
    ((align_third_stage cfg D inp s).2 = true → ∀ i, i < inp.barcodeSize →
      ((align_third_stage cfg D inp s).1.progressTracker i).singleNotDone = false) := by
  obtain ⟨e2, he2, hf2⟩ := forLoop_flag_iff (fun b : State σ × Bool => b.1.calls)
    (fun b => b.2) (fun c => ∃ j cap, c = Call.phase3 j cap true) (secondStageBody cfg D inp)
    inp.barcodeSize (s, true) (secondStageBody_overflow_iff cfg D inp)
  obtain ⟨e3, he3, hf3⟩ := forLoop_flag_iff (fun b : State σ × Bool => b.1.calls)
    (fun b => b.2) (fun c => ∃ j m cap off res n, c = Call.alignRead j m cap off false res n)
    (thirdStageBody cfg D inp) inp.barcodeSize (s, true) (thirdStageBody_overflow_iff cfg D inp)
  have hE2 : e2 = evs2 := List.append_cancel_left (he2.symm.trans h2)
  have hE3 : e3 = evs3 := List.append_cancel_left (he3.symm.trans h3)
  subst hE2 hE3
  refine ⟨?_, fun h i hi => align_second_stage_true cfg D inp s i hi h, ?_,
    fun h i hi => align_third_stage_true cfg D inp s i hi h⟩
  · constructor
    · intro ht j cap hm
      have : (align_second_stage cfg D inp s).2 = false :=
        hf2.mpr (Or.inr ⟨_, hm, j, cap, rfl⟩)
      rw [this] at ht
      exact Bool.noConfusion ht
    · intro hno
      by_contra hne
      rcases hf2.mp (by simpa using hne) with h | ⟨c, hc, j, cap, rfl⟩
      · exact Bool.noConfusion h
      · exact hno j cap hc
  · constructor
    · intro ht j m cap off res n hm
      have : (align_third_stage cfg D inp s).2 = false :=
        hf3.mpr (Or.inr ⟨_, hm, j, m, cap, off, res, n, rfl⟩)
      rw [this] at ht
      exact Bool.noConfusion ht
    · intro hno
      by_contra hne
      rcases hf3.mp (by simpa using hne) with h | ⟨c, hc, j, m, cap, off, res, n, rfl⟩
      · exact Bool.noConfusion h
      · exact hno j m cap off res n hc

theorem forLoop_events {α : Type} (calls : α → List Call) (flagAt : Nat → α → Bool)
    (body : Nat → α → α)
    (frame : ∀ i k b, k ≠ i → flagAt i (body k b) = flagAt i b)
    (step : ∀ k b, ∃ new, calls (body k b) = calls b ++ new ∧
      ∀ c ∈ new, c.slot = k ∧ flagAt k b = true) (n : Nat) (a : α) :
    ∃ evs, calls (forLoop body n a) = calls a ++ evs ∧
      ∀ c ∈ evs, c.slot < n ∧ flagAt c.slot a = true := by
  induction n with
  | zero => exact ⟨[], by simp [forLoop], by simp⟩
  | succ m ih =>
    obtain ⟨evs, he, hall⟩ := ih
    obtain ⟨new, hn, hnew⟩ := step m (forLoop body m a)
    have hflag : flagAt m (forLoop body m a) = flagAt m a :=
      forLoop_view_before (flagAt m) body m (frame m) m (le_refl m) a
    refine ⟨evs ++ new, ?_, ?_⟩
    · show calls (body m (forLoop body m a)) = calls a ++ (evs ++ new)
      rw [hn, he, List.append_assoc]
    · intro c hc
      rcases List.mem_append.mp hc with h | h
      · exact ⟨Nat.lt_succ_of_lt (hall c h).1, (hall c h).2⟩
      · obtain ⟨hs, hf⟩ := hnew c h
        rw [hs]
        exact ⟨Nat.lt_succ_self m, hflag ▸ hf⟩

theorem secondStageBody_origin (cfg : Config) (D : Delegates σ β) (inp : Input) (k : Nat)
    (acc : State σ × Bool) :
    ∃ new, (secondStageBody cfg D inp k acc).1.calls = acc.1.calls ++ new ∧
      ∀ c ∈ new, c.slot = k ∧ (acc.1.progressTracker k).pairNotDone = true := by
  unfold secondStageBody
  dsimp only
  split_ifs with hp hov
  · refine ⟨[Call.phase3 k (inp.secondaryResultBufferSize k) true], ?_, ?_⟩
    · simp [afterPhase3, State.log, hov]
    · simp [Call.slot, hp]
  · obtain ⟨-, -, -, -, -, c6, -, -⟩ := classify_facts cfg k
      (afterPhase4 k (afterPhase3 inp k acc.1 (callPhase3 D inp k acc.1))
        (callPhase4 D inp k (afterPhase3 inp k acc.1 (callPhase3 D inp k acc.1))
          (callPhase3 D inp k acc.1).best))
    have hov' : (callPhase3 D inp k acc.1).secondaryBufferOverflow = false := by
      simpa using hov
    generalize callPhase4 D inp k (afterPhase3 inp k acc.1 (callPhase3 D inp k acc.1))
      (callPhase3 D inp k acc.1).best = p at c6 ⊢
    refine ⟨[Call.phase3 k (inp.secondaryResultBufferSize k) false,
      Call.phase4 k ((p.row 0).status 0) ((p.row 0).status 1)], ?_, ?_⟩
    · dsimp only
      rw [c6]
      simp [afterPhase4, afterPhase3, State.log, hov']
    · simp [Call.slot, hp]
  · exact ⟨[], by simp, by simp⟩

theorem thirdStageMate_origin (cfg : Config) (D : Delegates σ β) (inp : Input) (k r : Nat)
    (a : MateAcc σ) :
    ∃ new, (thirdStageMate cfg D inp k r a).1.state.calls = a.state.calls ++ new ∧
      ∀ c ∈ new, c.slot = k := by
  unfold thirdStageMate
  dsimp only
  split_ifs <;>
    simp [storeOverflow, storeCount, afterAlignRead, State.modResult, State.log, Call.slot]

theorem thirdStageBody_origin (cfg : Config) (D : Delegates σ β) (inp : Input) (k : Nat)
    (acc : State σ × Bool) :
    ∃ new, (thirdStageBody cfg D inp k acc).1.calls = acc.1.calls ++ new ∧
      ∀ c ∈ new, c.slot = k ∧ (acc.1.progressTracker k).singleNotDone = true := by
  have hloop : ∃ new, (forLoopBreak (thirdStageMate cfg D inp k) NUM_READS_PER_PAIR 0
      ⟨acc.1, acc.2, true⟩).state.calls = acc.1.calls ++ new ∧ ∀ c ∈ new, c.slot = k := by
    refine forLoopBreak_inv (fun b : MateAcc σ => ∃ new, b.state.calls = acc.1.calls ++ new ∧
      ∀ c ∈ new, c.slot = k) _ _ _ ⟨acc.1, acc.2, true⟩ ⟨[], by simp, by simp⟩ ?_
    rintro r b - - ⟨evs, he, hk⟩
    obtain ⟨new, hn, hnk⟩ := thirdStageMate_origin cfg D inp k r b
    refine ⟨evs ++ new, by rw [hn, he, List.append_assoc], ?_⟩
    intro c hc
    rcases List.mem_append.mp hc with h | h
    · exact hk c h
    · exact hnk c h
  unfold thirdStageBody
  dsimp only
  split_ifs with hs hno
  · obtain ⟨new, hn, hk⟩ := hloop
    exact ⟨new, by simpa [State.modResult, State.modTracker] using hn,
      fun c hc => ⟨hk c hc, hs⟩⟩
  · obtain ⟨new, hn, hk⟩ := hloop
    exact ⟨new, hn, fun c hc => ⟨hk c hc, hs⟩⟩
  · exact ⟨[], by simp, by simp⟩

/-- Every delegate call logged by `align_second_stage` is for a slot of the batch that
entered the stage with `pairNotDone` set. -/
theorem align_second_stage_origin (cfg : Config) (D : Delegates σ β) (inp : Input)
    (s : State σ) (evs : List Call)
    (hevs : (align_second_stage cfg D inp s).1.calls = s.calls ++ evs) :
    ∀ c ∈ evs, c.slot < inp.barcodeSize ∧ (s.progressTracker c.slot).pairNotDone = true := by
  obtain ⟨e, he, hall⟩ := forLoop_events (fun b : State σ × Bool => b.1.calls)
    (fun i b => (b.1.progressTracker i).pairNotDone) (secondStageBody cfg D inp)
    (fun i k b hk => congrArg (fun v => v.tracker.pairNotDone)
      (secondStageBody_frame cfg D inp i k hk b))
    (secondStageBody_origin cfg D inp) inp.barcodeSize (s, true)
  have hE : e = evs := List.append_cancel_left (he.symm.trans hevs)
  subst hE
  exact hall

/-- Every delegate call logged by `align_third_stage` is for a slot of the batch that
entered the stage with `singleNotDone` set. -/
theorem align_third_stage_origin (cfg : Config) (D : Delegates σ β) (inp : Input)
    (s : State σ) (evs : List Call)
    (hevs : (align_third_stage cfg D inp s).1.calls = s.calls ++ evs) :
    ∀ c ∈ evs, c.slot < inp.barcodeSize ∧ (s.progressTracker c.slot).singleNotDone = true := by
  obtain ⟨e, he, hall⟩ := forLoop_events (fun b : State σ × Bool => b.1.calls)
    (fun i b => (b.1.progressTracker i).singleNotDone) (thirdStageBody cfg D inp)
    (fun i k b hk => congrArg (fun v => v.tracker.singleNotDone)
      (thirdStageBody_frame cfg D inp i k hk b))
    (thirdStageBody_origin cfg D inp) inp.barcodeSize (s, true)
  have hE : e = evs := List.append_cancel_left (he.symm.trans hevs)
  subst hE
  exact hall

/-- C19: the return value of a stage is exactly its no-overflow signal.  `align_second_stage`
returns true if and only if no slot of the batch with `pairNotDone` set at entry had its
collection phase report overflow, and then every slot of the batch has `pairNotDone` cleared
on return; `align_third_stage` returns true if and only if no slot of the batch with
`singleNotDone` set at entry had an `AlignRead` call report that its results do not fit, and
then every slot of the batch has `singleNotDone` cleared on return.  The overflows of a slot
are read off the invocations `evs2`, `evs3` the stage adds to the log. -/
theorem stage_result_is_no_overflow (cfg : Config) (D : Delegates σ β) (inp : Input)
    (s : State σ)
    (evs2 : List Call) (h2 : (align_second_stage cfg D inp s).1.calls = s.calls ++ evs2)
    (evs3 : List Call) (h3 : (align_third_stage cfg D inp s).1.calls = s.calls ++ evs3) :
    ((align_second_stage cfg D inp s).2 = true ↔
      ∀ i, i < inp.barcodeSize → (s.progressTracker i).pairNotDone = true →
        ∀ cap, Call.phase3 i cap true ∉ evs2) ∧
    ((align_second_stage cfg D inp s).2 = true → ∀ i, i < inp.barcodeSize →
      ((align_second_stage cfg D inp s).1.progressTracker i).pairNotDone = false) ∧
    ((align_third_stage cfg D inp s).2 = true ↔
      ∀ i, i < inp.barcodeSize → (s.progressTracker i).singleNotDone = true →
        ∀ m cap off res n, Call.alignRead i m cap off false res n ∉ evs3) ∧
    ((align_third_stage cfg D inp s).2 = true → ∀ i, i < inp.barcodeSize →
      ((align_third_stage cfg D inp s).1.progressTracker i).singleNotDone = false) := by
  obtain ⟨hs2, hp2, hs3, hp3⟩ := stage_result_iff_no_overflow_event cfg D inp s evs2 h2 evs3 h3
  refine ⟨?_, hp2, ?_, hp3⟩
  · rw [hs2]
    constructor
    · intro h i _ _ cap
      exact h i cap
    · intro h j cap hm
      have ho := align_second_stage_origin cfg D inp s evs2 h2 _ hm
      exact h j ho.1 ho.2 cap hm
  · rw [hs3]
    constructor
    · intro h i _ _ m cap off res n
      exact h i m cap off res n
    · intro h j m cap off res n hm
      have ho := align_third_stage_origin cfg D inp s evs3 h3 _ hm
      exact h j ho.1 ho.2 m cap off res n hm

theorem stage_result_is_no_overflow_witness :
    (align_second_stage ⟨20, false⟩ (sampleDelegates 2 1) (sampleInput threePairs 3 5 0)
      (align_first_stage ⟨20, false⟩ (sampleDelegates 2 1) (sampleInput threePairs 3 5 0)
        freshState).1).2 = true ∧
    ((align_second_stage ⟨20, false⟩ (sampleDelegates 2 1) (sampleInput threePairs 3 5 0)
      (align_first_stage ⟨20, false⟩ (sampleDelegates 2 1) (sampleInput threePairs 3 5 0)
        freshState).1).1.progressTracker 1).pairNotDone = false ∧
    (align_third_stage ⟨20, false⟩ (sampleDelegates 2 1) (sampleInput threePairs 3 5 0)
      (align_first_stage ⟨20, false⟩ (sampleDelegates 2 1) (sampleInput threePairs 3 5 0)
        freshState).1).2 ≠ true :=
  have h := stage_result_is_no_overflow ⟨20, false⟩ (sampleDelegates 2 1)
    (sampleInput threePairs 3 5 0)
    (align_first_stage ⟨20, false⟩ (sampleDelegates 2 1) (sampleInput threePairs 3 5 0)
      freshState).1
    [Call.phase3 1 5 false,
      Call.phase4 1 AlignmentResult.SingleHit AlignmentResult.SingleHit,
      Call.phase3 2 5 false,
      Call.phase4 2 AlignmentResult.SingleHit AlignmentResult.NotFound] (by decide)
    [Call.alignRead 1 0 0 0 false ⟨AlignmentResult.SingleHit, 500, Direction.RC, 2, 3, 70⟩ 0,
      Call.alignRead 2 0 0 0 false ⟨AlignmentResult.SingleHit, 500, Direction.RC, 2, 3, 70⟩ 0]
    (by decide)
  ⟨h.1.mpr (by simp), h.2.1 (h.1.mpr (by simp)) 1 (by decide),
    fun ht => h.2.2.1.mp ht 1 (by decide) (by decide) 0 0 0
      ⟨AlignmentResult.SingleHit, 500, Direction.RC, 2, 3, 70⟩ 0 (by decide)⟩

end TenXClusterAligner
